import Mathlib

/-!
# IPAC carrier drivers and the TIP810 CAN driver

Shallow embedding of the carrier drivers of the `ipac` module (Hytec 8002 in
its eager and its legacy lazy version, Hytec Linux carrier, XYCOM 9660,
Acromag APCIe8650), of the CAN driver for the TEWS TIP810, and the properties
proved about them.

Conventions of the embedding

* The target is the 32-bit VME world the drivers are written for: `int`,
  `unsigned int`, `size_t` and pointers are 32 bits wide (the drivers store
  pointers in `int` fields).  Values of these types are kept as numbers
  reduced modulo `2^32`; `word` / `unsigned short` fields modulo `2^16`.
* A C string is the list of its characters before the terminating NUL.
* Calls into devLib, `calloc` and reads of bus memory are outcomes supplied
  by the platform; they are parameters (`Env`) of the embedded functions, and
  every call that matters is recorded in a log held in the state.
-/

set_option autoImplicit false
set_option linter.unusedVariables false

/-! ## C library -/

namespace CLib

/-- The terminating character of a C string. -/
def NUL : Char := Char.ofNat 0

/-- Characters of a C string: everything before the first NUL. -/
def cstr (s : List Char) : List Char := s.takeWhile (fun c => c != NUL)

/-- Conversion of a mathematical integer to a 32-bit `int` (two's complement). -/
def toInt32 (v : Int) : Int := (v + 2147483648) % 4294967296 - 2147483648

/-- Reduction to an unsigned 32-bit quantity. -/
def toU32 (v : Int) : Nat := (v % 4294967296).toNat

/-- Reduction to an unsigned 16-bit quantity (`word`, `unsigned short`). -/
def toWord (v : Int) : Nat := (v % 65536).toNat

/-- `isspace` in the C locale. -/
def isspace (c : Char) : Bool :=
  c.toNat = 32 || (9 ≤ c.toNat && c.toNat ≤ 13)

/-- `isdigit`. -/
def isdigit (c : Char) : Bool := 48 ≤ c.toNat && c.toNat ≤ 57

/-- Value of a decimal digit. -/
def digitVal (c : Char) : Nat := c.toNat - 48

/-- Longest run of decimal digits, accumulated in base ten. -/
def scanDigits : List Char → Nat → Nat × List Char
  | [], acc => (acc, [])
  | c :: cs, acc =>
    if isdigit c then scanDigits cs (acc * 10 + digitVal c) else (acc, c :: cs)

/-- Outcome of one `scanf` conversion. -/
inductive Conv where
  | eof
  | mismatch
  | ok (v : Int) (rest : List Char)
  deriving DecidableEq, Repr

/-- The `%d` conversion: white space is skipped, then an optional sign and
a non-empty run of decimal digits are read; the value is stored in an `int`
(a value outside the range of `int`, which C leaves undefined, is taken
modulo `2^32`). -/
def convD (s : List Char) : Conv :=
  match s.dropWhile isspace with
  | [] => Conv.eof
  | c :: cs =>
    let neg : Bool := c.toNat = 45
    let body : List Char := if c.toNat = 45 || c.toNat = 43 then cs else c :: cs
    match body with
    | [] => Conv.mismatch
    | d :: _ =>
      if isdigit d then
        let r := scanDigits body 0
        Conv.ok (toInt32 (if neg then - (r.1 : Int) else (r.1 : Int))) r.2
      else Conv.mismatch

/-- The call `sscanf(s, "%d", &x)`: return value and the new content of `x`. -/
def sscanf_d (s : List Char) (x : Int) : Int × Int :=
  match convD s with
  | Conv.eof => (-1, x)
  | Conv.mismatch => (0, x)
  | Conv.ok v _ => (1, v)

/-- Result of `sscanf(s, "%d,%d,%n", &a, &b, &n)`. -/
structure Scan2 where
  count : Int
  a : Int
  b : Int
  n : Nat
  deriving DecidableEq, Repr

/-- The call `sscanf(s, "%d,%d,%n", &a, &b, &n)` on variables holding
`a`, `b`, `n` before the call. -/
def sscanf_d_d_n (s : List Char) (a b : Int) (n : Nat) : Scan2 :=
  match convD s with
  | Conv.eof => ⟨-1, a, b, n⟩
  | Conv.mismatch => ⟨0, a, b, n⟩
  | Conv.ok v r1 =>
    match r1 with
    | [] => ⟨1, v, b, n⟩
    | c1 :: r2 =>
      if c1.toNat = 44 then
        match convD r2 with
        | Conv.ok w r3 =>
          match r3 with
          | [] => ⟨2, v, w, n⟩
          | c2 :: r4 =>
            if c2.toNat = 44 then ⟨2, v, w, s.length - r4.length⟩ else ⟨2, v, w, n⟩
        | _ => ⟨1, v, b, n⟩
      else ⟨1, v, b, n⟩

/-- Does `needle` start the text `s`. -/
def startsWith : List Char → List Char → Bool
  | [], _ => true
  | _ :: _, [] => false
  | p :: ps, c :: cs => p.toNat = c.toNat && startsWith ps cs

/-- `strstr(s, needle)`: the tail of `s` that starts at the first occurrence
of `needle`, or `none` for the null pointer. -/
def strstr : List Char → List Char → Option (List Char)
  | [], needle => if startsWith needle [] then some [] else none
  | c :: cs, needle =>
    if startsWith needle (c :: cs) then some (c :: cs) else strstr cs needle

end CLib

/-! ## Status codes of the IPAC layer -/

/-- Modelled from the spec: the status codes of `drvIpac.h`, a header that is
not among the sources.  The drivers document `M_ipac` as `600 << 16`; the
codes are distinct non-zero values above it. -/
def M_ipac : Int := 39321600

/-- Success. -/
def OK : Int := 0

/-- Modelled from the spec: bad address / parameter string error. -/
def S_IPAC_badAddress : Int := M_ipac + 3

/-- Modelled from the spec: signature mismatch. -/
def S_IPAC_badModule : Int := M_ipac + 8

/-- Modelled from the spec: command not implemented. -/
def S_IPAC_notImplemented : Int := M_ipac + 9

/-- Modelled from the spec: interrupt level cannot be enabled. -/
def S_IPAC_badIntLevel : Int := M_ipac + 12

/-- Modelled from the spec: allocation failure. -/
def S_IPAC_noMemory : Int := M_ipac + 13

/-- Modelled from the spec: the address spaces of `ipac_addr_t` in
`drvIpac.h`; `other` stands for any value outside the four enumerators. -/
inductive ipac_addr_t where
  | ipac_addrID
  | ipac_addrIO
  | ipac_addrIO32
  | ipac_addrMem
  | other (n : Nat)
  deriving DecidableEq, Repr

/-! ## Platform: devLib, allocation, bus memory -/

/-- Address types of devLib used by the drivers. -/
inductive epicsAddressType where
  | atVMEA16
  | atVMEA32
  deriving DecidableEq, Repr

/-- One call of `devRegisterAddress`: address type, bus address, size. -/
structure RegCall where
  addrType : epicsAddressType
  base : Nat
  size : Nat
  deriving DecidableEq, Repr

/-- Outcomes supplied by the platform during one driver call.
`devRegisterAddress earlier call` is the status of the call and the content of
the pointer variable it was handed after the call (for a failed call: whatever
that variable held).  `readChar a` is the value of `*(char *) a`. -/
structure Env where
  devRegisterAddress : List RegCall → RegCall → Int × Nat
  devUnregisterAddress : epicsAddressType → Nat → Int
  readChar : Nat → Int
  callocOK : Bool
  devEnableInterruptLevel : Int → Int
  devWriteProbe : Nat → Nat → Int

/-- Modelled from the spec: size of the carrier register window, a constant
the eager driver takes from a header that is not among the sources (the
legacy driver defines the same name as `0xA0`). -/
def VME_MEM_SIZE : Nat := 0xA0

/-- Modelled from the spec: A16 footprint of one IP slot (`0x0100` in the
legacy driver and in the Linux carrier driver). -/
def IP_MEM_SIZE : Nat := 0x0100

/-- Modelled from the spec: one megabyte (`0x100000` in the legacy driver). -/
def ONEMB : Nat := 0x100000

/-- Modelled from the spec: number of IP slots of the carrier (the jump table
of the driver announces four slots). -/
def NUMIPSLOTS : Nat := 4

/-! ## Eager driver, `drvIpac/drvHy8002.c` -/

namespace Hy8002

open CLib

/-- Output variables of `scanparm` (the seven `int *` arguments). -/
structure ScanOut where
  vmeslotnum : Int
  IPintlevel : Int
  ipmem : Int
  ipclck : Int
  roak : Int
  domemreg : Int
  memoffs : Int
  deriving DecidableEq, Repr

/-- Last option of `scanparm`: `MEMOFFS=`. -/
def scanparm_MEMOFFS (cp : List Char) (o : ScanOut) : Int × ScanOut :=
  match strstr cp "MEMOFFS=".toList with
  | some pstart =>
    let r := sscanf_d (pstart.drop 8) 0
    if r.1 ≠ 1 ∨ r.2 < 0 ∨ r.2 > 131072 then (S_IPAC_badAddress, o)
    else (OK, { o with domemreg := 1, memoffs := r.2 })
  | none => (OK, o)

/-- Option `ROAK=` of `scanparm`, followed by the remaining options. -/
def scanparm_ROAK (cp : List Char) (o : ScanOut) : Int × ScanOut :=
  match strstr cp "ROAK=".toList with
  | some pstart =>
    let r := sscanf_d (pstart.drop 5) 0
    if r.1 ≠ 1 ∨ (r.2 ≠ 0 ∧ r.2 ≠ 1) then (S_IPAC_badAddress, o)
    else scanparm_MEMOFFS cp { o with roak := r.2 }
  | none => scanparm_MEMOFFS cp o

/-- Option `IPCLCK=` of `scanparm`, followed by the remaining options. -/
def scanparm_IPCLCK (cp : List Char) (o : ScanOut) : Int × ScanOut :=
  match strstr cp "IPCLCK=".toList with
  | some pstart =>
    let r := sscanf_d (pstart.drop 7) 0
    if r.1 ≠ 1 ∨ (r.2 ≠ 8 ∧ r.2 ≠ 32) then (S_IPAC_badAddress, o)
    else scanparm_ROAK cp { o with ipclck := r.2 }
  | none => scanparm_ROAK cp o

/-- Option `IPMEM=` of `scanparm`, followed by the remaining options. -/
def scanparm_IPMEM (cp : List Char) (o : ScanOut) : Int × ScanOut :=
  match strstr cp "IPMEM=".toList with
  | some pstart =>
    let r := sscanf_d (pstart.drop 6) 0
    if r.1 ≠ 1 ∨ (r.2 ≠ 1 ∧ r.2 ≠ 2 ∧ r.2 ≠ 4 ∧ r.2 ≠ 8) then (S_IPAC_badAddress, o)
    else scanparm_IPCLCK cp { o with ipmem := r.2 }
  | none => scanparm_IPCLCK cp o

/-- The eight-argument `scanparm`: `cp` is the parameter string (`none` for
the null pointer), `o` holds the caller's output variables before the call;
the result is the return value and the output variables after the call. -/
def scanparm (cp : Option (List Char)) (o : ScanOut) : Int × ScanOut :=
  match cp with
  | none => (S_IPAC_badAddress, o)
  | some raw =>
    let s := cstr raw
    if s.length = 0 then (S_IPAC_badAddress, o)
    else
      let r := sscanf_d_d_n s 0 0 0
      if r.count ≠ 2 then (S_IPAC_badAddress, o)
      else if r.a < 0 ∨ r.a > 21 then (S_IPAC_badAddress, o)
      else if r.b < 0 ∨ r.b > 7 then (S_IPAC_badAddress, { o with vmeslotnum := r.a })
      else
        scanparm_IPMEM (s.drop r.n)
          { vmeslotnum := r.a, IPintlevel := r.b, ipmem := 1, ipclck := 8, roak := 0,
            domemreg := 0, memoffs := 0 }

/-- One row of `ipadresses[NUMIPSLOTS][IPAC_ADDR_SPACES]`. -/
structure SlotAddrs where
  idAddr : Nat
  ioAddr : Nat
  io32Addr : Nat
  memAddr : Nat
  deriving DecidableEq, Repr

/-- Entry of a row for an address space (`other` is outside the table). -/
def SlotAddrs.get (r : SlotAddrs) : ipac_addr_t → Nat
  | ipac_addr_t.ipac_addrID => r.idAddr
  | ipac_addr_t.ipac_addrIO => r.ioAddr
  | ipac_addr_t.ipac_addrIO32 => r.io32Addr
  | ipac_addr_t.ipac_addrMem => r.memAddr
  | ipac_addr_t.other _ => 0

/-- Private structure `privinfo` (the `next` link is the tail of `carlist`). -/
structure privinfo where
  vmeslotnum : Nat
  carrier : Nat
  IPintlevel : Nat
  baseadr : Nat
  model : Int
  clock : Int
  intrels : Int
  ipmemmode : Nat
  isgeomem : Nat
  memoffs : Nat
  csrcb : Nat
  ipintsel : Nat
  ipadresses : List SlotAddrs
  deriving DecidableEq, Repr

/-- A `privinfo` as `calloc` returns it. -/
def privinfo.zero : privinfo :=
  { vmeslotnum := 0, carrier := 0, IPintlevel := 0, baseadr := 0, model := 0, clock := 0,
    intrels := 0, ipmemmode := 0, isgeomem := 0, memoffs := 0, csrcb := 0, ipintsel := 0,
    ipadresses := List.replicate NUMIPSLOTS ⟨0, 0, 0, 0⟩ }

/-- Driver globals and the effects on the platform that the driver caused. -/
structure World where
  carlist : List privinfo
  regCalls : List RegCall
  unregCalls : List (epicsAddressType × Nat)
  hwWrites : List (Nat × Nat)
  intLevels : List Int
  deriving DecidableEq, Repr

def CARR_IPSTAT : Nat := 0x00
def CARR_MEMOFF : Nat := 0x04
def CARR_CSR : Nat := 0x08
def CARR_INTSEL : Nat := 0x0C
def CARR_MANID : Nat := 0x89
def CARR_MODID : Nat := 0x8B
def VME_CARR_MAN1 : Nat := 0x22B
def VME_CARR_MAN2 : Nat := 0x22F
def VME_CARR_MOD1 : Nat := 0x233
def VME_CARR_MOD2 : Nat := 0x237
def HYTECID : Int := 0x8003
def PROM_MODEL : Int := 0x8002
def PROM_MODEL_8003 : Int := 0x8003
def MANUFACTURER_HYTEC : Int := 0x80
def HYTEC_PROM_MODEL : Int := 0x82
def HYTEC_PROM_MODEL_8003 : Int := 0x83
def CSR_CLKSEL : Nat := 0x0020
def CSR_MEMMODE : Nat := 0x0040
def CSR_INTRELS : Nat := 0x0200
def CSR_INTSELSHIFT : Nat := 2
def CSR_IPMEMSHIFT : Nat := 7

/-- Sum of a 32-bit address and an offset. -/
def addr32 (base off : Nat) : Nat := (base + off) % 4294967296

/-- The `checkVMEprom(unsigned int base)` of the eager driver. -/
def checkVMEprom (env : Env) (base : Nat) : Int :=
  let manid := (env.readChar (addr32 base VME_CARR_MAN1) * 256
                + env.readChar (addr32 base VME_CARR_MAN2)) % 65536
  let ishytec : Bool :=
    if manid = HYTECID then true
    else decide (env.readChar (addr32 base CARR_MANID) % 256 = MANUFACTURER_HYTEC)
  let modelnum := (env.readChar (addr32 base VME_CARR_MOD1) * 256
                + env.readChar (addr32 base VME_CARR_MOD2)) % 65536
  let ismodel : Bool :=
    if modelnum = PROM_MODEL ∨ modelnum = PROM_MODEL_8003 then true
    else
      let m := env.readChar (addr32 base CARR_MODID) % 256
      decide (m = HYTEC_PROM_MODEL ∨ m = HYTEC_PROM_MODEL_8003)
  if ishytec && ismodel then OK else S_IPAC_badModule

/-- Local state of `regaddr`: the private structure, the registrations done,
and the locals `retval` and `basetmp`. -/
structure RegState where
  pv : privinfo
  regCalls : List RegCall
  retval : Nat
  basetmp : Nat
  deriving DecidableEq, Repr

/-- Write `pv->ipadresses[ip][ipac_addrIO]` and `[ipac_addrID]`. -/
def setIOID (t : List SlotAddrs) (ip io id : Nat) : List SlotAddrs :=
  t.modify (fun r => { r with ioAddr := io, idAddr := id }) ip

/-- Write `pv->ipadresses[ip][ipac_addrMem]`. -/
def setMem (t : List SlotAddrs) (ip v : Nat) : List SlotAddrs :=
  t.modify (fun r => { r with memAddr := v }) ip

/-- First loop of `regaddr`: the A16 windows of the slots in `ips`. -/
def regaddr_io (env : Env) : List Nat → RegState → Int × RegState
  | [], st => (OK, st)
  | ip :: ips, st =>
    let basetmp := ((st.pv.vmeslotnum <<< 11) + (ip <<< 8)) % 4294967296
    let call : RegCall := ⟨epicsAddressType.atVMEA16, basetmp, IP_MEM_SIZE⟩
    let r := env.devRegisterAddress st.regCalls call
    if r.1 ≠ OK then
      (S_IPAC_badAddress,
        { st with basetmp := basetmp, regCalls := st.regCalls ++ [call] })
    else
      let retval := r.2 % 4294967296
      regaddr_io env ips
        { pv := { st.pv with
                  ipadresses := setIOID st.pv.ipadresses ip retval (addr32 retval 0x80) },
          regCalls := st.regCalls ++ [call], retval := retval, basetmp := basetmp }

/-- The value `basetmp` holds after the `switch` statements of the second
loop of `regaddr`, for slot `ip`, when it held `prev` before. -/
def regaddr_basetmp (pv : privinfo) (ip prev : Nat) : Nat :=
  if pv.isgeomem ≠ 0 then
    if pv.ipmemmode = 1 then ((pv.vmeslotnum <<< 22) ||| (ip <<< 20)) % 4294967296
    else if pv.ipmemmode = 2 then ((pv.vmeslotnum <<< 23) ||| (ip <<< 21)) % 4294967296
    else if pv.ipmemmode = 4 then prev
    else if pv.ipmemmode = 8 then ((pv.vmeslotnum <<< 27) ||| (ip <<< 23)) % 4294967296
    else prev
  else
    let moffs := pv.memoffs >>> 6
    if pv.ipmemmode = 1 then ((moffs <<< 22) ||| (ip <<< 20)) % 4294967296
    else if pv.ipmemmode = 2 then ((moffs <<< 23) ||| (ip <<< 21)) % 4294967296
    else if pv.ipmemmode = 4 then ((moffs <<< 24) ||| (ip <<< 22)) % 4294967296
    else if pv.ipmemmode = 8 then ((moffs <<< 25) ||| (ip <<< 23)) % 4294967296
    else prev

/-- Second loop of `regaddr`: the A32 memory windows of the slots in `ips`. -/
def regaddr_mem (env : Env) : List Nat → RegState → Int × RegState
  | [], st => (OK, st)
  | ip :: ips, st =>
    let basetmp := regaddr_basetmp st.pv ip st.basetmp
    if basetmp = 0 then (S_IPAC_badAddress, { st with basetmp := basetmp })
    else
      let call : RegCall := ⟨epicsAddressType.atVMEA32, basetmp, ONEMB⟩
      let r := env.devRegisterAddress st.regCalls call
      if r.1 ≠ OK then
        (S_IPAC_badAddress,
          { st with basetmp := basetmp, regCalls := st.regCalls ++ [call] })
      else
        let retval := r.2 % 4294967296
        regaddr_mem env ips
          { pv := { st.pv with ipadresses := setMem st.pv.ipadresses ip retval },
            regCalls := st.regCalls ++ [call], retval := retval, basetmp := basetmp }

/-- The function `regaddr(privinfo *pv)`: return value, the structure and the
registrations afterwards. -/
def regaddr (env : Env) (pv : privinfo) (regCalls : List RegCall) : Int × RegState :=
  let st0 : RegState :=
    { pv := { pv with ipadresses := List.replicate NUMIPSLOTS ⟨0, 0, 0, 0⟩ },
      regCalls := regCalls, retval := 0, basetmp := 0 }
  let r1 := regaddr_io env (List.range NUMIPSLOTS) st0
  if r1.1 ≠ OK then r1 else regaddr_mem env (List.range NUMIPSLOTS) r1.2

/-- Result of `initialise`: return value, the world afterwards, and the value
written to `*cPrivate` (`none` when it is not written). -/
structure InitResult where
  status : Int
  world : World
  cPrivate : Option privinfo
  deriving DecidableEq, Repr

/-- The `csr` value computed by `initialise`, `none` for the internal-error
exit of the `switch`. -/
def initialise_csr (o : ScanOut) : Option Nat :=
  let csr0 := toWord (o.IPintlevel * 4)
  let csr1 := if o.domemreg ≠ 0 then csr0 ||| CSR_MEMMODE else csr0
  let csr2 := if o.ipclck = 32 then csr1 ||| CSR_CLKSEL else csr1
  let csr3 := if o.roak ≠ 0 then csr2 ||| CSR_INTRELS else csr2
  if o.ipmem = 1 then some csr3
  else if o.ipmem = 2 then some (csr3 ||| (1 <<< CSR_IPMEMSHIFT))
  else if o.ipmem = 4 then some (csr3 ||| (2 <<< CSR_IPMEMSHIFT))
  else if o.ipmem = 8 then some (csr3 ||| (3 <<< CSR_IPMEMSHIFT))
  else none

/-- The function `initialise(cp, cPrivate, carrier)` of the eager driver.
`locals` are the values its uninitialised local variables hold on entry. -/
def initialise (env : Env) (locals : ScanOut) (cp : Option (List Char)) (carrier : Nat)
    (w : World) : InitResult :=
  let sp := scanparm cp locals
  if sp.1 ≠ OK then ⟨sp.1, w, none⟩
  else
    let o := sp.2
    let ccbase := toU32 (o.vmeslotnum * 2048 + 1024)
    let call : RegCall := ⟨epicsAddressType.atVMEA16, ccbase, VME_MEM_SIZE⟩
    let r := env.devRegisterAddress w.regCalls call
    let w1 : World := { w with regCalls := w.regCalls ++ [call] }
    if r.1 ≠ OK then ⟨S_IPAC_badAddress, w1, none⟩
    else
      let carbase := r.2 % 4294967296
      if checkVMEprom env carbase ≠ OK then
        ⟨env.devUnregisterAddress epicsAddressType.atVMEA16 ccbase,
          { w1 with unregCalls := w1.unregCalls ++ [(epicsAddressType.atVMEA16, ccbase)] }, none⟩
      else if env.callocOK = false then ⟨S_IPAC_noMemory, w1, none⟩
      else
        match initialise_csr o with
        | none => ⟨S_IPAC_badAddress, w1, none⟩
        | some csr =>
          if o.ipmem = 2 ∧ o.vmeslotnum > 15 then ⟨S_IPAC_badAddress, w1, none⟩
          else if o.ipmem ≥ 4 ∧ o.domemreg = 0 then ⟨S_IPAC_badAddress, w1, none⟩
          else
            let pv : privinfo :=
              { privinfo.zero with
                vmeslotnum := toWord o.vmeslotnum
                carrier := carrier % 65536
                IPintlevel := toWord o.IPintlevel
                baseadr := carbase
                memoffs := toWord o.memoffs
                clock := o.ipclck
                isgeomem := if o.domemreg = 0 then 1 else 0
                csrcb := csr
                ipintsel := 0
                ipmemmode := toWord o.ipmem }
            let hw1 := w1.hwWrites ++ [(addr32 pv.baseadr CARR_CSR, pv.csrcb)]
            let hw2 := if pv.isgeomem = 0 then hw1 ++ [(addr32 pv.baseadr CARR_MEMOFF, pv.memoffs)]
                       else hw1
            let rr := regaddr env pv w1.regCalls
            let w2 : World :=
              { w1 with carlist := rr.2.pv :: w.carlist, hwWrites := hw2,
                        regCalls := rr.2.regCalls }
            if rr.1 ≠ OK then ⟨rr.1, w2, none⟩
            else
              let status := env.devEnableInterruptLevel o.IPintlevel
              let w3 : World := { w2 with intLevels := w2.intLevels ++ [o.IPintlevel] }
              if status ≠ 0 then ⟨S_IPAC_badIntLevel, w3, none⟩
              else
                ⟨OK, { w3 with hwWrites := w3.hwWrites
                                  ++ [(addr32 rr.2.pv.baseadr CARR_INTSEL, rr.2.pv.ipintsel)] },
                  some rr.2.pv⟩

end Hy8002

/-! ## Legacy lazy driver, `drvHy8002.c` -/

namespace Hy8002Legacy

open CLib

/-- `isxdigit`. -/
def isxdigit (c : Char) : Bool :=
  isdigit c || (65 ≤ c.toNat && c.toNat ≤ 70) || (97 ≤ c.toNat && c.toNat ≤ 102)

/-- Value of a hexadecimal digit. -/
def xdigitVal (c : Char) : Nat :=
  if isdigit c then c.toNat - 48
  else if c.toNat ≤ 70 then c.toNat - 55 else c.toNat - 87

/-- Is the character an octal digit. -/
def isodigit (c : Char) : Bool := 48 ≤ c.toNat && c.toNat ≤ 55

/-- Longest run of digits accepted by `isd`, accumulated in base `b`. -/
def scanRun (b : Nat) (isd : Char → Bool) (val : Char → Nat) : List Char → Nat → Nat × List Char
  | [], acc => (acc, [])
  | c :: cs, acc =>
    if isd c then scanRun b isd val cs (acc * b + val c) else (acc, c :: cs)

/-- Magnitude read by `%i` after the sign: hexadecimal after `0x`, octal
after a leading `0`, decimal otherwise; `none` when no digit is found. -/
def scanMagnitudeI : List Char → Option (Nat × List Char)
  | [] => none
  | d :: ds =>
    if d.toNat = 48 then
      match ds with
      | x :: h :: rest =>
        if (x.toNat = 120 || x.toNat = 88) && isxdigit h then
          some (scanRun 16 isxdigit xdigitVal (h :: rest) 0)
        else some (scanRun 8 isodigit digitVal ds 0)
      | _ => some (scanRun 8 isodigit digitVal ds 0)
    else if isdigit d then some (scanDigits (d :: ds) 0)
    else none

/-- The `%i` conversion of `scanf`. -/
def convI (s : List Char) : Conv :=
  match s.dropWhile isspace with
  | [] => Conv.eof
  | c :: cs =>
    let neg : Bool := c.toNat = 45
    let body : List Char := if c.toNat = 45 || c.toNat = 43 then cs else c :: cs
    match scanMagnitudeI body with
    | none => Conv.mismatch
    | some r => Conv.ok (toInt32 (if neg then - (r.1 : Int) else (r.1 : Int))) r.2

/-- The call `sscanf(s, "%i", &x)`: return value and the new content of `x`. -/
def sscanf_i (s : List Char) (x : Int) : Int × Int :=
  match convI s with
  | Conv.eof => (-1, x)
  | Conv.mismatch => (0, x)
  | Conv.ok v _ => (1, v)

def SPACE : Char := Char.ofNat 32
def EQUAL : Char := Char.ofNat 61

/-- Output variables of the legacy `scanparm` (the nine `int *` arguments). -/
structure ScanOut where
  vmeslotnum : Int
  IPintlevel : Int
  HSintnum : Int
  ipmem : Int
  ab32 : Int
  cd32 : Int
  ipclck : Int
  domemreg : Int
  memoffs : Int
  deriving DecidableEq, Repr

/-- Index reached by `while (i < len && p(cp[i])) i++`. -/
def advance (p : Char → Bool) (cp : List Char) (len i : Nat) : Nat :=
  i + (((cp.take len).drop i).takeWhile p).length

/-- The store `cp[k] = 0` into the copy; `none` when `k` lies outside it. -/
def poke0 (cp : List Char) (k : Nat) : Option (List Char) :=
  if k < cp.length then some (cp.set k NUL) else none

/-- The string that starts at `&cp[i]`; `none` when `i` lies outside the copy. -/
def strAt (cp : List Char) (i : Nat) : Option (List Char) :=
  if i < cp.length then some (cstr (cp.drop i)) else none

/-- What one positional field leaves behind: the copy, `ila`, the return
value of `sscanf` and the content of the output variable. -/
structure Field where
  cp : List Char
  ila : Nat
  res : Int
  val : Int
  deriving DecidableEq, Repr

/-- The code repeated for each of the three positional fields, up to and
including its `sscanf`, started at index `i` with the output variable holding
`old`.  Outer `none`: an access outside the copy; inner `none`: the exit
`if (i == len) return 0`. -/
def positional (cp : List Char) (len i : Nat) (old : Int) : Option (Option Field) :=
  let i1 := advance (fun c => c == SPACE) cp len i
  if i1 = len then some none
  else
    let ila := advance (fun c => c != SPACE) cp len i1
    match poke0 cp ila with
    | none => none
    | some cp1 =>
      match strAt cp1 i1 with
      | none => none
      | some s =>
        let r := sscanf_d s old
        some (some ⟨cp1, ila, r.1, r.2⟩)

/-- Result of `getassign`: return value, the copy, `*i`, `*ila`, `*val`. -/
structure Assign where
  ret : Int
  cp : List Char
  i : Nat
  ila : Nat
  val : Int
  deriving DecidableEq, Repr

/-- The function `getassign`; `none` for an access outside the copy. -/
def getassign (cp : List Char) (i ila len : Nat) (val : Int) : Option Assign :=
  let ila1 := advance (fun c => c == SPACE) cp len ila
  match cp.get? ila1 with
  | none => none
  | some c =>
    if c != EQUAL then some ⟨0, cp, i, ila1, val⟩
    else
      let i2 := advance (fun c => c == SPACE) cp len (ila1 + 1)
      if i2 = len then some ⟨0, cp, i2, ila1, val⟩
      else
        let ila2 := advance (fun c => c != SPACE) cp len i2
        match poke0 cp ila2 with
        | none => none
        | some cp1 =>
          match strAt cp1 i2 with
          | none => none
          | some s =>
            let r := sscanf_i s val
            if r.1 ≠ 1 then some ⟨0, cp1, i2, ila2, r.2⟩
            else some ⟨1, cp1, i2, ila2, r.2⟩

/-- Variables of the option loop of `scanparm`. -/
structure OptState where
  cp : List Char
  i : Nat
  o : ScanOut
  gotipclck : Bool
  gotipmem : Bool
  deriving DecidableEq, Repr

/-- The comparison `strncmp(&cp[i], name, n) == 0` for a token of `n` characters. -/
def tokenIs (cp : List Char) (i : Nat) (name : String) : Bool :=
  (cp.drop i).take name.length == name.toList

/-- The loop `while (i < len)` over the options; `fuel` bounds the number of
iterations (each iteration moves `i` forward).  `none`: an access outside the
copy (or no fuel left). -/
def options (len : Nat) : Nat → OptState → Option (Int × ScanOut)
  | 0, _ => none
  | fuel + 1, st =>
    if st.i < len then
      let i1 := advance (fun c => c == SPACE) st.cp len st.i
      if i1 = len then some (0, st.o)
      else
        let ila := advance (fun c => c != SPACE && c != EQUAL) st.cp len i1
        let ilen := ila - i1
        if ilen = 4 then
          if tokenIs st.cp i1 "AB32" then
            if st.o.ab32 ≠ 0 then some (0, st.o)
            else options len fuel { st with i := ila + 1, o := { st.o with ab32 := 1 } }
          else if tokenIs st.cp i1 "CD32" then
            if st.o.cd32 ≠ 0 then some (0, st.o)
            else options len fuel { st with i := ila + 1, o := { st.o with cd32 := 1 } }
          else
            match poke0 st.cp ila with
            | none => none
            | some _ => some (0, st.o)
        else if ilen = 5 then
          if tokenIs st.cp i1 "IPMEM" then
            if st.gotipmem then some (0, st.o)
            else
              match getassign st.cp i1 ila len st.o.ipmem with
              | none => none
              | some a =>
                let o1 := { st.o with ipmem := a.val }
                if a.ret ≠ 1 then some (0, o1)
                else if a.val ≠ 1 ∧ a.val ≠ 2 ∧ a.val ≠ 4 ∧ a.val ≠ 8 then some (0, o1)
                else options len fuel
                  { st with cp := a.cp, i := a.ila + 1, o := o1, gotipmem := true }
          else some (0, st.o)
        else if ilen = 6 then
          if tokenIs st.cp i1 "IPCLCK" then
            if st.gotipclck then some (0, st.o)
            else
              match getassign st.cp i1 ila len st.o.ipclck with
              | none => none
              | some a =>
                let o1 := { st.o with ipclck := a.val }
                if a.ret ≠ 1 then some (0, o1)
                else if a.val ≠ 8 ∧ a.val ≠ 32 then some (0, o1)
                else options len fuel
                  { st with cp := a.cp, i := a.ila + 1, o := o1, gotipclck := true }
          else some (0, st.o)
        else if ilen = 7 then
          if tokenIs st.cp i1 "MEMOFFS" then
            if st.o.domemreg ≠ 0 then some (0, st.o)
            else
              match getassign st.cp i1 ila len st.o.memoffs with
              | none => none
              | some a =>
                let o1 := { st.o with domemreg := 1, memoffs := a.val }
                if a.ret ≠ 1 then some (0, o1)
                else if a.val < 0 ∨ a.val ≥ 131072 then some (0, o1)
                else options len fuel { st with cp := a.cp, i := a.ila + 1, o := o1 }
          else some (0, st.o)
        else some (0, st.o)
    else some (1, st.o)

/-- The legacy `scanparm` (hot swap compiled in): `cardParams` is the
parameter string, `copyOK` tells whether its `calloc` succeeds, `o` holds the
caller's output variables before the call.  The result is the return value
(1 success, 0 rejection) with the output variables afterwards, or `none` when
the function reads or writes outside its copy of the string (or is handed the
null pointer): its behaviour is then undefined. -/
def scanparm (copyOK : Bool) (cardParams : Option (List Char)) (o : ScanOut) :
    Option (Int × ScanOut) :=
  match cardParams with
  | none => none
  | some raw =>
    let s := cstr raw
    let len := s.length
    if copyOK = false then some (0, o)
    else if len = 0 then some (0, o)
    else
      match positional (s ++ [NUL]) len 0 o.vmeslotnum with
      | none => none
      | some none => some (0, o)
      | some (some f1) =>
        let o1 := { o with vmeslotnum := f1.val }
        if f1.res ≠ 1 then some (0, o1)
        else if f1.val < 0 ∨ f1.val > 21 then some (0, o1)
        else
          match positional f1.cp len (f1.ila + 1) o1.IPintlevel with
          | none => none
          | some none => some (0, o1)
          | some (some f2) =>
            let o2 := { o1 with IPintlevel := f2.val }
            if f2.res ≠ 1 then some (0, o2)
            else if f2.val < 0 ∨ f2.val > 7 then some (0, o2)
            else
              match positional f2.cp len (f2.ila + 1) o2.HSintnum with
              | none => none
              | some none => some (0, o2)
              | some (some f3) =>
                let o3 := { o2 with HSintnum := f3.val }
                if f3.res ≠ 1 then some (0, o3)
                else if f3.val < 0 ∨ f3.val > 255 then some (0, o3)
                else
                  options len (len + 1)
                    { cp := f3.cp, i := f3.ila + 1,
                      o := { o3 with ipmem := 1, ab32 := 0, cd32 := 0, ipclck := 8,
                                     domemreg := 0, memoffs := 0 },
                      gotipclck := false, gotipmem := false }

/-- The marker `(void *) -1` of an unregistered base address. -/
def UNREGISTERED : Nat := 4294967295

/-- The value `ERR`. -/
def ERR : Int := -1

def CARR_IPSTAT : Nat := 0x00
def CARR_MEMBASE : Nat := 0x04
def CARR_CSR : Nat := 0x08
def CARR_INTSEL : Nat := 0x0C
def CARR_HOTSWAP : Nat := 0x10
def CARR_IDENT : Nat := 0x81
def CARR_MANID : Nat := 0x89
def CARR_MODID : Nat := 0x8B
def MANUFACTURER_HYTEC : Nat := 0x80
def HYTEC_PROM_MODEL : Nat := 0x82
def CSR_INTR_LEV_MASK : Nat := 0x001C
def CSR_USE_MEM_OFFSET : Nat := 0x0040
def CSR_IP_MEM_2MB : Nat := 0x0080
def CSR_IP_MEM_4MB : Nat := 0x0100
def CSR_IP_MEM_8MB : Nat := 0x0180
def CSR_IP_CD_32BIT : Nat := 0x4000
def CSR_IP_AB_32BIT : Nat := 0x8000
def CARR_INTLEVEL : Int := 7
def VME_MEM_SIZE : Nat := 0xA0
def IP_MEM_SIZE : Nat := 0x0100
def ONEMB : Nat := 0x100000

/-- The structure `PrivateInfo` (the `next` link is the tail of
`_CarrierList`); `iobases` and `membases` are indexed by the slot, 0 to 3. -/
structure PrivateInfo where
  vmeslotnum : Nat
  IPintlevel : Nat
  HSintnum : Nat
  baseaddr : Nat
  ispresent : Nat
  ipmemmode : Nat
  isgeomem : Nat
  ab32mode : Nat
  cd32mode : Nat
  memoffs : Nat
  membase : Nat
  csrcb : Nat
  ipintsel : Nat
  carrint : Nat
  iobases : Nat → Nat
  membases : Nat → Nat

/-- A `PrivateInfo` as `calloc` returns it. -/
def PrivateInfo.zero : PrivateInfo :=
  { vmeslotnum := 0, IPintlevel := 0, HSintnum := 0, baseaddr := 0, ispresent := 0,
    ipmemmode := 0, isgeomem := 0, ab32mode := 0, cd32mode := 0, memoffs := 0, membase := 0,
    csrcb := 0, ipintsel := 0, carrint := 0, iobases := fun _ => 0, membases := fun _ => 0 }

/-- Driver globals and the effects on the platform that the driver caused. -/
structure World where
  CarrierList : List PrivateInfo
  HotSwapAvailable : Bool
  threads : Nat
  regCalls : List RegCall
  unregCalls : List (epicsAddressType × Nat)
  probeWrites : List (Nat × Nat)
  intLevels : List Int
  intConnects : List (Int × Nat)

/-- Sum of a 32-bit address and an offset. -/
def addr32 (base off : Nat) : Nat := (base + off) % 4294967296

/-- The function `HWdump`: the four probed register writes, stopped at the
first one that fails; the result is `pv` and the writes attempted. -/
def HWdump (env : Env) (pv : PrivateInfo) (writes : List (Nat × Nat)) :
    PrivateInfo × List (Nat × Nat) :=
  let a1 := (addr32 pv.baseaddr CARR_MEMBASE, pv.membase)
  let a2 := (addr32 pv.baseaddr CARR_CSR, pv.csrcb)
  let a3 := (addr32 pv.baseaddr CARR_INTSEL, pv.ipintsel)
  let a4 := (addr32 pv.baseaddr CARR_HOTSWAP, pv.carrint)
  if env.devWriteProbe a1.1 a1.2 ≠ OK then ({ pv with ispresent := 0 }, writes ++ [a1])
  else if env.devWriteProbe a2.1 a2.2 ≠ OK then ({ pv with ispresent := 0 }, writes ++ [a1, a2])
  else if env.devWriteProbe a3.1 a3.2 ≠ OK then
    ({ pv with ispresent := 0 }, writes ++ [a1, a2, a3])
  else if env.devWriteProbe a4.1 a4.2 ≠ OK then
    ({ pv with ispresent := 0 }, writes ++ [a1, a2, a3, a4])
  else (pv, writes ++ [a1, a2, a3, a4])

/-- The function `checkprom`: true when the PROM header starts with `IPA` and
the manufacturer and model bytes are those of the Hytec 8002. -/
def checkprom (env : Env) (base : Nat) : Bool :=
  let adr := addr32 base CARR_IDENT
  let strok : Bool :=
    decide (env.readChar adr = 73) && decide (env.readChar (addr32 adr 2) = 80)
      && decide (env.readChar (addr32 adr 4) = 65)
  let manid := toWord (env.readChar (addr32 base CARR_MANID))
  let modelnum := toWord (env.readChar (addr32 base CARR_MODID))
  strok && decide (manid = MANUFACTURER_HYTEC) && decide (modelnum = HYTEC_PROM_MODEL)

/-- The function `hotSwapInit` (hot swap compiled in). -/
def hotSwapInit (w : World) : World :=
  if w.HotSwapAvailable then w
  else { w with HotSwapAvailable := true, threads := w.threads + 1 }

/-- Result of `initialise`: return value, the world afterwards, and the value
written to `*cPrivate` (`none` when it is not written). -/
structure InitResult where
  status : Int
  world : World
  cPrivate : Option PrivateInfo

/-- The `csr` and `membase` values computed by `initialise`, `none` for the
software-error exit of the `switch`. -/
def initialise_csr (o : ScanOut) : Option (Nat × Nat) :=
  let csr0 := toWord (o.IPintlevel * 4) &&& CSR_INTR_LEV_MASK
  let csr1 := if o.ab32 ≠ 0 then csr0 ||| CSR_IP_AB_32BIT else csr0
  let csr2 := if o.cd32 ≠ 0 then csr1 ||| CSR_IP_CD_32BIT else csr1
  let csr3 := if o.domemreg ≠ 0 then csr2 ||| CSR_USE_MEM_OFFSET else csr2
  let membase := (toWord o.memoffs / 64) * 64
  if o.ipmem = 1 then some (csr3, membase)
  else if o.ipmem = 2 then some (csr3 ||| CSR_IP_MEM_2MB, (membase * 2) % 65536)
  else if o.ipmem = 4 then some (csr3 ||| CSR_IP_MEM_4MB, (membase * 4) % 65536)
  else if o.ipmem = 8 then some (csr3 ||| CSR_IP_MEM_8MB, (membase * 8) % 65536)
  else none

/-- The function `initialise(cardParams, cPrivate, carrier)` of the legacy
driver (hot swap compiled in).  `copyOK` is the outcome of the `calloc` inside
`scanparm`, `locals` the values of the uninitialised local variables on entry.
The result is `none` when `scanparm` leaves its buffer (undefined behaviour). -/
def initialise (env : Env) (copyOK : Bool) (locals : ScanOut)
    (cardParams : Option (List Char)) (w : World) : Option InitResult :=
  let w0 := hotSwapInit w
  match scanparm copyOK cardParams locals with
  | none => none
  | some sp =>
    if sp.1 = 0 then some ⟨S_IPAC_badAddress, w0, none⟩
    else
      let o := sp.2
      let ccbase := toU32 (o.vmeslotnum * 2048 + 1024)
      let call : RegCall := ⟨epicsAddressType.atVMEA16, ccbase, VME_MEM_SIZE⟩
      let r := env.devRegisterAddress w0.regCalls call
      let w1 : World := { w0 with regCalls := w0.regCalls ++ [call] }
      if r.1 ≠ OK then some ⟨ERR, w1, none⟩
      else
        let carbase := r.2 % 4294967296
        if checkprom env carbase = false then
          some ⟨ERR, { w1 with unregCalls :=
                         w1.unregCalls ++ [(epicsAddressType.atVMEA16, ccbase)] }, none⟩
        else if env.callocOK = false then some ⟨ERR, w1, none⟩
        else
          match initialise_csr o with
          | none => some ⟨ERR, w1, none⟩
          | some cm =>
            if o.ipmem = 2 ∧ o.vmeslotnum > 15 then some ⟨ERR, w1, none⟩
            else if o.ipmem = 4 ∧ o.domemreg = 0 then some ⟨ERR, w1, none⟩
            else
              let pv : PrivateInfo :=
                { PrivateInfo.zero with
                  membase := cm.2
                  vmeslotnum := toWord o.vmeslotnum
                  IPintlevel := toWord o.IPintlevel
                  HSintnum := toWord o.HSintnum
                  baseaddr := carbase
                  ispresent := 1
                  memoffs := toWord o.memoffs
                  isgeomem := if o.domemreg = 0 then 1 else 0
                  csrcb := cm.1
                  ipintsel := 0
                  carrint := toWord o.HSintnum
                  ipmemmode := toWord o.ipmem
                  ab32mode := toWord o.ab32
                  cd32mode := toWord o.cd32
                  iobases := fun _ => UNREGISTERED
                  membases := fun _ => UNREGISTERED }
              let d := HWdump env pv w1.probeWrites
              some ⟨OK,
                { w1 with CarrierList := d.1 :: w.CarrierList,
                          probeWrites := d.2,
                          intLevels := w1.intLevels ++ [o.IPintlevel, CARR_INTLEVEL],
                          intConnects := w1.intConnects ++ [(o.HSintnum, toU32 o.vmeslotnum)] },
                some d.1⟩

/-- Result of `baseAddr`: the returned pointer, the private structure and
the list of registrations afterwards. -/
structure BaseResult where
  retval : Nat
  pv : PrivateInfo
  regCalls : List RegCall

/-- The value of `basetmp` for the memory window of `slot` in `baseAddr`
(it starts as 0). -/
def baseAddr_basetmp (pv : PrivateInfo) (slot : Nat) : Nat :=
  if pv.isgeomem ≠ 0 then
    if pv.ipmemmode = 1 then ((pv.vmeslotnum <<< 22) ||| (slot <<< 20)) % 4294967296
    else if pv.ipmemmode = 2 then ((pv.vmeslotnum <<< 23) ||| (slot <<< 21)) % 4294967296
    else if pv.ipmemmode = 4 then 0
    else if pv.ipmemmode = 8 then ((pv.vmeslotnum <<< 27) ||| (slot <<< 23)) % 4294967296
    else 0
  else
    let b := (pv.membase <<< 16) % 4294967296
    if pv.ipmemmode = 1 then (b ||| (slot <<< 20)) % 4294967296
    else if pv.ipmemmode = 2 then (b ||| (slot <<< 21)) % 4294967296
    else if pv.ipmemmode = 4 then (b ||| (slot <<< 22)) % 4294967296
    else if pv.ipmemmode = 8 then (b ||| (slot <<< 23)) % 4294967296
    else b

/-- Store into `iobases[slot]` or `membases[slot]`. -/
def setBase (t : Nat → Nat) (slot v : Nat) : Nat → Nat :=
  fun k => if k = slot then v else t k

/-- The function `baseAddr(cPrivate, slot, space)` of the legacy driver.
`none`: the slot indexes outside `iobases` / `membases`. -/
def baseAddr (env : Env) (pv : PrivateInfo) (regCalls : List RegCall) (slot : Nat)
    (space : ipac_addr_t) : Option BaseResult :=
  if pv.ab32mode ≠ 0 ∧ slot = 1 then some ⟨0, pv, regCalls⟩
  else if pv.cd32mode ≠ 0 ∧ slot = 3 then some ⟨0, pv, regCalls⟩
  else
    match space with
    | ipac_addr_t.other _ => some ⟨0, pv, regCalls⟩
    | ipac_addr_t.ipac_addrID | ipac_addr_t.ipac_addrIO =>
      if 4 ≤ slot then none
      else
        let r : BaseResult :=
          if pv.iobases slot = UNREGISTERED then
            let basetmp := ((pv.vmeslotnum <<< 11) + (slot <<< 8)) % 4294967296
            let call : RegCall := ⟨epicsAddressType.atVMEA16, basetmp, IP_MEM_SIZE⟩
            let tempVal := (env.devRegisterAddress regCalls call).2 % 4294967296
            ⟨tempVal, { pv with iobases := setBase pv.iobases slot tempVal },
              regCalls ++ [call]⟩
          else ⟨pv.iobases slot, pv, regCalls⟩
        if space = ipac_addr_t.ipac_addrID then some { r with retval := addr32 r.retval 0x80 }
        else some r
    | ipac_addr_t.ipac_addrMem | ipac_addr_t.ipac_addrIO32 =>
      if 4 ≤ slot then none
      else if pv.membases slot = UNREGISTERED then
        let basetmp := baseAddr_basetmp pv slot
        if basetmp ≠ 0 then
          let memspace := if space = ipac_addr_t.ipac_addrMem then ONEMB else 2 * ONEMB
          let call : RegCall := ⟨epicsAddressType.atVMEA32, basetmp, memspace⟩
          let tempVal := (env.devRegisterAddress regCalls call).2 % 4294967296
          some ⟨tempVal, { pv with membases := setBase pv.membases slot tempVal },
            regCalls ++ [call]⟩
        else some ⟨0, { pv with membases := setBase pv.membases slot 0 }, regCalls⟩
      else some ⟨pv.membases slot, pv, regCalls⟩

end Hy8002Legacy

/-! ## Option tokens of the eager parameter string -/

namespace Hy8002

open CLib

/-- The four option names that the eager `scanparm` looks for. -/
inductive OptName where
  | IPMEM
  | IPCLCK
  | ROAK
  | MEMOFFS
  deriving DecidableEq, Repr

/-- The text `NAME=` that `scanparm` hands to `strstr`. -/
def OptName.key : OptName → List Char
  | OptName.IPMEM => "IPMEM=".toList
  | OptName.IPCLCK => "IPCLCK=".toList
  | OptName.ROAK => "ROAK=".toList
  | OptName.MEMOFFS => "MEMOFFS=".toList

/-- An option token `NAME=<n>`: its name and the characters of `<n>`. -/
structure Token where
  name : OptName
  digits : List Char
  deriving DecidableEq, Repr

/-- The characters of a token. -/
def Token.text (t : Token) : List Char := t.name.key ++ t.digits

/-- A well-formed token has a non-empty decimal value. -/
def Token.wellFormed (t : Token) : Prop :=
  t.digits ≠ [] ∧ ∀ c ∈ t.digits, isdigit c = true

instance (t : Token) : Decidable t.wellFormed := by
  unfold Token.wellFormed
  infer_instance

/-- The comma. -/
def comma : Char := Char.ofNat 44

/-- The text that follows a token in a comma-joined list: each further token
preceded by a comma. -/
def joinTail : List Token → List Char
  | [] => []
  | t :: ts => comma :: (t.text ++ joinTail ts)

/-- The tokens joined by commas, in the order of the list. -/
def joinTokens : List Token → List Char
  | [] => []
  | t :: ts => t.text ++ joinTail ts

/-- The value characters of the first token with the given name. -/
def lookup : List Token → OptName → Option (List Char)
  | [], _ => none
  | t :: ts, n => if t.name = n then some t.digits else lookup ts n

/-- What `scanparm` reads for an option name in the text `s`: the result of
`sscanf(pstart + strlen(NAME=), "%d", &v)` at the first occurrence of `NAME=`,
`none` when `strstr` finds no occurrence. -/
def optVal (s : List Char) (n : OptName) : Option (Int × Int) :=
  (strstr s n.key).map (fun p => sscanf_d (p.drop n.key.length) 0)

end Hy8002

/-! ## Address lookup and interrupt commands of the eager driver -/

/-- Modelled from the spec: the commands of `ipac_irqCmd_t` in `drvIpac.h`,
as the drivers name them in their `switch` statements and calls; `other`
stands for any value outside the enumerators. -/
inductive ipac_irqCmd_t where
  | ipac_irqLevel0
  | ipac_irqLevel1
  | ipac_irqLevel2
  | ipac_irqLevel3
  | ipac_irqLevel4
  | ipac_irqLevel5
  | ipac_irqLevel6
  | ipac_irqLevel7
  | ipac_irqGetLevel
  | ipac_irqEnable
  | ipac_irqDisable
  | ipac_irqPoll
  | ipac_irqSetEdge
  | ipac_irqSetLevel
  | ipac_irqClear
  | ipac_statUnused
  | ipac_statActive
  | other (n : Nat)
  deriving DecidableEq, Repr

/-- The commands `ipac_irqLevel0` .. `ipac_irqLevel7`. -/
def ipac_irqCmd_t.isLevel : ipac_irqCmd_t → Bool
  | ipac_irqLevel0 | ipac_irqLevel1 | ipac_irqLevel2 | ipac_irqLevel3
  | ipac_irqLevel4 | ipac_irqLevel5 | ipac_irqLevel6 | ipac_irqLevel7 => true
  | _ => false

namespace Hy8002

/-- The function `baseAddr(cPrivate, slot, space)` of the eager driver:
`pv->ipadresses[slot][space]`; `none` for an index outside the
`[NUMIPSLOTS][IPAC_ADDR_SPACES]` table. -/
def baseAddr (pv : privinfo) (slot : Nat) (space : ipac_addr_t) : Option Nat :=
  match space with
  | ipac_addr_t.other _ => none
  | sp => (pv.ipadresses.get? slot).map (fun r => r.get sp)

def CSR_INTEN : Nat := 0x0002

/-- The mask `CSROFF`, that is `~(CSR_INTEN)` as an `int`. -/
def CSROFF : Nat := 4294967295 ^^^ CSR_INTEN

/-- Result of `irqCmd`: return value, the private structure afterwards and
the words written to the carrier registers, in order. -/
structure IrqResult where
  retval : Int
  cp : privinfo
  hwWrites : List (Nat × Nat)
  deriving DecidableEq, Repr

/-- The register dump at the end of `irqCmd` when `dodump` is set. -/
def irqCmd_dump (cp : privinfo) : List (Nat × Nat) :=
  [(addr32 cp.baseadr CARR_CSR, cp.csrcb), (addr32 cp.baseadr CARR_INTSEL, cp.ipintsel)]

/-- The function `irqCmd(cPrivate, slot, irqnum, cmd)` of the eager driver.
`hw a` is the word that a read of the bus address `a` delivers. -/
def irqCmd (hw : Nat → Nat) (cp : privinfo) (slot irqnum : Nat) (cmd : ipac_irqCmd_t) :
    IrqResult :=
  if irqnum ≠ 0 ∧ irqnum ≠ 1 then ⟨S_IPAC_notImplemented, cp, []⟩
  else if slot > 3 then ⟨S_IPAC_badAddress, cp, []⟩
  else
    match cmd with
    | ipac_irqCmd_t.ipac_irqGetLevel => ⟨cp.IPintlevel, cp, []⟩
    | ipac_irqCmd_t.ipac_irqEnable =>
      let sel := if irqnum = 0 then (cp.ipintsel ||| (1 <<< slot)) % 65536
                 else (cp.ipintsel ||| (1 <<< (slot + 4))) % 65536
      let cp1 : privinfo :=
        { cp with ipintsel := sel, csrcb := (cp.csrcb ||| CSR_INTEN) % 65536 }
      ⟨OK, cp1, irqCmd_dump cp1⟩
    | ipac_irqCmd_t.ipac_irqDisable =>
      let cp1 : privinfo := { cp with csrcb := (cp.csrcb &&& CSROFF) % 65536 }
      ⟨OK, cp1, irqCmd_dump cp1⟩
    | ipac_irqCmd_t.ipac_irqPoll =>
      let ipstat := hw (addr32 cp.baseadr CARR_IPSTAT) % 65536
      let mymask := ((1 <<< (4 + slot)) ||| (1 <<< slot)) % 65536
      ⟨((ipstat &&& mymask : Nat) : Int), cp, []⟩
    | _ => ⟨S_IPAC_notImplemented, cp, []⟩

/-- One call of `irqCmd`: the bus content at the time of the call, slot,
interrupt line and command. -/
structure IrqCall where
  hw : Nat → Nat
  slot : Nat
  irqnum : Nat
  cmd : ipac_irqCmd_t

/-- The private structure after a sequence of `irqCmd` calls. -/
def irqCmds : List IrqCall → privinfo → privinfo
  | [], cp => cp
  | c :: cs, cp => irqCmds cs (irqCmd c.hw cp c.slot c.irqnum c.cmd).cp

end Hy8002

/-! ## Hytec Linux carrier, `drvIpac/drvHyLinuxCarrier.c` -/

namespace HyLinux

open CLib

def NUMIPSLOTS : Nat := 6
def IP_A_MEMORY_BASE_ADDR : Nat := 0x000000
def IP_B_MEMORY_BASE_ADDR : Nat := 0x200000
def IP_IO_BASE_ADDR : Nat := 0xE00000
def IP_A_IO_BASE_ADDR : Nat := 0x000
def IP_A_ID_BASE_ADDR : Nat := 0x080
def IP_B_ID_BASE_ADDR : Nat := 0x180

/-- The `length` that `initialise` passes to `mmap`: the size of the region
that starts at `memoryBaseAddr`. -/
def mmapLength : Nat := 0xE00E00

/-- The requests that the driver sends to the device with `ioctl`. -/
inductive IoctlOp where
  | OP_ENABLE_INTERRUPT
  | OP_DISABLE_INTERRUPT
  | OP_REGISTER_VECTOR
  deriving DecidableEq, Repr

/-- The structure `irq_desc`: callback arguments and callbacks by vector
(255 entries each, `0` is the null pointer) and the device handle. -/
structure irq_desc where
  driverp : Nat → Nat
  handler : Nat → Nat
  irqfd : Int

/-- Private structure `privinfo` of the Linux carrier (`irqdesc` is `none`
for the null pointer; the thread handle is left out). -/
structure privinfo where
  carrier : Nat
  carrierBaseAddr : Nat
  memoryBaseAddr : Nat
  plxBaseAddr : Nat
  model : Int
  clock : Int
  ipintsel : Nat
  devHandler : Int
  carrierType : Int
  ipadresses : List Hy8002.SlotAddrs
  carrierSlot : Int
  carrierINTLevel : Nat
  irqdesc : Option irq_desc
  intFlag : Int

/-- Write `pv->ipadresses[ip][ipac_addrIO]`, `[ipac_addrID]` and
`[ipac_addrMem]`. -/
def setRow (t : List Hy8002.SlotAddrs) (ip io id mem : Nat) : List Hy8002.SlotAddrs :=
  t.modify (fun r => { r with ioAddr := io, idAddr := id, memAddr := mem }) ip

/-- The loop of `regaddr` over the slots in `ips`. -/
def regaddr_loop (pv : privinfo) : List Nat → List Hy8002.SlotAddrs → List Hy8002.SlotAddrs
  | [], t => t
  | ip :: ips, t =>
    let addr := (pv.memoryBaseAddr + IP_IO_BASE_ADDR + IP_A_IO_BASE_ADDR
                  + (IP_B_ID_BASE_ADDR - IP_A_ID_BASE_ADDR) * ip) % 4294967296
    let addr2 := (pv.memoryBaseAddr
                  + (IP_B_MEMORY_BASE_ADDR - IP_A_MEMORY_BASE_ADDR) * ip) % 4294967296
    regaddr_loop pv ips (setRow t ip addr ((addr + 0x80) % 4294967296) addr2)

/-- The function `regaddr(privinfo *pv)` of the Linux carrier. -/
def regaddr (pv : privinfo) : Int × privinfo :=
  (OK, { pv with
         ipadresses := regaddr_loop pv (List.range NUMIPSLOTS)
                         (List.replicate NUMIPSLOTS ⟨0, 0, 0, 0⟩) })

/-- The function `baseAddr(cPrivate, slot, space)` of the Linux carrier;
`none` for an index outside the table. -/
def baseAddr (pv : privinfo) (slot : Nat) (space : ipac_addr_t) : Option Nat :=
  match space with
  | ipac_addr_t.other _ => none
  | sp => (pv.ipadresses.get? slot).map (fun r => r.get sp)

/-- Result of `irqCmd`: return value, the private structure afterwards and
the `ioctl` requests sent, with the slot passed in `lSite`. -/
structure IrqResult where
  retval : Int
  cp : privinfo
  ioctls : List (IoctlOp × Nat)

/-- The function `irqCmd(cPrivate, slot, irqnum, cmd)` of the Linux carrier.
`ioctlRet` is the value that `ioctl` returns if the call sends a request. -/
def irqCmd (ioctlRet : Int) (cp : privinfo) (slot irqnum : Nat) (cmd : ipac_irqCmd_t) :
    IrqResult :=
  if irqnum ≠ 0 ∧ irqnum ≠ 1 then ⟨S_IPAC_badIntLevel, cp, []⟩
  else if slot > 5 then ⟨S_IPAC_badAddress, cp, []⟩
  else
    match cmd with
    | ipac_irqCmd_t.ipac_irqLevel0 | ipac_irqCmd_t.ipac_irqLevel1
    | ipac_irqCmd_t.ipac_irqLevel2 | ipac_irqCmd_t.ipac_irqLevel3
    | ipac_irqCmd_t.ipac_irqLevel4 | ipac_irqCmd_t.ipac_irqLevel5
    | ipac_irqCmd_t.ipac_irqLevel6 | ipac_irqCmd_t.ipac_irqLevel7 =>
      ⟨S_IPAC_notImplemented, cp, []⟩
    | ipac_irqCmd_t.ipac_irqGetLevel => ⟨cp.carrierINTLevel, cp, []⟩
    | ipac_irqCmd_t.ipac_irqEnable =>
      let sel := if irqnum = 0 then (cp.ipintsel ||| (1 <<< (slot * 2))) % 65536
                 else (cp.ipintsel ||| (1 <<< (slot * 2 + 1))) % 65536
      ⟨if ioctlRet = 1 then OK else ioctlRet, { cp with ipintsel := sel },
        [(IoctlOp.OP_ENABLE_INTERRUPT, slot)]⟩
    | ipac_irqCmd_t.ipac_irqDisable =>
      let sel := if irqnum = 0
                 then (cp.ipintsel &&& (4294967295 ^^^ (1 <<< (slot * 2)))) % 65536
                 else (cp.ipintsel &&& (4294967295 ^^^ (1 <<< (slot * 2 + 1)))) % 65536
      ⟨if ioctlRet = 1 then OK else ioctlRet, { cp with ipintsel := sel },
        [(IoctlOp.OP_DISABLE_INTERRUPT, slot)]⟩
    | ipac_irqCmd_t.ipac_irqPoll => ⟨S_IPAC_notImplemented, cp, []⟩
    | ipac_irqCmd_t.ipac_irqSetEdge | ipac_irqCmd_t.ipac_irqSetLevel
    | ipac_irqCmd_t.ipac_irqClear => ⟨S_IPAC_notImplemented, cp, []⟩
    | _ => ⟨OK, cp, []⟩

/-- One call of `irqCmd`: the outcome of its `ioctl`, slot, interrupt line
and command. -/
structure IrqCall where
  ioctlRet : Int
  slot : Nat
  irqnum : Nat
  cmd : ipac_irqCmd_t

/-- The private structure after a sequence of `irqCmd` calls. -/
def irqCmds : List IrqCall → privinfo → privinfo
  | [], cp => cp
  | c :: cs, cp => irqCmds cs (irqCmd c.ioctlRet cp c.slot c.irqnum c.cmd).cp

/-- Result of `intConnect`: return value, the private structure afterwards,
the vectors registered with the device and the number of threads created. -/
structure ConnectResult where
  status : Int
  cp : privinfo
  registered : List Nat
  threads : Nat

/-- The function `intConnect(cPrivate, slot, vecNum, routine, parameter)` of
the Linux carrier; `mallocOK` tells whether `malloc` succeeds if it is
called.  `none`: the stores go outside the 255 entries of the arrays. -/
def intConnect (mallocOK : Bool) (cp : privinfo) (slot vecNum routine parameter : Nat) :
    Option ConnectResult :=
  let desc : Option irq_desc :=
    match cp.irqdesc with
    | some d => some d
    | none => if mallocOK then some ⟨fun _ => 0, fun _ => 0, cp.devHandler⟩ else none
  match desc with
  | none => some ⟨S_IPAC_noMemory, cp, [], 0⟩
  | some d =>
    if 255 ≤ vecNum then none
    else
      let d1 : irq_desc :=
        { d with driverp := fun v => if v = vecNum then parameter else d.driverp v,
                 handler := fun v => if v = vecNum then routine else d.handler v }
      some ⟨OK, { cp with irqdesc := some d1, intFlag := 1 }, [vecNum],
            if cp.intFlag = 0 then 1 else 0⟩

/-- What one turn of the loop of `interrupt_thread` does. -/
inductive ThreadStep where
  | returned
  | called (routine parameter : Nat)
  | idle
  deriving DecidableEq, Repr

/-- One turn of the loop of `interrupt_thread`: `read` returns `err` and
leaves `vec` in the buffer.  `none`: the loads go outside the 255 entries of
the arrays. -/
def interrupt_thread_step (d : irq_desc) (err : Int) (vec : Int) : Option ThreadStep :=
  if err < 0 then some ThreadStep.returned
  else
    let v := (vec % 256).toNat
    if 255 ≤ v then none
    else if d.handler v ≠ 0 ∧ d.driverp v ≠ 0 then
      some (ThreadStep.called (d.handler v) (d.driverp v))
    else some ThreadStep.idle

end HyLinux

/-! ## XYCOM 9660 carrier, `drvXy9660.c` -/

/-- Modelled from the spec: the numeric values of the enumerators of
`ipac_addr_t` in `drvIpac.h`, by which the drivers index their tables. -/
def ipac_addr_t.toNat : ipac_addr_t → Nat
  | ipac_addr_t.ipac_addrID => 0
  | ipac_addr_t.ipac_addrIO => 1
  | ipac_addr_t.ipac_addrIO32 => 2
  | ipac_addr_t.ipac_addrMem => 3
  | ipac_addr_t.other n => n

namespace Xy9660

def SLOTS : Nat := 4
def IO_SPACES : Nat := 2
def REGS_A : Nat := 0x0000
def PROM_A : Nat := 0x0080
def REGS_B : Nat := 0x0100
def PROM_B : Nat := 0x0180
def REGS_C : Nat := 0x0200
def PROM_C : Nat := 0x0280
def REGS_D : Nat := 0x0300
def PROM_D : Nat := 0x0380

/-- The constant `offset[IO_SPACES][SLOTS]` of `initialise`. -/
def offset : List (List Nat) :=
  [[PROM_A, PROM_B, PROM_C, PROM_D], [REGS_A, REGS_B, REGS_C, REGS_D]]

/-- The object of type `private_t`, `void *[IO_SPACES][SLOTS]`, as its
`IO_SPACES * SLOTS` cells in memory order: cell `space * SLOTS + slot` is
`[space][slot]`. -/
abbrev private_t := List Nat

/-- The two loops of `initialise` that fill the table from the local address
`ioBase` of the board. -/
def initialise_table (ioBase : Nat) : private_t :=
  (List.range IO_SPACES).flatMap fun space =>
    (List.range SLOTS).map fun slot =>
      (ioBase + ((offset.getD space []).getD slot 0)) % 4294967296

/-- The function `baseAddr(private, slot, space)`:
`(*p->memSpaces)[space][slot]`; `none` when the cell read lies outside the
object. -/
def baseAddr (memSpaces : private_t) (slot : Nat) (space : ipac_addr_t) : Option Nat :=
  memSpaces.get? (space.toNat * SLOTS + slot)

end Xy9660

/-! ## Acromag APCIe8650 carrier, `drvIpac/drvApcie8650.c` -/

namespace Apcie8650

/-- One element of `slots[4]` in `CARRIERISR`; `0` is the null pointer. -/
structure IsrSlot where
  ISR : Nat
  param : Nat
  deriving DecidableEq, Repr

/-- The type `CARRIERISR` of the file-scope variable `carrierISR`; `slots`
is read and written at the indices 0..3. -/
structure CARRIERISR where
  carrier : Nat
  slots : Nat → IsrSlot

/-- The function `intConnect(cPrivate, slot, vec, routine, param)`, on the
variable `carrierISR`; `none` when the stores go outside `slots[4]`. -/
def intConnect (cPrivate : Nat) (slot vec routine param : Nat) (carrierISR : CARRIERISR) :
    Option (Int × CARRIERISR) :=
  if 4 ≤ slot then none
  else
    some (0, { carrierISR with
               slots := fun s => if s = slot then ⟨routine, param⟩ else carrierISR.slots s })

/-- A call `ISR(param)` made by the dispatch loop, with the slot at which
the loop made it. -/
structure IsrCall where
  slot : Nat
  ISR : Nat
  param : Nat
  deriving DecidableEq, Repr

/-- The `for` loop of `ipApcie8650WaitForInts` over the slots in the list:
`intPending slot` is the value that the read of
`pconfig->brd_ptr->intPending` delivers in the turn for `slot`.  The result
lists the calls made, in order. -/
def dispatch (intPending : Nat → Nat) (carrierISR : CARRIERISR) : List Nat → List IsrCall
  | [] => []
  | slot :: rest =>
    let ipr := intPending slot % 65536
    let calls : List IsrCall :=
      if ipr &&& (0x03 <<< (slot * 2)) ≠ 0 then
        if (carrierISR.slots slot).ISR ≠ 0 then
          [⟨slot, (carrierISR.slots slot).ISR, (carrierISR.slots slot).param⟩]
        else []
      else []
    calls ++ dispatch intPending carrierISR rest

/-- One pass of the dispatch loop, `for (slot = 0; slot < 4; slot++)`. -/
def dispatchPass (intPending : Nat → Nat) (carrierISR : CARRIERISR) : List IsrCall :=
  dispatch intPending carrierISR (List.range 4)

/-- The entry that the dispatch thread of the carrier with the handle
`cPrivate` reads for `slot`: `carrierISR.slots[slot]`. -/
def dispatchEntry (carrierISR : CARRIERISR) (cPrivate : Nat) (slot : Nat) : IsrSlot :=
  carrierISR.slots slot

end Apcie8650

/-! ## TEWS TIP810 CAN driver, `drvTip810/drvTip810.c` -/

namespace Tip810

open CLib

def T810_MAGIC_NUMBER : Int := 81001
def CAN_IDENTIFIERS : Nat := 2048
def CAN_DATA_SIZE : Nat := 8
def ERROR : Int := -1

/-- The module number `811 << 16` of `canBus.h`. -/
def M_can : Int := 811 * 65536
def S_can_badMessage : Int := M_can + 1
def S_can_noMessage : Int := M_can + 4

/-- Modelled from the spec: module number of the status codes of
`drvTip810.h`. -/
def M_t810 : Int := 810 * 65536

/-- Modelled from the spec: duplicate device definition. -/
def S_t810_duplicateDevice : Int := M_t810 + 1

/-- Modelled from the spec: bus rate not supported. -/
def S_t810_badBusRate : Int := M_t810 + 2

/-- Modelled from the spec: device pointer is not for a TIP810. -/
def S_t810_badDevice : Int := M_t810 + 3

/-- Modelled from the spec: transmit buffer unexpectedly busy. -/
def S_t810_transmitterBusy : Int := M_t810 + 4

/-- The enumerators of the field `rtr` of `canMessage_t`. -/
def SEND : Int := 0
def RTR : Int := 1

/-- The type `canMessage_t`; `data` has the `CAN_DATA_SIZE` entries 0..7. -/
structure canMessage_t where
  identifier : Nat
  rtr : Int
  length : Nat
  data : Nat → Nat

def PCA_MSG_ID0_RSHIFT : Nat := 3
def PCA_MSG_ID1_LSHIFT : Nat := 5
def PCA_MSG_ID1_MASK : Nat := 0xe0
def PCA_MSG_RTR : Nat := 0x10
def PCA_MSG_DLC_MASK : Nat := 0x0f
def PCA_CMR_RRB : Nat := 0x04
def PCA_CMR_TR : Nat := 0x01
def PCA_SR_TBS : Nat := 0x04
def PCA_CR_RR : Nat := 0x01

/-- The type `msgBuffer_t` of the chip; `data` has the 8 entries 0..7, each
16 bits wide. -/
structure msgBuffer_t where
  descriptor0 : Nat
  descriptor1 : Nat
  data : Nat → Nat

/-- The loop `for (i = 0; i < length; i++) dst[i] = src[i]` over the indices
in the list, between two arrays of 8 entries; `conv` is the conversion to the
element type of `dst`.  `none`: an index outside the arrays. -/
def copyLoop (conv : Nat → Nat) (src : Nat → Nat) : List Nat → (Nat → Nat) → Option (Nat → Nat)
  | [], dst => some dst
  | i :: rest, dst =>
    if i < CAN_DATA_SIZE then
      copyLoop conv src rest (fun k => if k = i then conv (src i) else dst k)
    else none

/-- The function `getRxMessage(pchip, pmessage)`: the message afterwards and
the value written to the command register.  `none`: the copy leaves the
arrays. -/
def getRxMessage (rxBuffer : msgBuffer_t) (pmessage : canMessage_t) :
    Option (canMessage_t × Nat) :=
  let desc0 := rxBuffer.descriptor0 % 256
  let desc1 := rxBuffer.descriptor1 % 256
  let identifier := ((desc0 <<< PCA_MSG_ID0_RSHIFT) |||
                     ((desc1 &&& PCA_MSG_ID1_MASK) >>> PCA_MSG_ID1_LSHIFT)) % 65536
  let length := (desc1 &&& PCA_MSG_DLC_MASK) % 256
  if desc1 &&& PCA_MSG_RTR ≠ 0 then
    some ({ pmessage with identifier := identifier, length := length, rtr := RTR },
          PCA_CMR_RRB)
  else
    match copyLoop (fun v => v % 256) rxBuffer.data (List.range length) pmessage.data with
    | none => none
    | some d =>
      some ({ identifier := identifier, length := length, rtr := SEND, data := d },
            PCA_CMR_RRB)

/-- The function `putTxMessage(pchip, pmessage)`: the transmit buffer
afterwards and the value written to the command register.  `none`: the copy
leaves the arrays. -/
def putTxMessage (txBuffer : msgBuffer_t) (pmessage : canMessage_t) :
    Option (msgBuffer_t × Nat) :=
  let desc0 := (pmessage.identifier >>> PCA_MSG_ID0_RSHIFT) % 256
  let desc1a := ((pmessage.identifier <<< PCA_MSG_ID1_LSHIFT) &&& PCA_MSG_ID1_MASK) % 256
  let desc1b := (desc1a ||| (pmessage.length &&& PCA_MSG_DLC_MASK)) % 256
  if pmessage.rtr = SEND then
    match copyLoop (fun v => v % 65536) pmessage.data (List.range pmessage.length)
        txBuffer.data with
    | none => none
    | some d => some ({ descriptor0 := desc0, descriptor1 := desc1b, data := d }, PCA_CMR_TR)
  else
    some ({ txBuffer with descriptor0 := desc0,
                          descriptor1 := (desc1b ||| PCA_MSG_RTR) % 256 }, PCA_CMR_TR)

/-- A cell of a callback list, `callbackTable_t` without its link. -/
structure callbackTable_t where
  pprivate : Nat
  pcallback : Nat
  deriving DecidableEq, Repr

/-- The type `t810Dev_t` (the link `pnext` is the position in the device
list; `pbusName` is the string it points to; semaphores are left out).
`pmsgHandler` has the `CAN_IDENTIFIERS` entries 0..2047, each the list of
cells that starts there. -/
structure t810Dev_t where
  magicNumber : Int
  pbusName : List Char
  card : Nat
  slot : Nat
  irqNum : Nat
  busRate : Nat
  pchip : Nat
  txCount : Nat
  rxCount : Nat
  overCount : Nat
  unusedCount : Nat
  unusedId : Nat
  errorCount : Nat
  busOffCount : Nat
  preadBuffer : Option canMessage_t
  pmsgHandler : Nat → List callbackTable_t
  psigHandler : List callbackTable_t

/-- The function `doCallbacks(phandler, parameter)`: the cells whose routine
is called with its `pprivate` and `parameter`, in order. -/
def doCallbacks : List callbackTable_t → List callbackTable_t
  | [] => []
  | h :: rest => h :: doCallbacks rest

/-- What one turn of the loop of `t810RecvTask` does with a receipt: the
device afterwards, the calls made, the message copied for `canRead` and the
number of `semGive(rxSem)`. -/
structure RecvResult where
  pdevice : t810Dev_t
  calls : List callbackTable_t
  readCopy : Option canMessage_t
  rxSemGives : Nat

/-- One turn of the loop of `t810RecvTask`, after `msgQReceive` delivered the
receipt (`pdevice`, `message`).  `none`: the identifier indexes outside
`pmsgHandler`. -/
def t810RecvTask_step (pdevice : t810Dev_t) (message : canMessage_t) : Option RecvResult :=
  let d1 : t810Dev_t := { pdevice with rxCount := (pdevice.rxCount + 1) % 4294967296 }
  if CAN_IDENTIFIERS ≤ message.identifier then none
  else
    let phandler := d1.pmsgHandler message.identifier
    let d2calls : t810Dev_t × List callbackTable_t :=
      match phandler with
      | [] => ({ d1 with unusedId := message.identifier % 65536,
                         unusedCount := (d1.unusedCount + 1) % 4294967296 }, [])
      | h :: rest => (d1, doCallbacks (h :: rest))
    match d2calls.1.preadBuffer with
    | none => some ⟨d2calls.1, d2calls.2, none, 0⟩
    | some buf =>
      if buf.identifier = message.identifier then
        some ⟨{ d2calls.1 with preadBuffer := none }, d2calls.2, some message, 1⟩
      else some ⟨d2calls.1, d2calls.2, none, 0⟩

/-- Result of `canWrite`: return value, number of `SEM_TAKE` and `semGive`
on `txSem`, and what was written to the chip (the transmit buffer and the
command register), `none` for no write. -/
structure WriteResult where
  retval : Int
  semTakes : Nat
  semGives : Nat
  chipWrite : Option (msgBuffer_t × Nat)

/-- The function `canWrite(canBusID, pmessage, timeout)`.  `semStatus` is
what `SEM_TAKE` returns and `errno` the value of `errno` after it;
`chipStatus` is the status register and `txBuffer` the transmit buffer of
the chip.  `none`: `putTxMessage` leaves the arrays. -/
def canWrite (semStatus errno : Int) (chipStatus : Nat) (txBuffer : msgBuffer_t)
    (pdevice : t810Dev_t) (pmessage : canMessage_t) : Option WriteResult :=
  if pdevice.magicNumber ≠ T810_MAGIC_NUMBER then some ⟨S_t810_badDevice, 0, 0, none⟩
  else if pmessage.identifier ≥ CAN_IDENTIFIERS ∨ pmessage.length > CAN_DATA_SIZE ∨
      (pmessage.rtr ≠ SEND ∧ pmessage.rtr ≠ RTR) then
    some ⟨S_can_badMessage, 0, 0, none⟩
  else if semStatus ≠ 0 then some ⟨errno, 1, 0, none⟩
  else if (chipStatus % 256) &&& PCA_SR_TBS ≠ 0 then
    match putTxMessage txBuffer pmessage with
    | none => none
    | some w => some ⟨OK, 1, 0, some w⟩
  else some ⟨S_t810_transmitterBusy, 1, 1, none⟩

/-- Store `l` as the list of `identifier` in `pmsgHandler`. -/
def setHandler (t : Nat → List callbackTable_t) (identifier : Nat)
    (l : List callbackTable_t) : Nat → List callbackTable_t :=
  fun k => if k = identifier then l else t k

/-- The walk of `canMessage` to the last cell, where the new cell is
linked. -/
def appendCell (phandler : callbackTable_t) : List callbackTable_t → List callbackTable_t
  | [] => [phandler]
  | h :: rest => h :: appendCell phandler rest

/-- The function `canMessage(canBusID, identifier, pcallback, pprivate)`;
`mallocOK` is the outcome of `malloc`, `errno` the value it leaves on
failure. -/
def canMessage (mallocOK : Bool) (errno : Int) (pdevice : t810Dev_t)
    (identifier pcallback pprivate : Nat) : Int × t810Dev_t :=
  if pdevice.magicNumber ≠ T810_MAGIC_NUMBER then (S_t810_badDevice, pdevice)
  else if identifier ≥ CAN_IDENTIFIERS ∨ pcallback = 0 then (S_can_badMessage, pdevice)
  else if mallocOK = false then (errno, pdevice)
  else
    (OK, { pdevice with
           pmsgHandler := setHandler pdevice.pmsgHandler identifier
             (appendCell ⟨pprivate, pcallback⟩ (pdevice.pmsgHandler identifier)) })

/-- The loop of `canMsgDelete` over the list: `none` when no cell matches,
else the list without the first matching cell. -/
def deleteCell (pcallback pprivate : Nat) : List callbackTable_t → Option (List callbackTable_t)
  | [] => none
  | phandler :: rest =>
    if phandler.pcallback = pcallback ∧ phandler.pprivate = pprivate then some rest
    else
      match deleteCell pcallback pprivate rest with
      | none => none
      | some l => some (phandler :: l)

/-- The function `canMsgDelete(canBusID, identifier, pcallback, pprivate)`. -/
def canMsgDelete (pdevice : t810Dev_t) (identifier pcallback pprivate : Nat) :
    Int × t810Dev_t :=
  if pdevice.magicNumber ≠ T810_MAGIC_NUMBER then (S_t810_badDevice, pdevice)
  else if identifier ≥ CAN_IDENTIFIERS ∨ pcallback = 0 then (S_can_badMessage, pdevice)
  else
    match deleteCell pcallback pprivate (pdevice.pmsgHandler identifier) with
    | none => (S_can_noMessage, pdevice)
    | some l => (OK, { pdevice with pmsgHandler := setHandler pdevice.pmsgHandler identifier l })

end Tip810

namespace Tip810

open CLib

/-- Outcomes of the platform calls of `t810Create`: the status of
`ipmValidate(card, slot, ...)`, whether `malloc` and the creation of the
three semaphores succeed, the value of `errno` on failure, the content of
the memory that `malloc` returns, and the address that `ipmBaseAddr`
returns for the IO space of a slot. -/
structure CreateEnv where
  ipmValidate : Nat → Nat → Int
  mallocOK : Bool
  semOK : Bool
  errno : Int
  mallocContent : t810Dev_t
  ipmBaseAddr : Nat → Nat → Nat

/-- The constant `rateTable` of `t810Create`: rate (an `unsigned int`) and
the two bus timing values. -/
def rateTable : List (Nat × Nat × Nat) :=
  [(5, 0x7f, 0x7f), (10, 0x67, 0x2f), (20, 0x53, 0x2f), (50, 0x47, 0x2f), (100, 0x43, 0x2f),
   (125, 0x03, 0x1c), (250, 0x01, 0x1c), (500, 0x00, 0x1c), (1000, 0x00, 0x14),
   (1600, 0x00, 0x11), (4294967296 - 125, 0x07, 0x23), (4294967296 - 250, 0x03, 0x23),
   (4294967296 - 500, 0x01, 0x23), (4294967296 - 1000, 0x00, 0x23), (0, 0, 0)]

/-- The `for` loop of `t810Create` over the rest of the rate table: the bus
timing values of `busRate`, `none` for the exit with `S_t810_badBusRate`. -/
def findRate (busRate : Nat) : List (Nat × Nat × Nat) → Option (Nat × Nat)
  | [] => none
  | (rate, timing) :: rest =>
    if rate = busRate then some timing
    else if rate = 0 then none
    else findRate busRate rest

/-- The `while` loop of `t810Create` over the device list: whether it leaves
with `S_t810_duplicateDevice`. -/
def findDuplicate (pbusName : List Char) (card slot : Nat) : List t810Dev_t → Bool
  | [] => false
  | plist :: rest =>
    if cstr plist.pbusName = cstr pbusName ∨ (plist.card = card ∧ plist.slot = slot) then true
    else findDuplicate pbusName card slot rest

/-- Result of `t810Create`: return value, the device list afterwards, the
bytes written to chip registers as address and value, and the calls of
`ipmIrqCmd` as card, slot, line and command. -/
structure CreateResult where
  status : Int
  pt810First : List t810Dev_t
  chipWrites : List (Nat × Nat)
  irqCmds : List (Nat × Nat × Nat × ipac_irqCmd_t)

/-- The function `t810Create(pbusName, card, slot, irqNum, busRate)` on the
device list `pt810First`. -/
def t810Create (env : CreateEnv) (pt810First : List t810Dev_t) (pbusName : List Char)
    (card slot irqNum busRate : Nat) : CreateResult :=
  let status := env.ipmValidate card slot
  if status ≠ 0 then ⟨status, pt810First, [], []⟩
  else if busRate = 0 then ⟨S_t810_badBusRate, pt810First, [], []⟩
  else
    match findRate busRate rateTable with
    | none => ⟨S_t810_badBusRate, pt810First, [], []⟩
    | some timing =>
      if findDuplicate pbusName card slot pt810First = true then
        ⟨S_t810_duplicateDevice, pt810First, [], []⟩
      else if env.mallocOK = false then ⟨env.errno, pt810First, [], []⟩
      else if env.semOK = false then ⟨env.errno, pt810First, [], []⟩
      else
        let pdevice : t810Dev_t :=
          { env.mallocContent with
            magicNumber := T810_MAGIC_NUMBER
            pbusName := pbusName
            card := card
            slot := slot
            irqNum := irqNum
            busRate := busRate
            pchip := env.ipmBaseAddr card slot
            preadBuffer := none
            psigHandler := []
            pmsgHandler := fun _ => [] }
        ⟨OK, pt810First ++ [pdevice],
          [(pdevice.pchip + 1, PCA_CR_RR), (pdevice.pchip + 9, 0), (pdevice.pchip + 11, 0xff),
           (pdevice.pchip + 13, timing.1), (pdevice.pchip + 15, timing.2),
           (pdevice.pchip + 17, 0x02 ||| 0x18 ||| 0xc0)],
          [(card, slot, 0, ipac_irqCmd_t.ipac_statActive)]⟩

/-- One call of `t810Create`: the platform outcomes and the arguments. -/
structure CreateCall where
  env : CreateEnv
  pbusName : List Char
  card : Nat
  slot : Nat
  irqNum : Nat
  busRate : Nat

/-- The device list after a sequence of `t810Create` calls. -/
def t810Creates : List CreateCall → List t810Dev_t → List t810Dev_t
  | [], l => l
  | c :: cs, l =>
    t810Creates cs (t810Create c.env l c.pbusName c.card c.slot c.irqNum c.busRate).pt810First

/-- A call of `canMessage` or of `canMsgDelete` on one device. -/
inductive HandlerOp where
  | message (mallocOK : Bool) (errno : Int) (identifier pcallback pprivate : Nat)
  | delete (identifier pcallback pprivate : Nat)

/-- The device after a sequence of `canMessage` and `canMsgDelete` calls. -/
def handlerOps : List HandlerOp → t810Dev_t → t810Dev_t
  | [], d => d
  | HandlerOp.message m e i f p :: ops, d => handlerOps ops (canMessage m e d i f p).2
  | HandlerOp.delete i f p :: ops, d => handlerOps ops (canMsgDelete d i f p).2

end Tip810

namespace Xy9660

def GLOBAL_ENAB : Nat := 1
def GLOBAL_EN : Nat := 8
def IRQ_LEVEL : Nat := 0x6
def SLOTA_ZERO : Nat := 0xFE
def SLOTB_ZERO : Nat := 0xFB
def SLOTC_ZERO : Nat := 0xEF
def SLOTD_ZERO : Nat := 0xBF

/-- The state that `irqCmd` works on: the fields `attr` and `clear` of
`config9660` and the registers `sts_reg`, `clr_reg` and `en_reg` of the
board (`clr_reg` holds the last value written). -/
structure Board where
  attr : Nat
  clear : Nat
  sts_reg : Nat
  clr_reg : Nat
  en_reg : Nat
  deriving DecidableEq, Repr

/-- Result of `irqCmd`: return value, the state afterwards and the levels
passed to `devEnableInterruptLevelVME`. -/
structure IrqResult where
  retval : Int
  board : Board
  intLevels : List Nat
  deriving DecidableEq, Repr

/-- The function `irqCmd(private, slot, irqNumber, cmd)`. -/
def irqCmd (b : Board) (slot irqNumber : Nat) (cmd : ipac_irqCmd_t) : IrqResult :=
  match cmd with
  | ipac_irqCmd_t.ipac_irqLevel0 =>
    ⟨OK, { b with attr := 0, sts_reg := (b.sts_reg % 256) &&& (255 ^^^ GLOBAL_EN),
                  clr_reg := b.clear % 256 }, []⟩
  | ipac_irqCmd_t.ipac_irqLevel6 =>
    ⟨OK, { b with attr := GLOBAL_ENAB, sts_reg := ((b.sts_reg % 256) ||| GLOBAL_EN) % 256 }, []⟩
  | ipac_irqCmd_t.ipac_irqGetLevel => ⟨IRQ_LEVEL, b, []⟩
  | ipac_irqCmd_t.ipac_irqEnable => ⟨OK, b, [IRQ_LEVEL]⟩
  | ipac_irqCmd_t.ipac_irqClear =>
    if slot = 0 then ⟨OK, { b with clr_reg := 0xFF &&& (255 ^^^ SLOTA_ZERO), en_reg := 0xFF }, []⟩
    else if slot = 1 then
      ⟨OK, { b with clr_reg := 0xFF &&& (255 ^^^ SLOTB_ZERO), en_reg := 0xFF }, []⟩
    else if slot = 2 then
      ⟨OK, { b with clr_reg := 0xFF &&& (255 ^^^ SLOTC_ZERO), en_reg := 0xFF }, []⟩
    else if slot = 3 then
      ⟨OK, { b with clr_reg := 0xFF &&& (255 ^^^ SLOTD_ZERO), en_reg := 0xFF }, []⟩
    else ⟨S_IPAC_badAddress, b, []⟩
  | ipac_irqCmd_t.ipac_irqDisable =>
    if slot = 0 then ⟨OK, { b with en_reg := SLOTA_ZERO }, []⟩
    else if slot = 1 then ⟨OK, { b with en_reg := SLOTB_ZERO }, []⟩
    else if slot = 2 then ⟨OK, { b with en_reg := SLOTC_ZERO }, []⟩
    else if slot = 3 then ⟨OK, { b with en_reg := SLOTD_ZERO }, []⟩
    else ⟨S_IPAC_badAddress, b, []⟩
  | _ => ⟨S_IPAC_notImplemented, b, []⟩

end Xy9660

/-! ## Platforms and inputs used as concrete instances -/

/-- Bus memory holding the identification bytes of a Hytec 8002 at the
register window of every VME slot (configuration ROM and IPAC PROM). -/
def boardByte (a : Nat) : Int :=
  if a % 2048 = 0x62B then 0x80
  else if a % 2048 = 0x62F then 0x03
  else if a % 2048 = 0x633 then 0x80
  else if a % 2048 = 0x637 then 0x02
  else if a % 2048 = 0x481 then 73
  else if a % 2048 = 0x483 then 80
  else if a % 2048 = 0x485 then 65
  else if a % 2048 = 0x489 then 0x80
  else if a % 2048 = 0x48B then 0x82
  else 0

/-- A platform on which every call succeeds; `devRegisterAddress` maps the
bus address into a window of the processor's address space. -/
def goodEnv : Env where
  devRegisterAddress := fun _ c => (OK, 0x10000000 + c.base % 0x10000000)
  devUnregisterAddress := fun _ _ => OK
  readChar := boardByte
  callocOK := true
  devEnableInterruptLevel := fun _ => 0
  devWriteProbe := fun _ _ => OK

/-- A platform on which the registration of the A16 window of an IP slot
fails (for instance because the range is already registered), everything
else succeeds. -/
def slotRegFailEnv : Env where
  devRegisterAddress := fun _ c =>
    if c.size = 0x0100 then (1, 0) else (OK, 0x10000000 + c.base % 0x10000000)
  devUnregisterAddress := fun _ _ => OK
  readChar := boardByte
  callocOK := true
  devEnableInterruptLevel := fun _ => 0
  devWriteProbe := fun _ _ => OK

/-- Content of the uninitialised locals of the eager `initialise`. -/
def junkLocals : Hy8002.ScanOut := ⟨-7, -7, -7, -7, -7, -7, -7⟩

/-- The eager driver before any carrier is added. -/
def emptyWorld : Hy8002.World := ⟨[], [], [], [], []⟩

/-- A carrier of the eager driver in VME slot 3, 1 MB per IP slot,
geographic addressing. -/
def eagerSlot3 : Hy8002.privinfo :=
  { Hy8002.privinfo.zero with vmeslotnum := 3, ipmemmode := 1, isgeomem := 1 }

/-- A carrier of the legacy driver in VME slot 3, 1 MB per IP slot,
geographic addressing. -/
def legacySlot3 : Hy8002Legacy.PrivateInfo :=
  { Hy8002Legacy.PrivateInfo.zero with vmeslotnum := 3, ipmemmode := 1, isgeomem := 1 }

/-- Content of the uninitialised locals of the legacy `initialise`. -/
def junkLocalsLegacy : Hy8002Legacy.ScanOut := ⟨-7, -7, -7, -7, -7, -7, -7, -7, -7⟩

/-- The legacy driver before any carrier is added. -/
def emptyWorldLegacy : Hy8002Legacy.World := ⟨[], false, 0, [], [], [], [], []⟩

/-- A legacy carrier in VME slot 3 with the double-wide mode AB32 enabled and
no window registered yet. -/
def doubleWideAB : Hy8002Legacy.PrivateInfo :=
  { Hy8002Legacy.PrivateInfo.zero with
    vmeslotnum := 3, ipmemmode := 1, isgeomem := 1, ab32mode := 1, ispresent := 1,
    iobases := fun _ => Hy8002Legacy.UNREGISTERED,
    membases := fun _ => Hy8002Legacy.UNREGISTERED }

/-- A legacy carrier in VME slot 0, geographic addressing, 1 MB, no window
registered yet: the memory base computed for IP slot 0 is 0. -/
def legacySlot0 : Hy8002Legacy.PrivateInfo :=
  { Hy8002Legacy.PrivateInfo.zero with
    vmeslotnum := 0, ipmemmode := 1, isgeomem := 1, ispresent := 1,
    iobases := fun _ => Hy8002Legacy.UNREGISTERED,
    membases := fun _ => Hy8002Legacy.UNREGISTERED }

/-- A legacy carrier in VME slot 3 as `initialise` leaves it for the string
`3 2 1`: geographic addressing, 1 MB, no window registered yet. -/
def legacyFresh3 : Hy8002Legacy.PrivateInfo :=
  { Hy8002Legacy.PrivateInfo.zero with
    vmeslotnum := 3, IPintlevel := 2, HSintnum := 1, ipmemmode := 1, isgeomem := 1,
    ispresent := 1, csrcb := 8, carrint := 1,
    iobases := fun _ => Hy8002Legacy.UNREGISTERED,
    membases := fun _ => Hy8002Legacy.UNREGISTERED }

/-- Two private structures of the eager driver agree on the fields that
`regaddr` reads but never writes. -/
def Hy8002.sameConfig (p q : Hy8002.privinfo) : Prop :=
  p.isgeomem = q.isgeomem ∧ p.ipmemmode = q.ipmemmode ∧ p.vmeslotnum = q.vmeslotnum ∧
  p.memoffs = q.memoffs

/-- A Linux carrier as `initialise` leaves it before `regaddr`: region mapped
at `0x40000000`, interrupt level 3, no interrupt descriptor yet. -/
def linuxCarrier : HyLinux.privinfo where
  carrier := 0
  carrierBaseAddr := 0
  memoryBaseAddr := 0x40000000
  plxBaseAddr := 0
  model := 0
  clock := 0
  ipintsel := 0
  devHandler := 3
  carrierType := 0
  ipadresses := List.replicate HyLinux.NUMIPSLOTS ⟨0, 0, 0, 0⟩
  carrierSlot := 99
  carrierINTLevel := 3
  irqdesc := none
  intFlag := 0

/-- The variable `carrierISR` at program start: all zero. -/
def noISR : Apcie8650.CARRIERISR := ⟨0, fun _ => ⟨0, 0⟩⟩

/-- A `carrierISR` with callbacks for the slots 0 and 1, none for the slots
2 and 3. -/
def isr01 : Apcie8650.CARRIERISR :=
  ⟨0, fun s => if s = 0 then ⟨0x5000, 0x7000⟩ else if s = 1 then ⟨0x5100, 0x7100⟩ else ⟨0, 0⟩⟩

/-! ## Notions of the specification used in the statements -/

/-- The calls that the specification asks of one dispatch pass over the
pending register `ipr`: for the slots 0..3 that have a pending bit
(`ipr & (3 << 2s) != 0`) and a registered callback, that callback on its
registered argument. -/
def Apcie8650.pendingCallbacks (ipr : Nat) (carrierISR : Apcie8650.CARRIERISR) :
    List Apcie8650.IsrCall :=
  ((List.range 4).filter fun s =>
      decide (ipr &&& (3 <<< (2 * s)) ≠ 0) && decide ((carrierISR.slots s).ISR ≠ 0)).map
    fun s => ⟨s, (carrierISR.slots s).ISR, (carrierISR.slots s).param⟩

/-- The windows of the slots of the Linux carrier as start and size: for
each row of the table the `0x80` bytes at the IO address, the `0x80` bytes
at the ID address and the `0x200000` bytes at the memory address. -/
def HyLinux.windows (pv : HyLinux.privinfo) : List (Nat × Nat) :=
  pv.ipadresses.flatMap fun r => [(r.ioAddr, 0x80), (r.idAddr, 0x80), (r.memAddr, 0x200000)]

/-- A TIP810 device as `t810Create` makes it for the bus `CAN1` in slot 0
of card 0, counters at zero. -/
def can1 : Tip810.t810Dev_t where
  magicNumber := Tip810.T810_MAGIC_NUMBER
  pbusName := "CAN1".toList
  card := 0
  slot := 0
  irqNum := 0x60
  busRate := 500
  pchip := 0x10006000
  txCount := 0
  rxCount := 0
  overCount := 0
  unusedCount := 0
  unusedId := 0
  errorCount := 0
  busOffCount := 0
  preadBuffer := none
  pmsgHandler := fun _ => []
  psigHandler := []

/-- A platform on which every call of `t810Create` succeeds. -/
def canEnv : Tip810.CreateEnv where
  ipmValidate := fun _ _ => 0
  mallocOK := true
  semOK := true
  errno := -1
  mallocContent := can1
  ipmBaseAddr := fun card slot => 0x10000000 + 0x1000 * card + 0x100 * slot

/-- The message with identifier `0x123`, three data bytes `1, 2, 3`. -/
def msg123 : Tip810.canMessage_t where
  identifier := 0x123
  rtr := Tip810.SEND
  length := 3
  data := fun i => if i < 3 then i + 1 else 0

/-- An empty message buffer of the chip. -/
def emptyBuffer : Tip810.msgBuffer_t := ⟨0, 0, fun _ => 0⟩

/-- A board of the XYCOM 9660 with the interrupts of all slots enabled. -/
def xyBoard : Xy9660.Board := ⟨1, 0xFF, 8, 0, 0xFF⟩

/-- The callbacks registered on a device and not deleted, for an identifier,
after a sequence of `canMessage` and `canMsgDelete` calls, in the order of
their registration: a `canMessage` for the identifier with a callback that
is not null and a successful allocation adds its pair at the end; a
`canMsgDelete` for the identifier takes away the first equal pair. -/
def Tip810.registered (identifier : Nat) :
    List Tip810.HandlerOp → List Tip810.callbackTable_t → List Tip810.callbackTable_t
  | [], l => l
  | Tip810.HandlerOp.message m _ i f p :: ops, l =>
    if i = identifier ∧ f ≠ 0 ∧ m = true then Tip810.registered identifier ops (l ++ [⟨p, f⟩])
    else Tip810.registered identifier ops l
  | Tip810.HandlerOp.delete i f p :: ops, l =>
    if i = identifier ∧ f ≠ 0 then Tip810.registered identifier ops (l.erase ⟨p, f⟩)
    else Tip810.registered identifier ops l

/-! ## Properties -/

namespace Hy8002

open CLib

/-- What the option stages of `scanparm` establish: the status is `OK` or
`S_IPAC_badAddress`, and on `OK` every option field is either the value read
after the first occurrence of its name, checked against its set, or left as
it was. -/
theorem scanparm_IPMEM_spec (opts : List Char) (o : ScanOut) :
    ((scanparm_IPMEM opts o).1 = OK ∨ (scanparm_IPMEM opts o).1 = S_IPAC_badAddress) ∧
    ((scanparm_IPMEM opts o).1 = OK →
      (scanparm_IPMEM opts o).2.vmeslotnum = o.vmeslotnum ∧
      (scanparm_IPMEM opts o).2.IPintlevel = o.IPintlevel ∧
      (match strstr opts "IPMEM=".toList with
        | some p => sscanf_d (p.drop 6) 0 = (1, (scanparm_IPMEM opts o).2.ipmem) ∧
            ((scanparm_IPMEM opts o).2.ipmem = 1 ∨ (scanparm_IPMEM opts o).2.ipmem = 2 ∨
             (scanparm_IPMEM opts o).2.ipmem = 4 ∨ (scanparm_IPMEM opts o).2.ipmem = 8)
        | none => (scanparm_IPMEM opts o).2.ipmem = o.ipmem) ∧
      (match strstr opts "IPCLCK=".toList with
        | some p => sscanf_d (p.drop 7) 0 = (1, (scanparm_IPMEM opts o).2.ipclck) ∧
            ((scanparm_IPMEM opts o).2.ipclck = 8 ∨ (scanparm_IPMEM opts o).2.ipclck = 32)
        | none => (scanparm_IPMEM opts o).2.ipclck = o.ipclck) ∧
      (match strstr opts "ROAK=".toList with
        | some p => sscanf_d (p.drop 5) 0 = (1, (scanparm_IPMEM opts o).2.roak) ∧
            ((scanparm_IPMEM opts o).2.roak = 0 ∨ (scanparm_IPMEM opts o).2.roak = 1)
        | none => (scanparm_IPMEM opts o).2.roak = o.roak) ∧
      (match strstr opts "MEMOFFS=".toList with
        | some p => sscanf_d (p.drop 8) 0 = (1, (scanparm_IPMEM opts o).2.memoffs) ∧
            0 ≤ (scanparm_IPMEM opts o).2.memoffs ∧ (scanparm_IPMEM opts o).2.memoffs ≤ 131072 ∧
            (scanparm_IPMEM opts o).2.domemreg = 1
        | none => (scanparm_IPMEM opts o).2.memoffs = o.memoffs ∧
            (scanparm_IPMEM opts o).2.domemreg = o.domemreg)) := by
  have hbad : S_IPAC_badAddress ≠ OK := by decide
  unfold scanparm_IPMEM scanparm_IPCLCK scanparm_ROAK scanparm_MEMOFFS
  cases h1 : strstr opts "IPMEM=".toList <;> cases h2 : strstr opts "IPCLCK=".toList <;>
  cases h3 : strstr opts "ROAK=".toList <;> cases h4 : strstr opts "MEMOFFS=".toList
  all_goals simp only []
  all_goals (try split_ifs)
  all_goals simp_all [Prod.ext_iff]
  all_goals omega

/-- The status of `scanparm` is `OK` or `S_IPAC_badAddress`; when it is `OK`
the string was not empty, the two leading integers were read and are in
range, and the options were processed on the text after them. -/
theorem scanparm_cases (cp : Option (List Char)) (o : ScanOut) :
    ((scanparm cp o).1 = OK ∨ (scanparm cp o).1 = S_IPAC_badAddress) ∧
    ((scanparm cp o).1 = OK → ∃ raw, cp = some raw ∧
      (sscanf_d_d_n (cstr raw) 0 0 0).count = 2 ∧
      0 ≤ (sscanf_d_d_n (cstr raw) 0 0 0).a ∧ (sscanf_d_d_n (cstr raw) 0 0 0).a ≤ 21 ∧
      0 ≤ (sscanf_d_d_n (cstr raw) 0 0 0).b ∧ (sscanf_d_d_n (cstr raw) 0 0 0).b ≤ 7 ∧
      scanparm cp o =
        scanparm_IPMEM ((cstr raw).drop (sscanf_d_d_n (cstr raw) 0 0 0).n)
          { vmeslotnum := (sscanf_d_d_n (cstr raw) 0 0 0).a,
            IPintlevel := (sscanf_d_d_n (cstr raw) 0 0 0).b,
            ipmem := 1, ipclck := 8, roak := 0, domemreg := 0, memoffs := 0 }) := by
  have hbad : S_IPAC_badAddress ≠ OK := by decide
  cases cp with
  | none => simp [scanparm, hbad]
  | some raw =>
    simp only [scanparm]
    split_ifs with h1 h2 h3 h4
    · simp [hbad]
    · simp [hbad]
    · simp [hbad]
    · simp [hbad]
    · refine ⟨(scanparm_IPMEM_spec _ _).1, fun _ => ⟨raw, rfl, ?_⟩⟩
      refine ⟨by simpa using h2, ?_, ?_, ?_, ?_, rfl⟩ <;> omega

end Hy8002

/-! ### Geographic addressing -/

/-- C1: with geographic addressing and carrier slot `S` in 0..21, the A32 base
that `regaddr` (eager driver) and `baseAddr` (legacy driver) compute for IP
slot `I` in 0..3 is `(S << 22) | (I << 20)` for 1 MB and `(S << 23) | (I << 21)`
for 2 MB, and the bases of consecutive IP slots differ by `1 << 20` and
`1 << 21`. -/
theorem geographic_base_formula (pvE : Hy8002.privinfo) (pvL : Hy8002Legacy.PrivateInfo)
    (S I prev : Nat) (hS : S ≤ 21) (hI : I ≤ 3)
    (hE : pvE.isgeomem ≠ 0 ∧ pvE.vmeslotnum = S)
    (hL : pvL.isgeomem ≠ 0 ∧ pvL.vmeslotnum = S) :
    (pvE.ipmemmode = 1 →
        Hy8002.regaddr_basetmp pvE I prev = (S <<< 22) ||| (I <<< 20) ∧
        (I < 3 → Hy8002.regaddr_basetmp pvE (I + 1) prev
                  - Hy8002.regaddr_basetmp pvE I prev = 1 <<< 20)) ∧
    (pvE.ipmemmode = 2 →
        Hy8002.regaddr_basetmp pvE I prev = (S <<< 23) ||| (I <<< 21) ∧
        (I < 3 → Hy8002.regaddr_basetmp pvE (I + 1) prev
                  - Hy8002.regaddr_basetmp pvE I prev = 1 <<< 21)) ∧
    (pvL.ipmemmode = 1 →
        Hy8002Legacy.baseAddr_basetmp pvL I = (S <<< 22) ||| (I <<< 20) ∧
        (I < 3 → Hy8002Legacy.baseAddr_basetmp pvL (I + 1)
                  - Hy8002Legacy.baseAddr_basetmp pvL I = 1 <<< 20)) ∧
    (pvL.ipmemmode = 2 →
        Hy8002Legacy.baseAddr_basetmp pvL I = (S <<< 23) ||| (I <<< 21) ∧
        (I < 3 → Hy8002Legacy.baseAddr_basetmp pvL (I + 1)
                  - Hy8002Legacy.baseAddr_basetmp pvL I = 1 <<< 21)) := by
  obtain ⟨hgE, hsE⟩ := hE
  obtain ⟨hgL, hsL⟩ := hL
  refine ⟨?_, ?_, ?_, ?_⟩ <;> intro hm
  all_goals
    simp only [Hy8002.regaddr_basetmp, Hy8002Legacy.baseAddr_basetmp, hgE, hgL, hsE, hsL, hm,
      ne_eq, not_false_eq_true, if_true, if_false]
  all_goals
    interval_cases S <;> interval_cases I <;> decide

/-- C1, the example of the driver documentation: for the parameter string
`3,2` the memory of IP slot 0 is at A32 `0x00c00000` in both drivers, and the
eager `initialise` registers exactly that window for slot 0. -/
theorem geographic_base_formula_witness :
    Hy8002.regaddr_basetmp eagerSlot3 0 0 = 0x00c00000 ∧
    Hy8002Legacy.baseAddr_basetmp legacySlot3 0 = 0x00c00000 ∧
    (Hy8002.initialise goodEnv junkLocals (some "3,2".toList) 0 emptyWorld).status = OK ∧
    (Hy8002.initialise goodEnv junkLocals (some "3,2".toList) 0 emptyWorld).world.regCalls.get? 5
      = some ⟨epicsAddressType.atVMEA32, 0x00c00000, ONEMB⟩ :=
  have h := geographic_base_formula eagerSlot3 legacySlot3 3 0 0 (by decide) (by decide)
    ⟨by decide, rfl⟩ ⟨by decide, rfl⟩
  ⟨(h.1 rfl).1.trans (by decide), (h.2.2.1 rfl).1.trans (by decide), by decide, by decide⟩

/-! ### Failure of the eager `initialise` -/

/-- C2, the code at two failing inputs.  Parameter string `0,2` with every
platform call succeeding: `regaddr` meets the zero base of IP slot 0 and
fails.  Parameter string `3,2` when the A16 window of an IP slot cannot be
registered.  Both times `initialise` returns `S_IPAC_badAddress` and does not
write `*cPrivate`, yet the new, partly initialised carrier stays linked into
`carlist`, which was empty before. -/
theorem initialise_failure_keeps_carrier_linked :
    (Hy8002.initialise goodEnv junkLocals (some "0,2".toList) 0 emptyWorld).status
      = S_IPAC_badAddress ∧
    (Hy8002.initialise goodEnv junkLocals (some "0,2".toList) 0 emptyWorld).cPrivate = none ∧
    (Hy8002.initialise goodEnv junkLocals
        (some "0,2".toList) 0 emptyWorld).world.carlist.length = 1 ∧
    (Hy8002.initialise slotRegFailEnv junkLocals (some "3,2".toList) 0 emptyWorld).status
      = S_IPAC_badAddress ∧
    (Hy8002.initialise slotRegFailEnv junkLocals (some "3,2".toList) 0 emptyWorld).cPrivate
      = none ∧
    (Hy8002.initialise slotRegFailEnv junkLocals
        (some "3,2".toList) 0 emptyWorld).world.carlist.length = 1 ∧
    emptyWorld.carlist = [] ∧
    S_IPAC_badAddress ≠ OK := by
  decide

namespace Hy8002

open CLib

/-! ### The parameter string of the eager driver -/

/-- C3, as stated, fails at `3,2,IPMEM=1,IPMEM=3`: the string contains
`IPMEM=` followed by 3, a value outside the set, and is accepted with
`ipmem = 1`. -/
theorem scanparm_second_IPMEM_not_checked :
    scanparm (some "3,2,IPMEM=1,IPMEM=3".toList) junkLocals = (OK, ⟨3, 2, 1, 8, 0, 0, 0⟩) := by
  decide

/-- C3 (amended): when `scanparm` returns `OK` the outputs satisfy
0 ≤ vmeslotnum ≤ 21, 0 ≤ IPintlevel ≤ 7, ipmem in 1,2,4,8, ipclck in 8,32,
roak in 0,1 and 0 ≤ memoffs ≤ 2^17; a string in which the first occurrence of
`IPMEM=`, `IPCLCK=` or `ROAK=` in the option part is followed by a value
outside its set is rejected with `S_IPAC_badAddress`, as is `3,2,IPMEM=3`. -/
theorem scanparm_accepts_only_valid_values (cp : Option (List Char)) (o : ScanOut) :
    ((scanparm cp o).1 = OK →
      0 ≤ (scanparm cp o).2.vmeslotnum ∧ (scanparm cp o).2.vmeslotnum ≤ 21 ∧
      0 ≤ (scanparm cp o).2.IPintlevel ∧ (scanparm cp o).2.IPintlevel ≤ 7 ∧
      ((scanparm cp o).2.ipmem = 1 ∨ (scanparm cp o).2.ipmem = 2 ∨
        (scanparm cp o).2.ipmem = 4 ∨ (scanparm cp o).2.ipmem = 8) ∧
      ((scanparm cp o).2.ipclck = 8 ∨ (scanparm cp o).2.ipclck = 32) ∧
      ((scanparm cp o).2.roak = 0 ∨ (scanparm cp o).2.roak = 1) ∧
      0 ≤ (scanparm cp o).2.memoffs ∧ (scanparm cp o).2.memoffs ≤ 131072) ∧
    (∀ raw p v, cp = some raw →
      ((strstr ((cstr raw).drop (sscanf_d_d_n (cstr raw) 0 0 0).n) "IPMEM=".toList = some p ∧
          sscanf_d (p.drop 6) 0 = (1, v) ∧ v ≠ 1 ∧ v ≠ 2 ∧ v ≠ 4 ∧ v ≠ 8) ∨
       (strstr ((cstr raw).drop (sscanf_d_d_n (cstr raw) 0 0 0).n) "IPCLCK=".toList = some p ∧
          sscanf_d (p.drop 7) 0 = (1, v) ∧ v ≠ 8 ∧ v ≠ 32) ∨
       (strstr ((cstr raw).drop (sscanf_d_d_n (cstr raw) 0 0 0).n) "ROAK=".toList = some p ∧
          sscanf_d (p.drop 5) 0 = (1, v) ∧ v ≠ 0 ∧ v ≠ 1)) →
      (scanparm cp o).1 = S_IPAC_badAddress) ∧
    (scanparm (some "3,2,IPMEM=3".toList) o).1 = S_IPAC_badAddress := by
  obtain ⟨hst, hok⟩ := scanparm_cases cp o
  refine ⟨?_, ?_, rfl⟩
  · intro h
    obtain ⟨raw, -, -, ha0, ha1, hb0, hb1, heq⟩ := hok h
    have hs := (scanparm_IPMEM_spec ((cstr raw).drop (sscanf_d_d_n (cstr raw) 0 0 0).n)
          { vmeslotnum := (sscanf_d_d_n (cstr raw) 0 0 0).a,
            IPintlevel := (sscanf_d_d_n (cstr raw) 0 0 0).b,
            ipmem := 1, ipclck := 8, roak := 0, domemreg := 0, memoffs := 0 }).2
    rw [← heq] at hs
    obtain ⟨e1, e2, m1, m2, m3, m4⟩ := hs h
    dsimp only at e1 e2
    refine ⟨by omega, by omega, by omega, by omega, ?_, ?_, ?_, ?_⟩
    · split at m1
      · exact m1.2
      · exact Or.inl m1
    · split at m2
      · exact m2.2
      · exact Or.inl m2
    · split at m3
      · exact m3.2
      · exact Or.inl m3
    · split at m4
      · exact ⟨m4.2.1, m4.2.2.1⟩
      · simp [m4.1]
  · intro raw p v hcp hbadval
    rcases hst with h | h
    · exfalso
      obtain ⟨raw2, hcp2, -, -, -, -, -, heq⟩ := hok h
      have hr : raw2 = raw := by rw [hcp] at hcp2; exact (Option.some.inj hcp2).symm
      subst hr
      have hs := (scanparm_IPMEM_spec ((cstr raw2).drop (sscanf_d_d_n (cstr raw2) 0 0 0).n)
          { vmeslotnum := (sscanf_d_d_n (cstr raw2) 0 0 0).a,
            IPintlevel := (sscanf_d_d_n (cstr raw2) 0 0 0).b,
            ipmem := 1, ipclck := 8, roak := 0, domemreg := 0, memoffs := 0 }).2
      rw [← heq] at hs
      obtain ⟨-, -, m1, m2, m3, -⟩ := hs h
      rcases hbadval with ⟨hp, hv, hne⟩ | ⟨hp, hv, hne⟩ | ⟨hp, hv, hne⟩
      · rw [hp] at m1
        have := m1.1.symm.trans hv
        simp only [Prod.mk.injEq, true_and] at this
        have m12 := m1.2
        omega
      · rw [hp] at m2
        have := m2.1.symm.trans hv
        simp only [Prod.mk.injEq, true_and] at this
        have m22 := m2.2
        omega
      · rw [hp] at m3
        have := m3.1.symm.trans hv
        simp only [Prod.mk.injEq, true_and] at this
        have m32 := m3.2
        omega
    · exact h

/-- C3 (amended) at concrete inputs: `3,2,IPMEM=2,IPCLCK=32,ROAK=1` is accepted
with values in range, and `3,2,ROAK=7`, whose first `ROAK=` is followed by 7,
is rejected. -/
theorem scanparm_accepts_only_valid_values_witness :
    ((scanparm (some "3,2,IPMEM=2,IPCLCK=32,ROAK=1".toList) junkLocals).2.ipmem = 1 ∨
      (scanparm (some "3,2,IPMEM=2,IPCLCK=32,ROAK=1".toList) junkLocals).2.ipmem = 2 ∨
      (scanparm (some "3,2,IPMEM=2,IPCLCK=32,ROAK=1".toList) junkLocals).2.ipmem = 4 ∨
      (scanparm (some "3,2,IPMEM=2,IPCLCK=32,ROAK=1".toList) junkLocals).2.ipmem = 8) ∧
    (scanparm (some "3,2,ROAK=7".toList) junkLocals).1 = S_IPAC_badAddress :=
  ⟨((scanparm_accepts_only_valid_values
        (some "3,2,IPMEM=2,IPCLCK=32,ROAK=1".toList) junkLocals).1 (by decide)).2.2.2.2.1,
   (scanparm_accepts_only_valid_values (some "3,2,ROAK=7".toList) junkLocals).2.1
      "3,2,ROAK=7".toList "ROAK=7".toList 7 rfl
      (Or.inr (Or.inr ⟨by decide, by decide, by decide, by decide⟩))⟩

/-- C4, as stated, fails at `3,2,FOO=1`: the unknown name `FOO` is not
rejected, `scanparm` returns `OK`. -/
theorem scanparm_accepts_unknown_name :
    (scanparm (some "3,2,FOO=1".toList) junkLocals).1 = OK ∧ OK ≠ S_IPAC_badAddress := by
  decide

/-- C4 (amended): `scanparm` does not look at option names other than its
four.  A string that starts with two integers in range and whose option part
contains none of `IPMEM=`, `IPCLCK=`, `ROAK=`, `MEMOFFS=` returns `OK` with the
defaults, whatever other `NAME=value` tokens it holds. -/
theorem scanparm_ignores_unknown_names (raw : List Char) (o : ScanOut)
    (hne : cstr raw ≠ [])
    (hcount : (sscanf_d_d_n (cstr raw) 0 0 0).count = 2)
    (ha : 0 ≤ (sscanf_d_d_n (cstr raw) 0 0 0).a ∧ (sscanf_d_d_n (cstr raw) 0 0 0).a ≤ 21)
    (hb : 0 ≤ (sscanf_d_d_n (cstr raw) 0 0 0).b ∧ (sscanf_d_d_n (cstr raw) 0 0 0).b ≤ 7)
    (h1 : strstr ((cstr raw).drop (sscanf_d_d_n (cstr raw) 0 0 0).n) "IPMEM=".toList = none)
    (h2 : strstr ((cstr raw).drop (sscanf_d_d_n (cstr raw) 0 0 0).n) "IPCLCK=".toList = none)
    (h3 : strstr ((cstr raw).drop (sscanf_d_d_n (cstr raw) 0 0 0).n) "ROAK=".toList = none)
    (h4 : strstr ((cstr raw).drop (sscanf_d_d_n (cstr raw) 0 0 0).n) "MEMOFFS=".toList = none) :
    scanparm (some raw) o =
      (OK, ⟨(sscanf_d_d_n (cstr raw) 0 0 0).a, (sscanf_d_d_n (cstr raw) 0 0 0).b,
            1, 8, 0, 0, 0⟩) := by
  have hlen : (cstr raw).length ≠ 0 := by
    intro h; exact hne (List.length_eq_zero.mp h)
  simp only [scanparm, hlen, if_false, hcount, ne_eq, not_true_eq_false]
  rw [if_neg (by omega), if_neg (by omega)]
  simp only [scanparm_IPMEM, h1, scanparm_IPCLCK, h2, scanparm_ROAK, h3, scanparm_MEMOFFS, h4]

/-- C4 (amended) at `3,2,FOO=1,BAR=7`: accepted with the defaults. -/
theorem scanparm_ignores_unknown_names_witness :
    scanparm (some "3,2,FOO=1,BAR=7".toList) junkLocals = (OK, ⟨3, 2, 1, 8, 0, 0, 0⟩) :=
  scanparm_ignores_unknown_names "3,2,FOO=1,BAR=7".toList junkLocals (by decide) (by decide)
    (by decide) (by decide) (by decide) (by decide) (by decide) (by decide)

/-- C5: for decimal `s` in 0..21 and `l` in 0..7 the string `s,l` is accepted
with vmeslotnum = s, IPintlevel = l, ipmem = 1, ipclck = 8, roak = 0,
domemreg = 0 and memoffs = 0; the empty string and `99` are rejected with
`S_IPAC_badAddress`. -/
theorem scanparm_two_integers (s l : Nat) (hs : s ≤ 21) (hl : l ≤ 7) (o : ScanOut) :
    scanparm (some (toString s ++ "," ++ toString l).toList) o
      = (OK, ⟨s, l, 1, 8, 0, 0, 0⟩) ∧
    (scanparm (some "".toList) o).1 = S_IPAC_badAddress ∧
    (scanparm (some "99".toList) o).1 = S_IPAC_badAddress := by
  refine ⟨?_, rfl, rfl⟩
  interval_cases s <;> interval_cases l <;> rfl

/-- C5 at the string `3,2`. -/
theorem scanparm_two_integers_witness :
    scanparm (some "3,2".toList) junkLocals = (OK, ⟨3, 2, 1, 8, 0, 0, 0⟩) ∧
    (scanparm (some "".toList) junkLocals).1 = S_IPAC_badAddress ∧
    (scanparm (some "99".toList) junkLocals).1 = S_IPAC_badAddress :=
  scanparm_two_integers 3 2 (by decide) (by decide) junkLocals

/-! ### Registration of the slot windows by the eager driver -/

/-- `regaddr_basetmp` reads four fields of the private structure only. -/
theorem regaddr_basetmp_congr (p q : privinfo) (ip prev : Nat)
    (h1 : p.isgeomem = q.isgeomem) (h2 : p.ipmemmode = q.ipmemmode)
    (h3 : p.vmeslotnum = q.vmeslotnum) (h4 : p.memoffs = q.memoffs) :
    regaddr_basetmp p ip prev = regaddr_basetmp q ip prev := by
  simp only [regaddr_basetmp, h1, h2, h3, h4]

/-- When every registration succeeds the first loop of `regaddr` succeeds
and leaves the configuration fields alone. -/
theorem regaddr_io_ok (env : Env)
    (hreg : ∀ earlier call, (env.devRegisterAddress earlier call).1 = OK) :
    ∀ (ips : List Nat) (st : RegState),
      (regaddr_io env ips st).1 = OK ∧ sameConfig (regaddr_io env ips st).2.pv st.pv := by
  intro ips
  induction ips with
  | nil => intro st; exact ⟨rfl, rfl, rfl, rfl, rfl⟩
  | cons ip ips ih =>
    intro st
    simp only [regaddr_io, hreg, ne_eq, not_true_eq_false, if_false]
    refine ⟨(ih _).1, ?_⟩
    obtain ⟨a, b, c, d⟩ := (ih
      { pv := { st.pv with
                ipadresses := setIOID st.pv.ipadresses ip
                  ((env.devRegisterAddress st.regCalls
                    ⟨epicsAddressType.atVMEA16,
                      ((st.pv.vmeslotnum <<< 11) + (ip <<< 8)) % 4294967296, IP_MEM_SIZE⟩).2
                    % 4294967296)
                  (addr32 ((env.devRegisterAddress st.regCalls
                    ⟨epicsAddressType.atVMEA16,
                      ((st.pv.vmeslotnum <<< 11) + (ip <<< 8)) % 4294967296, IP_MEM_SIZE⟩).2
                    % 4294967296) 0x80) },
        regCalls := st.regCalls ++ [⟨epicsAddressType.atVMEA16,
                      ((st.pv.vmeslotnum <<< 11) + (ip <<< 8)) % 4294967296, IP_MEM_SIZE⟩],
        retval := (env.devRegisterAddress st.regCalls
                    ⟨epicsAddressType.atVMEA16,
                      ((st.pv.vmeslotnum <<< 11) + (ip <<< 8)) % 4294967296, IP_MEM_SIZE⟩).2
                    % 4294967296,
        basetmp := ((st.pv.vmeslotnum <<< 11) + (ip <<< 8)) % 4294967296 }).2
    exact ⟨a, b, c, d⟩

/-- When every registration succeeds and no computed base is zero, the second
loop of `regaddr` succeeds. -/
theorem regaddr_mem_ok (env : Env)
    (hreg : ∀ earlier call, (env.devRegisterAddress earlier call).1 = OK) :
    ∀ (ips : List Nat) (st : RegState),
      (∀ ip ∈ ips, ∀ prev, regaddr_basetmp st.pv ip prev ≠ 0) →
      (regaddr_mem env ips st).1 = OK := by
  intro ips
  induction ips with
  | nil => intro st _; rfl
  | cons ip ips ih =>
    intro st hnz
    have h0 : regaddr_basetmp st.pv ip st.basetmp ≠ 0 := hnz ip (List.mem_cons_self _ _) _
    simp only [regaddr_mem, h0, if_false, hreg, ne_eq, not_true_eq_false]
    apply ih
    intro ip2 hip2 prev
    have h2 := hnz ip2 (List.mem_cons_of_mem _ hip2) prev
    simpa only [regaddr_basetmp] using h2

/-- When every registration succeeds and no computed base is zero, `regaddr`
returns `OK`. -/
theorem regaddr_ok (env : Env) (pv : privinfo) (regCalls : List RegCall)
    (hreg : ∀ earlier call, (env.devRegisterAddress earlier call).1 = OK)
    (hnz : ∀ ip, ip < NUMIPSLOTS → ∀ prev, regaddr_basetmp pv ip prev ≠ 0) :
    (regaddr env pv regCalls).1 = OK := by
  simp only [regaddr, (regaddr_io_ok env hreg _ _).1, ne_eq, not_true_eq_false, if_false]
  apply regaddr_mem_ok env hreg
  intro ip hip prev
  obtain ⟨a, b, c, d⟩ := (regaddr_io_ok env hreg (List.range NUMIPSLOTS)
    { pv := { pv with ipadresses := List.replicate NUMIPSLOTS ⟨0, 0, 0, 0⟩ },
      regCalls := regCalls, retval := 0, basetmp := 0 }).2
  rw [regaddr_basetmp_congr _ pv ip prev a b c d]
  exact hnz ip (List.mem_range.mp hip) prev

/-- C6: the eager `initialise` on a parameter string that `scanparm` accepts
with IPMEM=2 and no MEMOFFS (geographic addressing), when
`devRegisterAddress`, the PROM check, `calloc` and `devEnableInterruptLevel`
succeed: it returns `S_IPAC_badAddress` for a carrier slot in 16..21 and `OK`
for a carrier slot in 1..15. -/
theorem initialise_2MB_geographic (env : Env) (locals : ScanOut) (cp : Option (List Char))
    (carrier : Nat) (w : World)
    (hscan : (scanparm cp locals).1 = OK)
    (hmem : (scanparm cp locals).2.ipmem = 2)
    (hgeo : (scanparm cp locals).2.domemreg = 0)
    (hreg : ∀ earlier call, (env.devRegisterAddress earlier call).1 = OK)
    (hprom : checkVMEprom env
      ((env.devRegisterAddress w.regCalls
          ⟨epicsAddressType.atVMEA16, toU32 ((scanparm cp locals).2.vmeslotnum * 2048 + 1024),
            VME_MEM_SIZE⟩).2 % 4294967296) = OK)
    (hcalloc : env.callocOK = true)
    (hint : ∀ level, env.devEnableInterruptLevel level = 0) :
    (16 ≤ (scanparm cp locals).2.vmeslotnum ∧ (scanparm cp locals).2.vmeslotnum ≤ 21 →
      (initialise env locals cp carrier w).status = S_IPAC_badAddress) ∧
    (1 ≤ (scanparm cp locals).2.vmeslotnum ∧ (scanparm cp locals).2.vmeslotnum ≤ 15 →
      (initialise env locals cp carrier w).status = OK) := by
  have hcsr : ∃ csr, initialise_csr (scanparm cp locals).2 = some csr := by
    simp [initialise_csr, hmem]
  obtain ⟨csr, hcsr⟩ := hcsr
  constructor
  · intro hS
    simp only [initialise, hscan, ne_eq, not_true_eq_false, if_false, hreg, hprom, hcalloc,
      hcsr, hmem, true_and]
    have : (scanparm cp locals).2.vmeslotnum > 15 := by omega
    simp [this]
  · intro hS
    have h15 : ¬ (scanparm cp locals).2.vmeslotnum > 15 := by omega
    have hra : ∀ pv rc, pv.isgeomem = 1 → pv.ipmemmode = 2 →
        pv.vmeslotnum = toWord (scanparm cp locals).2.vmeslotnum →
        (regaddr env pv rc).1 = OK := by
      intro pv rc hg hm hv
      apply regaddr_ok env pv rc hreg
      intro ip hip prev
      obtain ⟨S, hSeq⟩ : ∃ S : Nat, (scanparm cp locals).2.vmeslotnum = (S : Int) :=
        ⟨((scanparm cp locals).2.vmeslotnum).toNat, by omega⟩
      have hS1 : 1 ≤ S ∧ S ≤ 15 := by omega
      have hw : toWord (scanparm cp locals).2.vmeslotnum = S := by
        rw [hSeq]; simp only [toWord]; omega
      simp only [regaddr_basetmp, hg, hm, hv, hw, ne_eq, one_ne_zero, not_false_eq_true,
        if_true, OfNat.ofNat_ne_one, if_false]
      obtain ⟨h1, h2⟩ := hS1
      simp only [NUMIPSLOTS] at hip
      interval_cases S <;> interval_cases ip <;> decide
    simp only [initialise, hscan, ne_eq, not_true_eq_false, if_false, hreg, hprom, hcalloc,
      hcsr, hmem, true_and, h15, hgeo, hint]
    rw [hra _ _ (by simp) (by simp [toWord]) rfl]
    simp
/-- C6 at the carrier slots 20 and 10. -/
theorem initialise_2MB_geographic_witness :
    (initialise goodEnv junkLocals (some "20,2,IPMEM=2".toList) 0 emptyWorld).status
      = S_IPAC_badAddress ∧
    (initialise goodEnv junkLocals (some "10,2,IPMEM=2".toList) 0 emptyWorld).status = OK :=
  ⟨(initialise_2MB_geographic goodEnv junkLocals (some "20,2,IPMEM=2".toList) 0 emptyWorld
      (by decide) (by decide) (by decide) (fun _ _ => rfl) (by decide) rfl (fun _ => rfl)).1
      (by decide),
   (initialise_2MB_geographic goodEnv junkLocals (some "10,2,IPMEM=2".toList) 0 emptyWorld
      (by decide) (by decide) (by decide) (fun _ _ => rfl) (by decide) rfl (fun _ => rfl)).2
      (by decide)⟩

end Hy8002

/-! ### A rejected parameter string -/

/-- C8: for a parameter string that `scanparm` rejects, `initialise` returns
`S_IPAC_badAddress` and writes nothing: no `devRegisterAddress` call, no
carrier register write, the carrier list and `*cPrivate` untouched.  Eager
driver: the whole state is unchanged.  Legacy driver: the state is the one
`hotSwapInit` leaves, which differs from the old one in the hot-swap flag and
thread only. -/
theorem initialise_rejected_string (env : Env) (cp : Option (List Char)) (carrier : Nat)
    (localsE : Hy8002.ScanOut) (wE : Hy8002.World)
    (copyOK : Bool) (localsL : Hy8002Legacy.ScanOut) (wL : Hy8002Legacy.World) :
    ((Hy8002.scanparm cp localsE).1 ≠ OK →
      Hy8002.initialise env localsE cp carrier wE = ⟨S_IPAC_badAddress, wE, none⟩) ∧
    (∀ o, Hy8002Legacy.scanparm copyOK cp localsL = some (0, o) →
      Hy8002Legacy.initialise env copyOK localsL cp wL
        = some ⟨S_IPAC_badAddress, Hy8002Legacy.hotSwapInit wL, none⟩ ∧
      (Hy8002Legacy.hotSwapInit wL).regCalls = wL.regCalls ∧
      (Hy8002Legacy.hotSwapInit wL).probeWrites = wL.probeWrites ∧
      (Hy8002Legacy.hotSwapInit wL).CarrierList = wL.CarrierList) := by
  constructor
  · intro h
    have hb : (Hy8002.scanparm cp localsE).1 = S_IPAC_badAddress := by
      rcases (Hy8002.scanparm_cases cp localsE).1 with h1 | h1
      · exact absurd h1 h
      · exact h1
    unfold Hy8002.initialise
    simp only []
    rw [if_pos h, hb]
  · intro o h
    refine ⟨?_, ?_, ?_, ?_⟩
    · simp only [Hy8002Legacy.initialise, h, if_true]
    all_goals
      simp only [Hy8002Legacy.hotSwapInit]
      split <;> rfl

/-- C8 at `3,2,IPMEM=3` (eager driver) and `3 2 1 FOO=1` (legacy driver). -/
theorem initialise_rejected_string_witness :
    Hy8002.initialise goodEnv junkLocals (some "3,2,IPMEM=3".toList) 0 emptyWorld
      = ⟨S_IPAC_badAddress, emptyWorld, none⟩ ∧
    (Hy8002Legacy.initialise goodEnv true junkLocalsLegacy (some "3 2 1 FOO=1".toList)
        emptyWorldLegacy).map (fun r => (r.status, r.world.regCalls, r.world.probeWrites,
          r.world.CarrierList.length))
      = some (S_IPAC_badAddress, [], [], 0) :=
  have h := initialise_rejected_string goodEnv (some "3,2,IPMEM=3".toList) 0 junkLocals
    emptyWorld true junkLocalsLegacy emptyWorldLegacy
  have h2 := initialise_rejected_string goodEnv (some "3 2 1 FOO=1".toList) 0 junkLocals
    emptyWorld true junkLocalsLegacy emptyWorldLegacy
  ⟨h.1 (by decide), by
    rw [(h2.2 ⟨3, 2, 1, 1, 0, 0, 8, 0, 0⟩ (by decide)).1]
    rfl⟩

namespace Hy8002Legacy

/-! ### The lazy `baseAddr` of the legacy driver -/

/-- Reading back the entry just stored. -/
theorem setBase_same (t : Nat → Nat) (slot v : Nat) : setBase t slot v slot = v := by
  simp [setBase]

/-- The odd slot of an enabled double-wide pair: `baseAddr` returns NULL and
touches nothing. -/
theorem baseAddr_odd_slot (env : Env) (pv : PrivateInfo) (regCalls : List RegCall)
    (slot : Nat) (space : ipac_addr_t)
    (h : (pv.ab32mode ≠ 0 ∧ slot = 1) ∨ (pv.cd32mode ≠ 0 ∧ slot = 3)) :
    baseAddr env pv regCalls slot space = some ⟨0, pv, regCalls⟩ := by
  unfold baseAddr
  rcases h with h | h
  · rw [if_pos h]
  · split
    · rfl
    · rfl

/-- C9, as stated, fails: the odd slot of the double-wide pair AB returns
NULL, and NULL is also what an accessible slot returns when its memory base is
computed as 0 or the address space is unknown; the two results are equal. -/
theorem baseAddr_inaccessible_not_distinct :
    (baseAddr goodEnv doubleWideAB [] 1 ipac_addr_t.ipac_addrMem).map (fun r => r.retval)
      = some 0 ∧
    (baseAddr goodEnv legacySlot0 [] 0 ipac_addr_t.ipac_addrMem).map (fun r => r.retval)
      = some 0 ∧
    (baseAddr goodEnv legacySlot0 [] 0 (ipac_addr_t.other 4)).map (fun r => r.retval)
      = some 0 := by
  decide

/-- C9 (amended): for the odd slot of an enabled double-wide pair (AB32 and
slot 1, CD32 and slot 3) `baseAddr` returns NULL for every address space,
registers nothing and leaves `iobases` and `membases` unchanged; NULL is also
the result for an accessible slot whose window is not available (unknown
address space, or memory base computed as 0). -/
theorem baseAddr_double_wide_odd_slot (env : Env) (pv : PrivateInfo) (regCalls : List RegCall)
    (slot : Nat) (space : ipac_addr_t)
    (h : (pv.ab32mode ≠ 0 ∧ slot = 1) ∨ (pv.cd32mode ≠ 0 ∧ slot = 3)) :
    baseAddr env pv regCalls slot space = some ⟨0, pv, regCalls⟩ ∧
    (∀ (pv2 : PrivateInfo) (rc2 : List RegCall) (slot2 n : Nat),
      ¬ (pv2.ab32mode ≠ 0 ∧ slot2 = 1) → ¬ (pv2.cd32mode ≠ 0 ∧ slot2 = 3) →
      baseAddr env pv2 rc2 slot2 (ipac_addr_t.other n) = some ⟨0, pv2, rc2⟩) ∧
    (∀ (pv2 : PrivateInfo) (rc2 : List RegCall) (slot2 : Nat) (sp : ipac_addr_t),
      ¬ (pv2.ab32mode ≠ 0 ∧ slot2 = 1) → ¬ (pv2.cd32mode ≠ 0 ∧ slot2 = 3) → slot2 < 4 →
      sp = ipac_addr_t.ipac_addrMem ∨ sp = ipac_addr_t.ipac_addrIO32 →
      pv2.membases slot2 = UNREGISTERED → baseAddr_basetmp pv2 slot2 = 0 →
      (baseAddr env pv2 rc2 slot2 sp).map (fun r => (r.retval, r.regCalls)) = some (0, rc2)) := by
  refine ⟨?_, ?_, ?_⟩
  · exact baseAddr_odd_slot env pv regCalls slot space h
  · intro pv2 rc2 slot2 n h1 h2
    simp only [baseAddr, h1, h2, if_false]
  · intro pv2 rc2 slot2 sp h1 h2 h3 hsp hm hb
    have h4 : ¬ 4 ≤ slot2 := by omega
    rcases hsp with rfl | rfl <;>
      simp only [baseAddr, h1, h2, if_false, h4, hm, hb, if_true, ne_eq, not_true_eq_false,
        Option.map_some']

/-- C9 (amended) at the carrier with AB32 enabled, slot 1. -/
theorem baseAddr_double_wide_odd_slot_witness :
    (baseAddr goodEnv doubleWideAB [] 1 ipac_addr_t.ipac_addrIO).map
      (fun r => (r.retval, r.regCalls)) = some (0, []) :=
  by rw [(baseAddr_double_wide_odd_slot goodEnv doubleWideAB [] 1 ipac_addr_t.ipac_addrIO
      (Or.inl ⟨by decide, rfl⟩)).1]; rfl

/-- C10, as stated, fails for the odd slot of a double-wide pair: the IO
request returns NULL and the ID request after it returns NULL as well, not
the IO result plus 0x80. -/
theorem baseAddr_ID_after_IO_odd_slot :
    (baseAddr goodEnv doubleWideAB [] 1 ipac_addr_t.ipac_addrIO).map
        (fun r => (r.retval, r.regCalls)) = some (0, []) ∧
    ((baseAddr goodEnv doubleWideAB [] 1 ipac_addr_t.ipac_addrIO).bind
        (fun r => baseAddr goodEnv r.pv r.regCalls 1 ipac_addr_t.ipac_addrID)).map
        (fun r => r.retval) = some 0 ∧
    addr32 0 0x80 = 128 := by
  decide

/-- C10 (amended): for a slot in 0..3 the first `baseAddr` call returns, and a
second call with the same arguments returns the same value, registers nothing
and changes nothing, provided the pointer that `devRegisterAddress` hands out
during the first call is not the marker `(void *) -1`; and unless the slot is the odd slot of an enabled
double-wide pair, an ID request after an IO request registers nothing and
returns the IO address plus 0x80 (32-bit pointer arithmetic). -/
theorem baseAddr_idempotent (env env2 : Env) (pv : PrivateInfo) (regCalls : List RegCall)
    (slot : Nat) (space : ipac_addr_t) (hslot : slot < 4)
    (hptr : ∀ call, (env.devRegisterAddress regCalls call).2 % 4294967296 ≠ UNREGISTERED) :
    ∃ r1, baseAddr env pv regCalls slot space = some r1 ∧
      baseAddr env2 r1.pv r1.regCalls slot space = some ⟨r1.retval, r1.pv, r1.regCalls⟩ ∧
      (space = ipac_addr_t.ipac_addrIO →
        ¬ (pv.ab32mode ≠ 0 ∧ slot = 1) → ¬ (pv.cd32mode ≠ 0 ∧ slot = 3) →
        baseAddr env2 r1.pv r1.regCalls slot ipac_addr_t.ipac_addrID
          = some ⟨addr32 r1.retval 0x80, r1.pv, r1.regCalls⟩) := by
  have h4 : ¬ 4 ≤ slot := by omega
  have hU : (0 : Nat) ≠ UNREGISTERED := by decide
  by_cases hab : pv.ab32mode ≠ 0 ∧ slot = 1
  · exact ⟨⟨0, pv, regCalls⟩, baseAddr_odd_slot _ _ _ _ _ (Or.inl hab),
      baseAddr_odd_slot _ _ _ _ _ (Or.inl hab), fun _ h => absurd hab h⟩
  by_cases hcd : pv.cd32mode ≠ 0 ∧ slot = 3
  · exact ⟨⟨0, pv, regCalls⟩, baseAddr_odd_slot _ _ _ _ _ (Or.inr hcd),
      baseAddr_odd_slot _ _ _ _ _ (Or.inr hcd), fun _ _ h => absurd hcd h⟩
  have hacc : ∀ (e : Env) (q : PrivateInfo) (rc : List RegCall) (sp : ipac_addr_t),
      q.ab32mode = pv.ab32mode → q.cd32mode = pv.cd32mode →
      baseAddr e q rc slot sp =
        (match sp with
        | ipac_addr_t.other _ => some ⟨0, q, rc⟩
        | ipac_addr_t.ipac_addrID | ipac_addr_t.ipac_addrIO =>
          let r : BaseResult :=
            if q.iobases slot = UNREGISTERED then
              let basetmp := ((q.vmeslotnum <<< 11) + (slot <<< 8)) % 4294967296
              let call : RegCall := ⟨epicsAddressType.atVMEA16, basetmp, IP_MEM_SIZE⟩
              let tempVal := (e.devRegisterAddress rc call).2 % 4294967296
              ⟨tempVal, { q with iobases := setBase q.iobases slot tempVal }, rc ++ [call]⟩
            else ⟨q.iobases slot, q, rc⟩
          if sp = ipac_addr_t.ipac_addrID then some { r with retval := addr32 r.retval 0x80 }
          else some r
        | ipac_addr_t.ipac_addrMem | ipac_addr_t.ipac_addrIO32 =>
          if q.membases slot = UNREGISTERED then
            let basetmp := baseAddr_basetmp q slot
            if basetmp ≠ 0 then
              let memspace := if sp = ipac_addr_t.ipac_addrMem then ONEMB else 2 * ONEMB
              let call : RegCall := ⟨epicsAddressType.atVMEA32, basetmp, memspace⟩
              let tempVal := (e.devRegisterAddress rc call).2 % 4294967296
              some ⟨tempVal, { q with membases := setBase q.membases slot tempVal }, rc ++ [call]⟩
            else some ⟨0, { q with membases := setBase q.membases slot 0 }, rc⟩
          else some ⟨q.membases slot, q, rc⟩) := by
    intro e q rc sp ha hc
    unfold baseAddr
    rw [if_neg (by rw [ha]; exact hab), if_neg (by rw [hc]; exact hcd)]
    cases sp <;> simp only [h4, if_false]
  cases space with
  | other n =>
    exact ⟨⟨0, pv, regCalls⟩, by rw [hacc _ _ _ _ (by rfl) (by rfl)], by rw [hacc _ _ _ _ (by rfl) (by rfl)],
      fun h => by cases h⟩
  | ipac_addrID =>
    have h1 := hacc env pv regCalls ipac_addr_t.ipac_addrID rfl rfl
    by_cases hio : pv.iobases slot = UNREGISTERED
    · simp only [hio, if_true] at h1
      refine ⟨_, h1, ?_, fun h => by cases h⟩
      rw [hacc _ _ _ _ (by rfl) (by rfl)]; simp [setBase_same, hptr]
    · simp only [hio, if_false, if_true] at h1
      refine ⟨_, h1, ?_, fun h => by cases h⟩
      rw [hacc _ _ _ _ (by rfl) (by rfl)]; simp [hio]
  | ipac_addrIO =>
    have h1 := hacc env pv regCalls ipac_addr_t.ipac_addrIO rfl rfl
    by_cases hio : pv.iobases slot = UNREGISTERED
    · simp only [hio, if_true, reduceCtorEq, if_false] at h1
      refine ⟨_, h1, ?_, fun _ _ _ => ?_⟩
      · rw [hacc _ _ _ _ (by rfl) (by rfl)]; simp [setBase_same, hptr]
      · rw [hacc _ _ _ _ (by rfl) (by rfl)]; simp [setBase_same, hptr]
    · simp only [hio, if_false, reduceCtorEq] at h1
      refine ⟨_, h1, ?_, fun _ _ _ => ?_⟩
      · rw [hacc _ _ _ _ (by rfl) (by rfl)]; simp [hio]
      · rw [hacc _ _ _ _ (by rfl) (by rfl)]; simp [hio]
  | ipac_addrIO32 =>
    have h1 := hacc env pv regCalls ipac_addr_t.ipac_addrIO32 rfl rfl
    by_cases hm : pv.membases slot = UNREGISTERED
    · by_cases hb : baseAddr_basetmp pv slot = 0
      · simp only [hm, hb, if_true, ne_eq, not_true_eq_false, if_false] at h1
        refine ⟨_, h1, ?_, fun h => by cases h⟩
        rw [hacc _ _ _ _ (by rfl) (by rfl)]; simp [setBase_same, hU]
      · simp only [hm, hb, if_true, ne_eq, not_false_eq_true] at h1
        refine ⟨_, h1, ?_, fun h => by cases h⟩
        rw [hacc _ _ _ _ (by rfl) (by rfl)]; simp [setBase_same, hptr]
    · simp only [hm, if_false] at h1
      refine ⟨_, h1, ?_, fun h => by cases h⟩
      rw [hacc _ _ _ _ (by rfl) (by rfl)]; simp [hm]
  | ipac_addrMem =>
    have h1 := hacc env pv regCalls ipac_addr_t.ipac_addrMem rfl rfl
    by_cases hm : pv.membases slot = UNREGISTERED
    · by_cases hb : baseAddr_basetmp pv slot = 0
      · simp only [hm, hb, if_true, ne_eq, not_true_eq_false, if_false] at h1
        refine ⟨_, h1, ?_, fun h => by cases h⟩
        rw [hacc _ _ _ _ (by rfl) (by rfl)]; simp [setBase_same, hU]
      · simp only [hm, hb, if_true, ne_eq, not_false_eq_true] at h1
        refine ⟨_, h1, ?_, fun h => by cases h⟩
        rw [hacc _ _ _ _ (by rfl) (by rfl)]; simp [setBase_same, hptr]
    · simp only [hm, if_false] at h1
      refine ⟨_, h1, ?_, fun h => by cases h⟩
      rw [hacc _ _ _ _ (by rfl) (by rfl)]; simp [hm]

/-- C10 (amended) at a freshly initialised carrier, IP slot 2. -/
theorem baseAddr_idempotent_witness :
    ∃ r1, baseAddr goodEnv legacyFresh3 [] 2 ipac_addr_t.ipac_addrIO = some r1 ∧
      baseAddr goodEnv r1.pv r1.regCalls 2 ipac_addr_t.ipac_addrIO
        = some ⟨r1.retval, r1.pv, r1.regCalls⟩ ∧
      (ipac_addr_t.ipac_addrIO = ipac_addr_t.ipac_addrIO →
        ¬ (legacyFresh3.ab32mode ≠ 0 ∧ 2 = 1) → ¬ (legacyFresh3.cd32mode ≠ 0 ∧ 2 = 3) →
        baseAddr goodEnv r1.pv r1.regCalls 2 ipac_addr_t.ipac_addrID
          = some ⟨addr32 r1.retval 0x80, r1.pv, r1.regCalls⟩) :=
  baseAddr_idempotent goodEnv goodEnv legacyFresh3 [] 2 ipac_addr_t.ipac_addrIO (by decide)
    (fun c => by
      show (0x10000000 + c.base % 0x10000000) % 4294967296 ≠ 4294967295
      omega)

end Hy8002Legacy

namespace Hy8002

open CLib

/-! ### Order of the options in the parameter string -/

/-- The characters of the key `IPMEM=`. -/
theorem key_IPMEM : "IPMEM=".toList = ['I', 'P', 'M', 'E', 'M', '='] := by decide
/-- The characters of the key `IPCLCK=`. -/
theorem key_IPCLCK : "IPCLCK=".toList = ['I', 'P', 'C', 'L', 'C', 'K', '='] := by decide
/-- The characters of the key `ROAK=`. -/
theorem key_ROAK : "ROAK=".toList = ['R', 'O', 'A', 'K', '='] := by decide
/-- The characters of the key `MEMOFFS=`. -/
theorem key_MEMOFFS : "MEMOFFS=".toList = ['M', 'E', 'M', 'O', 'F', 'F', 'S', '='] := by decide

/-- A digit is not the NUL character. -/
theorem isdigit_ne_NUL (c : Char) (h : isdigit c = true) : (c != NUL) = true := by
  have h0 : NUL.toNat = 0 := by decide
  simp only [isdigit, Bool.and_eq_true, decide_eq_true_eq] at h
  simp only [bne_iff_ne, ne_eq]
  intro hc
  rw [hc, h0] at h
  omega

/-- A string without NUL is all of its C string. -/
theorem cstr_eq_self (s : List Char) (h : ∀ c ∈ s, (c != NUL) = true) : cstr s = s := by
  unfold cstr
  exact List.takeWhile_eq_self_iff.mpr h

/-- Digits are read up to the first character that is not a digit. -/
theorem scanDigits_append (ds tail : List Char) (hd : ∀ c ∈ ds, isdigit c = true)
    (ht : ∀ c ∈ tail.head?, isdigit c = false) :
    ∀ acc, scanDigits (ds ++ tail) acc = ((scanDigits ds acc).1, tail) := by
  induction ds with
  | nil =>
    intro acc
    cases tail with
    | nil => rfl
    | cons c t =>
      have : isdigit c = false := ht c (by simp)
      simp [scanDigits, this]
  | cons d ds ih =>
    intro acc
    have hd1 : isdigit d = true := hd d (List.mem_cons_self _ _)
    simp only [List.cons_append, scanDigits, hd1, if_true]
    exact ih (fun c hc => hd c (List.mem_cons_of_mem _ hc)) _

/-- `%d` on a non-empty run of digits followed by a non-digit: the value of
the run, the rest of the input untouched. -/
theorem convD_digits (ds tail : List Char) (hne : ds ≠ []) (hd : ∀ c ∈ ds, isdigit c = true)
    (ht : ∀ c ∈ tail.head?, isdigit c = false) :
    convD (ds ++ tail) = Conv.ok (toInt32 ((scanDigits ds 0).1 : Int)) tail := by
  cases ds with
  | nil => exact absurd rfl hne
  | cons d ds =>
    have hd1 : isdigit d = true := hd d (List.mem_cons_self _ _)
    have hd2 := hd1
    simp only [isdigit, Bool.and_eq_true, decide_eq_true_eq] at hd2
    have hsp : isspace d = false := by
      simp only [isspace, Bool.or_eq_false_iff, decide_eq_false_iff_not, Bool.and_eq_false_iff]
      omega
    have h45 : ¬ d.toNat = 45 := by omega
    have h43 : ¬ d.toNat = 43 := by omega
    have hsc := scanDigits_append (d :: ds) tail hd ht 0
    simp only [List.cons_append] at hsc
    simp only [convD, List.cons_append, List.dropWhile_cons, hsp, h45, h43, decide_False,
      Bool.or_self, Bool.false_eq_true, if_false, hd1, if_true, hsc]


/-- `sscanf(.., "%d", ..)` on a run of digits does not depend on what follows
the run. -/
theorem sscanf_d_digits (ds tail : List Char) (x : Int) (hne : ds ≠ [])
    (hd : ∀ c ∈ ds, isdigit c = true) (ht : ∀ c ∈ tail.head?, isdigit c = false) :
    sscanf_d (ds ++ tail) x = (1, toInt32 ((scanDigits ds 0).1 : Int)) := by
  simp only [sscanf_d, convD_digits ds tail hne hd ht]

/-- The comma is not a digit. -/
theorem isdigit_comma : isdigit comma = false := by decide

/-- The two leading integers: `sscanf` on `<s>,<l>,rest` converts both and
reports the length of `<s>,<l>,` through `%n`. -/
theorem sscanf_d_d_n_prefix (ds dl rest : List Char) (a b : Int) (n : Nat)
    (hs : ds ≠ [] ∧ ∀ c ∈ ds, isdigit c = true) (hl : dl ≠ [] ∧ ∀ c ∈ dl, isdigit c = true) :
    sscanf_d_d_n (ds ++ comma :: (dl ++ comma :: rest)) a b n =
      ⟨2, toInt32 ((scanDigits ds 0).1 : Int), toInt32 ((scanDigits dl 0).1 : Int),
        ds.length + 1 + (dl.length + 1)⟩ := by
  have hc : ∀ (t : List Char), ∀ c ∈ (comma :: t).head?, isdigit c = false := by
    intro t c hc
    simp only [List.head?_cons, Option.mem_def, Option.some.injEq] at hc
    rw [← hc]; exact isdigit_comma
  have h44 : comma.toNat = 44 := by decide
  simp only [sscanf_d_d_n, convD_digits ds _ hs.1 hs.2 (hc _), h44, if_true,
    convD_digits dl _ hl.1 hl.2 (hc _), List.length_append, List.length_cons]
  congr 1
  omega

/-- No occurrence of a needle that starts with a non-digit begins inside a run
of digits. -/
theorem strstr_digits (ds rest : List Char) (p : Char) (ps : List Char)
    (hd : ∀ c ∈ ds, isdigit c = true) (hp : isdigit p = false) :
    strstr (ds ++ rest) (p :: ps) = strstr rest (p :: ps) := by
  induction ds with
  | nil => rfl
  | cons d ds ih =>
    have hd1 : isdigit d = true := hd d (List.mem_cons_self _ _)
    have hne : ¬ p.toNat = d.toNat := by
      intro h
      simp only [isdigit, h] at hp
      simp only [isdigit] at hd1
      rw [hd1] at hp
      exact Bool.noConfusion hp
    simp only [List.cons_append, strstr, startsWith, hne, decide_False, Bool.false_and,
      Bool.false_eq_true, if_false]
    exact ih (fun c hc => hd c (List.mem_cons_of_mem _ hc))

/-- The first character of every option key is a letter, not a digit and not
the comma. -/
theorem key_head (n : OptName) :
    ∃ p ps, n.key = p :: ps ∧ isdigit p = false ∧ ¬ p.toNat = 44 := by
  cases n
  · exact ⟨'I', _, key_IPMEM, by decide, by decide⟩
  · exact ⟨'I', _, key_IPCLCK, by decide, by decide⟩
  · exact ⟨'R', _, key_ROAK, by decide, by decide⟩
  · exact ⟨'M', _, key_MEMOFFS, by decide, by decide⟩

/-- A key is found at the start of its own token. -/
theorem strstr_key_same (n : OptName) (rest : List Char) :
    strstr (n.key ++ rest) n.key = some (n.key ++ rest) := by
  cases n <;>
    simp +decide [OptName.key, key_IPMEM, key_IPCLCK, key_ROAK, key_MEMOFFS, strstr, startsWith]

/-- No occurrence of a key begins inside the name of a token with another
name. -/
theorem strstr_key_other (a n : OptName) (h : a ≠ n) (rest : List Char) :
    strstr (a.key ++ rest) n.key = strstr rest n.key := by
  cases a <;> cases n <;>
    first
    | exact absurd rfl h
    | simp +decide [OptName.key, key_IPMEM, key_IPCLCK, key_ROAK, key_MEMOFFS, strstr,
        startsWith]

/-- The length of a key is the offset `scanparm` adds to `pstart`. -/
theorem drop_key (n : OptName) (rest : List Char) :
    (n.key ++ rest).drop n.key.length = rest := by
  simp

/-- The text after a token is empty or starts with the comma. -/
theorem joinTail_head (ts : List Token) : ∀ c ∈ (joinTail ts).head?, isdigit c = false := by
  intro c hc
  cases ts with
  | nil => simp [joinTail] at hc
  | cons t ts =>
    simp only [joinTail, List.head?_cons, Option.mem_def, Option.some.injEq] at hc
    rw [← hc]; exact isdigit_comma

/-- What `scanparm` reads for a name in the text after a token: the value of
the first later token with that name. -/
theorem optVal_joinTail (n : OptName) :
    ∀ (ts : List Token), (∀ t ∈ ts, t.wellFormed) →
      optVal (joinTail ts) n =
        (lookup ts n).map (fun ds => ((1 : Int), toInt32 ((scanDigits ds 0).1 : Int))) := by
  obtain ⟨p, ps, hk, hp, hp44⟩ := key_head n
  have h44 : comma.toNat = 44 := by decide
  intro ts
  induction ts with
  | nil =>
    intro _
    simp only [optVal, joinTail, lookup, hk, strstr, startsWith, Bool.false_eq_true, if_false,
      Option.map_none']
  | cons t ts ih =>
    intro hwf
    have hwt := hwf t (List.mem_cons_self _ _)
    have ih2 := ih (fun u hu => hwf u (List.mem_cons_of_mem _ hu))
    have hcomma : strstr (comma :: (t.text ++ joinTail ts)) n.key
        = strstr (t.text ++ joinTail ts) n.key := by
      rw [hk]
      simp only [strstr, startsWith, h44, hp44, decide_False, Bool.false_and,
        Bool.false_eq_true, if_false]
    by_cases hn : t.name = n
    · subst hn
      simp only [optVal, joinTail]
      rw [hcomma]
      simp only [Token.text, List.append_assoc, strstr_key_same,
        Option.map_some', drop_key, lookup, if_true]
      rw [sscanf_d_digits t.digits (joinTail ts) 0 hwt.1 hwt.2 (joinTail_head ts)]
    · have hsk : strstr (t.text ++ joinTail ts) n.key = strstr (joinTail ts) n.key := by
        simp only [Token.text, List.append_assoc]
        rw [strstr_key_other t.name n hn, hk, strstr_digits _ _ p ps hwt.2 hp]
      simp only [optVal, joinTail]
      rw [hcomma, hsk]
      simp only [lookup, hn, if_false]
      exact ih2

/-- What `scanparm` reads for a name in a comma-joined list of well-formed
tokens: the value of the first token with that name. -/
theorem optVal_joinTokens (n : OptName) (ts : List Token) (hwf : ∀ t ∈ ts, t.wellFormed) :
    optVal (joinTokens ts) n =
      (lookup ts n).map (fun ds => ((1 : Int), toInt32 ((scanDigits ds 0).1 : Int))) := by
  obtain ⟨p, ps, hk, hp, hp44⟩ := key_head n
  cases ts with
  | nil =>
    simp only [optVal, joinTokens, lookup, hk, strstr, startsWith, Bool.false_eq_true, if_false,
      Option.map_none']
  | cons t ts =>
    have hwt := hwf t (List.mem_cons_self _ _)
    have ih2 := optVal_joinTail n ts (fun u hu => hwf u (List.mem_cons_of_mem _ hu))
    by_cases hn : t.name = n
    · subst hn
      simp only [optVal, joinTokens, Token.text, List.append_assoc, strstr_key_same,
        Option.map_some', drop_key, lookup, if_true]
      rw [sscanf_d_digits t.digits (joinTail ts) 0 hwt.1 hwt.2 (joinTail_head ts)]
    · have hsk : strstr (t.text ++ joinTail ts) n.key = strstr (joinTail ts) n.key := by
        simp only [Token.text, List.append_assoc]
        rw [strstr_key_other t.name n hn, hk, strstr_digits _ _ p ps hwt.2 hp]
      simp only [optVal, joinTokens, hsk, lookup, hn, if_false]
      exact ih2

/-- The `MEMOFFS=` stage depends on the text only through what is read for
that name. -/
theorem scanparm_MEMOFFS_congr (s s' : List Char)
    (h : optVal s OptName.MEMOFFS = optVal s' OptName.MEMOFFS) (o : ScanOut) :
    scanparm_MEMOFFS s o = scanparm_MEMOFFS s' o := by
  have hlen : "MEMOFFS=".toList.length = 8 := by decide
  simp only [optVal, OptName.key, hlen] at h
  unfold scanparm_MEMOFFS
  cases e : strstr s "MEMOFFS=".toList <;> cases e' : strstr s' "MEMOFFS=".toList <;>
    simp only [e, e', Option.map_none', Option.map_some', Option.some.injEq, reduceCtorEq] at h
  · rfl
  · simp only [h]

/-- The `ROAK=` stage and the stage after it depend on the text only through
what is read for the option names. -/
theorem scanparm_ROAK_congr (s s' : List Char) (h : ∀ n, optVal s n = optVal s' n)
    (o : ScanOut) : scanparm_ROAK s o = scanparm_ROAK s' o := by
  have hlen : "ROAK=".toList.length = 5 := by decide
  have h3 := h OptName.ROAK
  have hnext := scanparm_MEMOFFS_congr s s' (h OptName.MEMOFFS)
  simp only [optVal, OptName.key, hlen] at h3
  unfold scanparm_ROAK
  cases e : strstr s "ROAK=".toList <;> cases e' : strstr s' "ROAK=".toList <;>
    simp only [e, e', Option.map_none', Option.map_some', Option.some.injEq, reduceCtorEq] at h3
  · exact hnext o
  · simp only [h3, hnext]

/-- The `IPCLCK=` stage and the stages after it depend on the text only
through what is read for the option names. -/
theorem scanparm_IPCLCK_congr (s s' : List Char) (h : ∀ n, optVal s n = optVal s' n)
    (o : ScanOut) : scanparm_IPCLCK s o = scanparm_IPCLCK s' o := by
  have hlen : "IPCLCK=".toList.length = 7 := by decide
  have h2 := h OptName.IPCLCK
  have hnext := scanparm_ROAK_congr s s' h
  simp only [optVal, OptName.key, hlen] at h2
  unfold scanparm_IPCLCK
  cases e : strstr s "IPCLCK=".toList <;> cases e' : strstr s' "IPCLCK=".toList <;>
    simp only [e, e', Option.map_none', Option.map_some', Option.some.injEq, reduceCtorEq] at h2
  · exact hnext o
  · simp only [h2, hnext]

/-- The option stages of `scanparm` depend on the text only through what is
read for the four option names. -/
theorem scanparm_IPMEM_congr (s s' : List Char) (h : ∀ n, optVal s n = optVal s' n)
    (o : ScanOut) : scanparm_IPMEM s o = scanparm_IPMEM s' o := by
  have hlen : "IPMEM=".toList.length = 6 := by decide
  have h1 := h OptName.IPMEM
  have hnext := scanparm_IPCLCK_congr s s' h
  simp only [optVal, OptName.key, hlen] at h1
  unfold scanparm_IPMEM
  cases e : strstr s "IPMEM=".toList <;> cases e' : strstr s' "IPMEM=".toList <;>
    simp only [e, e', Option.map_none', Option.map_some', Option.some.injEq, reduceCtorEq] at h1
  · exact hnext o
  · simp only [h1, hnext]

/-- With at most one token for each name, the value found for a name does not
depend on the order of the tokens. -/
theorem lookup_perm (n : OptName) (l1 l2 : List Token) (hp : l1.Perm l2) :
    (l1.map Token.name).Nodup → lookup l1 n = lookup l2 n := by
  induction hp with
  | nil => intro _; rfl
  | cons t _ ih =>
    intro hnd
    simp only [List.map_cons, List.nodup_cons] at hnd
    simp only [lookup, ih hnd.2]
  | swap a b l =>
    intro hnd
    simp only [List.map_cons, List.nodup_cons, List.mem_cons, not_or] at hnd
    simp only [lookup]
    by_cases ha : a.name = n
    · by_cases hb : b.name = n
      · exact absurd (hb.trans ha.symm) hnd.1.1
      · simp only [ha, hb, if_true, if_false]
    · by_cases hb : b.name = n
      · simp only [ha, hb, if_true, if_false]
      · simp only [ha, hb, if_false]
  | trans h12 _ ih1 ih2 =>
    intro hnd
    rw [ih1 hnd]
    exact ih2 (((h12.map Token.name).nodup_iff).mp hnd)

/-- The characters of a well-formed token list are not NUL. -/
theorem joinTail_ne_NUL : ∀ (ts : List Token), (∀ t ∈ ts, t.wellFormed) →
    ∀ c ∈ joinTail ts, (c != NUL) = true := by
  intro ts
  induction ts with
  | nil => intro _ c hc; simp [joinTail] at hc
  | cons t ts ih =>
    intro hwf c hc
    have hwt := hwf t (List.mem_cons_self _ _)
    simp only [joinTail, Token.text, List.mem_cons, List.mem_append] at hc
    rcases hc with hc | (hc | hc) | hc
    · rw [hc]; decide
    · revert c
      cases t.name <;> decide
    · exact isdigit_ne_NUL c (hwt.2 c hc)
    · exact ih (fun u hu => hwf u (List.mem_cons_of_mem _ hu)) c hc

/-- The characters of a well-formed token list are not NUL. -/
theorem joinTokens_ne_NUL (ts : List Token) (hwf : ∀ t ∈ ts, t.wellFormed) :
    ∀ c ∈ joinTokens ts, (c != NUL) = true := by
  intro c hc
  cases ts with
  | nil => simp [joinTokens] at hc
  | cons t ts =>
    have hwt := hwf t (List.mem_cons_self _ _)
    simp only [joinTokens, Token.text, List.mem_append] at hc
    rcases hc with (hc | hc) | hc
    · revert c
      cases t.name <;> decide
    · exact isdigit_ne_NUL c (hwt.2 c hc)
    · exact joinTail_ne_NUL ts (fun u hu => hwf u (List.mem_cons_of_mem _ hu)) c hc

/-- The eager `scanparm` on `<s>,<l>,` followed by a comma-joined list of
well-formed tokens: the two integers are read and the option stages run on the
token list. -/
theorem scanparm_on_tokens (ds dl : List Char) (ts : List Token) (o : ScanOut)
    (hs : ds ≠ [] ∧ ∀ c ∈ ds, isdigit c = true) (hl : dl ≠ [] ∧ ∀ c ∈ dl, isdigit c = true)
    (hwf : ∀ t ∈ ts, t.wellFormed) :
    scanparm (some (ds ++ comma :: (dl ++ comma :: joinTokens ts))) o =
      if toInt32 ((scanDigits ds 0).1 : Int) < 0 ∨ toInt32 ((scanDigits ds 0).1 : Int) > 21 then
        (S_IPAC_badAddress, o)
      else if toInt32 ((scanDigits dl 0).1 : Int) < 0
          ∨ toInt32 ((scanDigits dl 0).1 : Int) > 7 then
        (S_IPAC_badAddress, { o with vmeslotnum := toInt32 ((scanDigits ds 0).1 : Int) })
      else
        scanparm_IPMEM (joinTokens ts)
          { vmeslotnum := toInt32 ((scanDigits ds 0).1 : Int),
            IPintlevel := toInt32 ((scanDigits dl 0).1 : Int),
            ipmem := 1, ipclck := 8, roak := 0, domemreg := 0, memoffs := 0 } := by
  have hnul : ∀ c ∈ ds ++ comma :: (dl ++ comma :: joinTokens ts), (c != NUL) = true := by
    intro c hc
    simp only [List.mem_append, List.mem_cons] at hc
    rcases hc with hc | hc | hc | hc | hc
    · exact isdigit_ne_NUL c (hs.2 c hc)
    · rw [hc]; decide
    · exact isdigit_ne_NUL c (hl.2 c hc)
    · rw [hc]; decide
    · exact joinTokens_ne_NUL ts hwf c hc
  have hdrop : (ds ++ comma :: (dl ++ comma :: joinTokens ts)).drop
      (ds.length + 1 + (dl.length + 1)) = joinTokens ts := by
    have e : ds ++ comma :: (dl ++ comma :: joinTokens ts)
        = (ds ++ comma :: (dl ++ [comma])) ++ joinTokens ts := by simp
    rw [e]
    have hlen : (ds ++ comma :: (dl ++ [comma])).length = ds.length + 1 + (dl.length + 1) := by
      simp only [List.length_append, List.length_cons, List.length_nil]
      omega
    rw [← hlen, List.drop_left]
  have hlen0 : ¬ (ds ++ comma :: (dl ++ comma :: joinTokens ts)).length = 0 := by
    simp
  simp only [scanparm, cstr_eq_self _ hnul, hlen0, if_false, sscanf_d_d_n_prefix ds dl _ 0 0 0 hs hl,
    ne_eq, not_true_eq_false, hdrop]

/-- C7: the eager `scanparm` does not depend on the order of its options.  For
a prefix `<s>,<l>,` of two decimal integers and a set of well-formed option
tokens `NAME=<n>` (decimal `<n>`), at most one for each of the names IPMEM,
IPCLCK, ROAK, MEMOFFS, any two comma-joined orderings of the tokens give the
same return status and the same output variables. -/
theorem scanparm_order_independent (ds dl : List Char) (toks1 toks2 : List Token) (o : ScanOut)
    (hs : ds ≠ [] ∧ ∀ c ∈ ds, isdigit c = true) (hl : dl ≠ [] ∧ ∀ c ∈ dl, isdigit c = true)
    (hwf : ∀ t ∈ toks1, t.wellFormed)
    (hdistinct : (toks1.map Token.name).Nodup)
    (hperm : toks1.Perm toks2) :
    scanparm (some (ds ++ comma :: (dl ++ comma :: joinTokens toks1))) o =
      scanparm (some (ds ++ comma :: (dl ++ comma :: joinTokens toks2))) o := by
  have hwf2 : ∀ t ∈ toks2, t.wellFormed := fun t ht => hwf t (hperm.mem_iff.mpr ht)
  have hopt : ∀ n, optVal (joinTokens toks1) n = optVal (joinTokens toks2) n := by
    intro n
    rw [optVal_joinTokens n toks1 hwf, optVal_joinTokens n toks2 hwf2,
      lookup_perm n toks1 toks2 hperm hdistinct]
  rw [scanparm_on_tokens ds dl toks1 o hs hl hwf, scanparm_on_tokens ds dl toks2 o hs hl hwf2,
    scanparm_IPMEM_congr _ _ hopt]

/-- C7 at `3,2,IPMEM=2,ROAK=1,MEMOFFS=2048,IPCLCK=32` and the reversed order
of the four options: both are accepted with the same outputs. -/
theorem scanparm_order_independent_witness :
    scanparm (some "3,2,IPMEM=2,ROAK=1,MEMOFFS=2048,IPCLCK=32".toList) junkLocals =
      scanparm (some "3,2,IPCLCK=32,MEMOFFS=2048,ROAK=1,IPMEM=2".toList) junkLocals ∧
    scanparm (some "3,2,IPMEM=2,ROAK=1,MEMOFFS=2048,IPCLCK=32".toList) junkLocals =
      (OK, ⟨3, 2, 2, 32, 1, 1, 2048⟩) :=
  ⟨scanparm_order_independent "3".toList "2".toList
      [⟨OptName.IPMEM, "2".toList⟩, ⟨OptName.ROAK, "1".toList⟩,
        ⟨OptName.MEMOFFS, "2048".toList⟩, ⟨OptName.IPCLCK, "32".toList⟩]
      [⟨OptName.IPCLCK, "32".toList⟩, ⟨OptName.MEMOFFS, "2048".toList⟩,
        ⟨OptName.ROAK, "1".toList⟩, ⟨OptName.IPMEM, "2".toList⟩]
      junkLocals (by decide) (by decide) (by decide) (by decide) (by decide),
   by decide⟩

end Hy8002

/-! ### Address lookup after the eager `initialise` -/

namespace Hy8002
open CLib

/-- Rows of the table after `setIOID`. -/
theorem getElem?_setIOID (t : List SlotAddrs) (ip io id i : Nat) :
    (setIOID t ip io id)[i]? =
      (t[i]?).map (fun r => if ip = i then { r with ioAddr := io, idAddr := id } else r) := by
  simp only [setIOID, List.getElem?_modify, Option.map_eq_map]

/-- Rows of the table after `setMem`. -/
theorem getElem?_setMem (t : List SlotAddrs) (ip v i : Nat) :
    (setMem t ip v)[i]? =
      (t[i]?).map (fun r => if ip = i then { r with memAddr := v } else r) := by
  simp only [setMem, List.getElem?_modify, Option.map_eq_map]

/-- A successful first loop of `regaddr` writes a non-null IO and ID address
for every slot it visits and leaves the other two columns alone. -/
theorem regaddr_io_table (env : Env)
    (hnull : ∀ earlier call, (env.devRegisterAddress earlier call).2 % 4294967296 ≠ 0)
    (hwin : ∀ earlier call, call.size = IP_MEM_SIZE →
      (env.devRegisterAddress earlier call).2 % 4294967296 + IP_MEM_SIZE ≤ 4294967296) :
    ∀ (ips : List Nat) (st : RegState), (regaddr_io env ips st).1 = OK →
      ∀ i r, st.pv.ipadresses[i]? = some r →
        ∃ r2, (regaddr_io env ips st).2.pv.ipadresses[i]? = some r2 ∧
          r2.io32Addr = r.io32Addr ∧ r2.memAddr = r.memAddr ∧
          ((i ∈ ips ∨ (r.ioAddr ≠ 0 ∧ r.idAddr ≠ 0)) → r2.ioAddr ≠ 0 ∧ r2.idAddr ≠ 0) := by
  intro ips
  induction ips with
  | nil =>
    intro st _ i r hr
    exact ⟨r, hr, rfl, rfl, fun h => h.elim (fun h => absurd h (List.not_mem_nil _)) id⟩
  | cons ip ips ih =>
    intro st hok i r hr
    simp only [regaddr_io] at hok ⊢
    split_ifs at hok ⊢ with hreg
    · exact absurd hok (by show S_IPAC_badAddress ≠ OK; decide)
    · have hp0 := hnull st.regCalls
        ⟨epicsAddressType.atVMEA16, ((st.pv.vmeslotnum <<< 11) + (ip <<< 8)) % 4294967296,
          IP_MEM_SIZE⟩
      have hp1 := hwin st.regCalls
        ⟨epicsAddressType.atVMEA16, ((st.pv.vmeslotnum <<< 11) + (ip <<< 8)) % 4294967296,
          IP_MEM_SIZE⟩ rfl
      have hid : addr32 ((env.devRegisterAddress st.regCalls
          ⟨epicsAddressType.atVMEA16, ((st.pv.vmeslotnum <<< 11) + (ip <<< 8)) % 4294967296,
            IP_MEM_SIZE⟩).2 % 4294967296) 0x80 ≠ 0 := by
        have hp2 : (env.devRegisterAddress st.regCalls
          ⟨epicsAddressType.atVMEA16, ((st.pv.vmeslotnum <<< 11) + (ip <<< 8)) % 4294967296,
            IP_MEM_SIZE⟩).2 % 4294967296 + 0x100 ≤ 4294967296 := hp1
        simp only [addr32]
        omega
      obtain ⟨r2, h2, h3, h4, h5⟩ := ih _ hok i
        (if ip = i then { r with ioAddr := (env.devRegisterAddress st.regCalls
          ⟨epicsAddressType.atVMEA16, ((st.pv.vmeslotnum <<< 11) + (ip <<< 8)) % 4294967296,
            IP_MEM_SIZE⟩).2 % 4294967296, idAddr := addr32 ((env.devRegisterAddress st.regCalls
          ⟨epicsAddressType.atVMEA16, ((st.pv.vmeslotnum <<< 11) + (ip <<< 8)) % 4294967296,
            IP_MEM_SIZE⟩).2 % 4294967296) 0x80 } else r)
        (by simp only [getElem?_setIOID, hr, Option.map_some'])
      refine ⟨r2, h2, ?_, ?_, ?_⟩
      · rw [h3]; split_ifs <;> rfl
      · rw [h4]; split_ifs <;> rfl
      · intro h
        apply h5
        by_cases hi : ip = i
        · right
          subst hi
          simp only [if_true]
          exact ⟨hp0, hid⟩
        · simp only [hi, if_false]
          rcases h with h | h
          · left
            rcases List.mem_cons.mp h with h | h
            · exact absurd h.symm hi
            · exact h
          · right; exact h

/-- A successful second loop of `regaddr` writes a non-null memory address
for every slot it visits and leaves the other three columns alone. -/
theorem regaddr_mem_table (env : Env)
    (hnull : ∀ earlier call, (env.devRegisterAddress earlier call).2 % 4294967296 ≠ 0) :
    ∀ (ips : List Nat) (st : RegState), (regaddr_mem env ips st).1 = OK →
      ∀ i r, st.pv.ipadresses[i]? = some r →
        ∃ r2, (regaddr_mem env ips st).2.pv.ipadresses[i]? = some r2 ∧
          r2.io32Addr = r.io32Addr ∧ r2.ioAddr = r.ioAddr ∧ r2.idAddr = r.idAddr ∧
          ((i ∈ ips ∨ r.memAddr ≠ 0) → r2.memAddr ≠ 0) := by
  intro ips
  induction ips with
  | nil =>
    intro st _ i r hr
    exact ⟨r, hr, rfl, rfl, rfl, fun h => h.elim (fun h => absurd h (List.not_mem_nil _)) id⟩
  | cons ip ips ih =>
    intro st hok i r hr
    simp only [regaddr_mem] at hok ⊢
    split_ifs at hok ⊢ with hz hreg
    · exact absurd hok (by show S_IPAC_badAddress ≠ OK; decide)
    · exact absurd hok (by show S_IPAC_badAddress ≠ OK; decide)
    · have hp0 := hnull st.regCalls
        ⟨epicsAddressType.atVMEA32, regaddr_basetmp st.pv ip st.basetmp, ONEMB⟩
      obtain ⟨r2, h2, h3, h4, h5, h6⟩ := ih _ hok i
        (if ip = i then { r with memAddr := (env.devRegisterAddress st.regCalls
          ⟨epicsAddressType.atVMEA32, regaddr_basetmp st.pv ip st.basetmp, ONEMB⟩).2
            % 4294967296 } else r)
        (by simp only [getElem?_setMem, hr, Option.map_some'])
      refine ⟨r2, h2, ?_, ?_, ?_, ?_⟩
      · rw [h3]; split_ifs <;> rfl
      · rw [h4]; split_ifs <;> rfl
      · rw [h5]; split_ifs <;> rfl
      · intro h
        apply h6
        by_cases hi : ip = i
        · right
          subst hi
          simp only [if_true]
          exact hp0
        · simp only [hi, if_false]
          rcases h with h | h
          · left
            rcases List.mem_cons.mp h with h | h
            · exact absurd h.symm hi
            · exact h
          · right; exact h


/-- The table after a successful `regaddr`: in every row the ID, IO and
memory addresses are non-null and the IO32 address is null. -/
theorem regaddr_table (env : Env)
    (hnull : ∀ earlier call, (env.devRegisterAddress earlier call).2 % 4294967296 ≠ 0)
    (hwin : ∀ earlier call, call.size = IP_MEM_SIZE →
      (env.devRegisterAddress earlier call).2 % 4294967296 + IP_MEM_SIZE ≤ 4294967296)
    (pv : privinfo) (regCalls : List RegCall) (hok : (regaddr env pv regCalls).1 = OK)
    (slot : Nat) (hs : slot < NUMIPSLOTS) :
    ∃ r, (regaddr env pv regCalls).2.pv.ipadresses[slot]? = some r ∧
      r.idAddr ≠ 0 ∧ r.ioAddr ≠ 0 ∧ r.io32Addr = 0 ∧ r.memAddr ≠ 0 := by
  unfold regaddr at hok ⊢
  by_cases h1 : (regaddr_io env (List.range NUMIPSLOTS)
      { pv := { pv with ipadresses := List.replicate NUMIPSLOTS ⟨0, 0, 0, 0⟩ },
        regCalls := regCalls, retval := 0, basetmp := 0 }).1 = OK
  · simp only [h1, ne_eq, not_true_eq_false, if_false] at hok ⊢
    have hrow : (List.replicate NUMIPSLOTS (⟨0, 0, 0, 0⟩ : SlotAddrs))[slot]?
        = some ⟨0, 0, 0, 0⟩ := by
      simp only [NUMIPSLOTS] at hs ⊢
      interval_cases slot <;> rfl
    obtain ⟨r1, e1, a1, _, c1⟩ := regaddr_io_table env hnull hwin _ _ h1 slot _ hrow
    obtain ⟨r2, e2, a2, b2, c2, d2⟩ := regaddr_mem_table env hnull _ _ hok slot r1 e1
    have hmem := List.mem_range.mpr hs
    refine ⟨r2, e2, ?_, ?_, ?_, d2 (Or.inl hmem)⟩
    · rw [c2]; exact (c1 (Or.inl hmem)).2
    · rw [b2]; exact (c1 (Or.inl hmem)).1
    · rw [a2, a1]
  · simp only [ne_eq, h1, not_false_eq_true, if_true] at hok

/-- C11, the code at a concrete input: after the successful `initialise` of
the string `3,2` on a platform whose `devRegisterAddress` only delivers
non-null pointers, `baseAddr` returns the null pointer for slot 0 and the
space `ipac_addrIO32`. -/
theorem baseAddr_IO32_null_after_initialise :
    (initialise goodEnv junkLocals (some "3,2".toList) 0 emptyWorld).status = OK ∧
    (∀ earlier call, (goodEnv.devRegisterAddress earlier call).2 % 4294967296 ≠ 0) ∧
    ((initialise goodEnv junkLocals (some "3,2".toList) 0 emptyWorld).cPrivate.bind
      fun pv => baseAddr pv 0 ipac_addr_t.ipac_addrIO32) = some 0 := by
  refine ⟨by decide, ?_, by decide⟩
  intro earlier call
  simp only [goodEnv]
  omega

/-- C11 as the code has it: after a successful `initialise`, when every
pointer that `devRegisterAddress` delivers is non-null and the window of an
IP slot lies inside the address space, `baseAddr` returns for every slot in
0..3 a non-null address for the spaces ID, IO and Mem and the null pointer
for IO32.  The lookup only reads the table in the private structure, so a
second call with the same arguments returns the same value. -/
theorem baseAddr_after_initialise (env : Env) (locals : ScanOut) (cp : Option (List Char))
    (carrier : Nat) (w : World) (pv : privinfo)
    (hnull : ∀ earlier call, (env.devRegisterAddress earlier call).2 % 4294967296 ≠ 0)
    (hwin : ∀ earlier call, call.size = IP_MEM_SIZE →
      (env.devRegisterAddress earlier call).2 % 4294967296 + IP_MEM_SIZE ≤ 4294967296)
    (hst : (initialise env locals cp carrier w).status = OK)
    (hpv : (initialise env locals cp carrier w).cPrivate = some pv)
    (slot : Nat) (hs : slot ≤ 3) :
    (∃ a, baseAddr pv slot ipac_addr_t.ipac_addrID = some a ∧ a ≠ 0) ∧
    (∃ a, baseAddr pv slot ipac_addr_t.ipac_addrIO = some a ∧ a ≠ 0) ∧
    (∃ a, baseAddr pv slot ipac_addr_t.ipac_addrMem = some a ∧ a ≠ 0) ∧
    baseAddr pv slot ipac_addr_t.ipac_addrIO32 = some 0 := by
  have key : ∃ pv0 rc, (regaddr env pv0 rc).1 = OK ∧ pv = (regaddr env pv0 rc).2.pv := by
    by_cases hscan : (scanparm cp locals).1 = OK
    swap
    · simp only [initialise, hscan, ne_eq, not_false_eq_true, if_true] at hpv
      cases hpv
    by_cases hreg : (env.devRegisterAddress w.regCalls
        ⟨epicsAddressType.atVMEA16, toU32 ((scanparm cp locals).2.vmeslotnum * 2048 + 1024),
          VME_MEM_SIZE⟩).1 = OK
    swap
    · simp only [initialise, hscan, hreg, ne_eq, not_true_eq_false, not_false_eq_true, if_true,
        if_false] at hpv
      cases hpv
    by_cases hprom : checkVMEprom env
        ((env.devRegisterAddress w.regCalls
          ⟨epicsAddressType.atVMEA16, toU32 ((scanparm cp locals).2.vmeslotnum * 2048 + 1024),
            VME_MEM_SIZE⟩).2 % 4294967296) = OK
    swap
    · simp only [initialise, hscan, hreg, hprom, ne_eq, not_true_eq_false, not_false_eq_true,
        if_true, if_false] at hpv
      cases hpv
    by_cases hcalloc : env.callocOK = false
    · simp only [initialise, hscan, hreg, hprom, hcalloc, ne_eq, not_true_eq_false,
        not_false_eq_true, if_true, if_false] at hpv
      cases hpv
    cases hcsr : initialise_csr (scanparm cp locals).2 with
    | none =>
      simp only [initialise, hscan, hreg, hprom, hcalloc, hcsr, ne_eq, not_true_eq_false,
        not_false_eq_true, if_true, if_false] at hpv
      cases hpv
    | some csr =>
      by_cases h15 : (scanparm cp locals).2.ipmem = 2 ∧ (scanparm cp locals).2.vmeslotnum > 15
      · simp only [initialise, hscan, hreg, hprom, hcalloc, hcsr, h15, ne_eq, not_true_eq_false,
          not_false_eq_true, if_true, if_false] at hpv
        cases hpv
      by_cases h4 : (scanparm cp locals).2.ipmem ≥ 4 ∧ (scanparm cp locals).2.domemreg = 0
      · simp only [initialise, hscan, hreg, hprom, hcalloc, hcsr, h15, h4, ne_eq,
          not_true_eq_false, not_false_eq_true, if_true, if_false] at hpv
        cases hpv
      by_cases hd : (scanparm cp locals).2.domemreg = 0
      · simp only [initialise, hscan, hreg, hprom, hcalloc, hcsr, h15, h4, hd, ne_eq,
          not_true_eq_false, not_false_eq_true, if_true, if_false, one_ne_zero] at hpv
        split_ifs at hpv <;> first
          | (cases hpv; done)
          | exact ⟨_, _, by assumption, (Option.some.inj hpv).symm⟩
      · simp only [initialise, hscan, hreg, hprom, hcalloc, hcsr, h15, h4, hd, ne_eq,
          not_true_eq_false, not_false_eq_true, if_true, if_false] at hpv
        split_ifs at hpv <;> first
          | (cases hpv; done)
          | exact ⟨_, _, by assumption, (Option.some.inj hpv).symm⟩
  obtain ⟨pv0, rc, hok, rfl⟩ := key
  obtain ⟨r, hr, h1, h2, h3, h4⟩ := regaddr_table env hnull hwin pv0 rc hok slot
    (by simp only [NUMIPSLOTS]; omega)
  simp only [baseAddr, List.get?_eq_getElem?, hr, Option.map_some', SlotAddrs.get]
  exact ⟨⟨_, rfl, h1⟩, ⟨_, rfl, h2⟩, ⟨_, rfl, h4⟩, by rw [h3]⟩

/-- C11 at the string `3,2`, slot 2. -/
theorem baseAddr_after_initialise_witness :
    ∃ pv, (initialise goodEnv junkLocals (some "3,2".toList) 0 emptyWorld).cPrivate = some pv ∧
      (∃ a, baseAddr pv 2 ipac_addr_t.ipac_addrID = some a ∧ a ≠ 0) ∧
      (∃ a, baseAddr pv 2 ipac_addr_t.ipac_addrIO = some a ∧ a ≠ 0) ∧
      (∃ a, baseAddr pv 2 ipac_addr_t.ipac_addrMem = some a ∧ a ≠ 0) ∧
      baseAddr pv 2 ipac_addr_t.ipac_addrIO32 = some 0 := by
  have hpv : ∃ pv,
      (initialise goodEnv junkLocals (some "3,2".toList) 0 emptyWorld).cPrivate = some pv :=
    Option.isSome_iff_exists.mp (by decide)
  obtain ⟨pv, hpv⟩ := hpv
  exact ⟨pv, hpv, baseAddr_after_initialise goodEnv junkLocals (some "3,2".toList) 0
    emptyWorld pv (fun _ _ => by simp only [goodEnv]; omega)
    (fun _ _ _ => by simp only [goodEnv, IP_MEM_SIZE]; omega) (by decide) hpv 2 (by decide)⟩

end Hy8002

/-! ### Interrupt commands -/

/-- A word masked with two bit positions below 16 is non-zero exactly when
one of the two bits is set. -/
theorem and_two_bits_ne_zero (x a b : Nat) (ha : a < 16) (hb : b < 16) :
    (x % 65536) &&& (((1 <<< b) ||| (1 <<< a)) % 65536) ≠ 0 ↔
      (x.testBit a = true ∨ x.testBit b = true) := by
  have e : (65536 : Nat) = 2 ^ 16 := by norm_num
  rw [e]
  constructor
  · intro h
    obtain ⟨i, hi⟩ := Nat.ne_zero_implies_bit_true h
    simp only [Nat.testBit_and, Nat.testBit_mod_two_pow, Nat.testBit_or, Nat.one_shiftLeft,
      Nat.testBit_two_pow, Bool.and_eq_true, Bool.or_eq_true, decide_eq_true_eq] at hi
    obtain ⟨⟨_, hx⟩, _, hm⟩ := hi
    rcases hm with rfl | rfl
    · right; exact hx
    · left; exact hx
  · intro h hz
    rcases h with h | h
    · have := congrArg (fun n => Nat.testBit n a) hz
      simp only [Nat.testBit_and, Nat.testBit_mod_two_pow, Nat.testBit_or, Nat.one_shiftLeft,
        Nat.testBit_two_pow, h, ha, Nat.zero_testBit] at this
      simp at this
    · have := congrArg (fun n => Nat.testBit n b) hz
      simp only [Nat.testBit_and, Nat.testBit_mod_two_pow, Nat.testBit_or, Nat.one_shiftLeft,
        Nat.testBit_two_pow, h, hb, Nat.zero_testBit] at this
      simp at this

/-- Setting or clearing bit 1 of a word leaves the bits 2..4 alone. -/
theorem inten_keeps_level_bits (c i : Nat) (h2 : 2 ≤ i) (h4 : i ≤ 4) :
    ((c ||| Hy8002.CSR_INTEN) % 65536).testBit i = c.testBit i ∧
    ((c &&& Hy8002.CSROFF) % 65536).testBit i = c.testBit i := by
  have e : (65536 : Nat) = 2 ^ 16 := by norm_num
  rw [e]
  simp only [Nat.testBit_mod_two_pow, Nat.testBit_or, Nat.testBit_and]
  interval_cases i <;> simp +decide [Hy8002.CSR_INTEN, Hy8002.CSROFF]

namespace Hy8002

/-- C13, the code at a concrete input: on a carrier with no interrupt
selected, `ipac_irqEnable` for slot 2, line 1 sets bit 6 of `ipintsel`; the
following `ipac_irqDisable` for slot 2, line 1 returns `OK`, clears
`CSR_INTEN` in `csrcb`, leaves bit 6 of `ipintsel` set and writes that value
to the INTSEL register. -/
theorem irqCmd_disable_keeps_select_bit :
    (irqCmd (fun _ => 0) eagerSlot3 2 1 ipac_irqCmd_t.ipac_irqEnable).retval = OK ∧
    (irqCmd (fun _ => 0) eagerSlot3 2 1 ipac_irqCmd_t.ipac_irqEnable).cp.ipintsel = 0x40 ∧
    (irqCmd (fun _ => 0)
      (irqCmd (fun _ => 0) eagerSlot3 2 1 ipac_irqCmd_t.ipac_irqEnable).cp 2 1
      ipac_irqCmd_t.ipac_irqDisable).retval = OK ∧
    (irqCmd (fun _ => 0)
      (irqCmd (fun _ => 0) eagerSlot3 2 1 ipac_irqCmd_t.ipac_irqEnable).cp 2 1
      ipac_irqCmd_t.ipac_irqDisable).cp.ipintsel = 0x40 ∧
    (irqCmd (fun _ => 0)
      (irqCmd (fun _ => 0) eagerSlot3 2 1 ipac_irqCmd_t.ipac_irqEnable).cp 2 1
      ipac_irqCmd_t.ipac_irqDisable).cp.csrcb = 0 ∧
    (irqCmd (fun _ => 0)
      (irqCmd (fun _ => 0) eagerSlot3 2 1 ipac_irqCmd_t.ipac_irqEnable).cp 2 1
      ipac_irqCmd_t.ipac_irqDisable).hwWrites = [(CARR_CSR, 0), (CARR_INTSEL, 0x40)] ∧
    Nat.testBit 0x40 (2 + 4 * 1) = true := by
  decide

/-- C14, the code at a concrete input: the IPSTAT register holds `0x10`,
bit 4 (slot 0, line 1) set and bit 0 (slot 0, line 0) clear.
`ipac_irqPoll` for slot 0, line 0 returns a non-zero value. -/
theorem irqCmd_poll_answers_for_other_line :
    Nat.testBit 0x10 (0 + 4 * 0) = false ∧
    (irqCmd (fun _ => 0x10) eagerSlot3 0 0 ipac_irqCmd_t.ipac_irqPoll).retval ≠ 0 := by
  decide

/-- C14 as the code has it: `ipac_irqPoll` for a slot in 0..3 and line 0 or
1 returns a non-zero value exactly when bit `slot` or bit `slot + 4` of the
IPSTAT register is set, whichever line is asked for; the value is the same
for every content of the mirrors `ipintsel` and `csrcb`, and the call
changes no driver state and writes no register. -/
theorem irqCmd_poll_either_line (hw : Nat → Nat) (cp : privinfo) (slot irqnum : Nat)
    (hs : slot ≤ 3) (hn : irqnum = 0 ∨ irqnum = 1) :
    ((irqCmd hw cp slot irqnum ipac_irqCmd_t.ipac_irqPoll).retval ≠ 0 ↔
      ((hw (addr32 cp.baseadr CARR_IPSTAT)).testBit slot = true ∨
       (hw (addr32 cp.baseadr CARR_IPSTAT)).testBit (slot + 4) = true)) ∧
    (∀ sel csr, (irqCmd hw { cp with ipintsel := sel, csrcb := csr } slot irqnum
        ipac_irqCmd_t.ipac_irqPoll).retval
      = (irqCmd hw cp slot irqnum ipac_irqCmd_t.ipac_irqPoll).retval) ∧
    (irqCmd hw cp slot irqnum ipac_irqCmd_t.ipac_irqPoll).cp = cp ∧
    (irqCmd hw cp slot irqnum ipac_irqCmd_t.ipac_irqPoll).hwWrites = [] := by
  have h1 : ¬ (irqnum ≠ 0 ∧ irqnum ≠ 1) := by omega
  have h2 : ¬ slot > 3 := by omega
  refine ⟨?_, ?_, ?_, ?_⟩
  · simp only [irqCmd, h1, h2, if_false, ne_eq, Nat.cast_eq_zero]
    rw [Nat.add_comm slot 4]
    exact and_two_bits_ne_zero _ slot (4 + slot) (by omega) (by omega)
  · intro sel csr
    simp only [irqCmd, h1, h2, if_false]
  · simp only [irqCmd, h1, h2, if_false]
  · simp only [irqCmd, h1, h2, if_false]

/-- C14 at slot 1, line 1, IPSTAT `0x20`. -/
theorem irqCmd_poll_either_line_witness :
    (irqCmd (fun _ => 0x20) eagerSlot3 1 1 ipac_irqCmd_t.ipac_irqPoll).retval ≠ 0 ∧
    (irqCmd (fun _ => 0x20) eagerSlot3 1 1 ipac_irqCmd_t.ipac_irqPoll).cp = eagerSlot3 :=
  ⟨(irqCmd_poll_either_line (fun _ => 0x20) eagerSlot3 1 1 (by decide) (Or.inr rfl)).1.mpr
      (Or.inr (by decide)),
   (irqCmd_poll_either_line (fun _ => 0x20) eagerSlot3 1 1 (by decide) (Or.inr rfl)).2.2.1⟩

end Hy8002

/-- One `irqCmd` of the eager driver keeps the stored level and the bits
2..4 of `csrcb`. -/
theorem Hy8002.irqCmd_level (hw : Nat → Nat) (cp : Hy8002.privinfo) (slot irqnum : Nat)
    (cmd : ipac_irqCmd_t) :
    (Hy8002.irqCmd hw cp slot irqnum cmd).cp.IPintlevel = cp.IPintlevel ∧
    ∀ i, 2 ≤ i → i ≤ 4 →
      (Hy8002.irqCmd hw cp slot irqnum cmd).cp.csrcb.testBit i = cp.csrcb.testBit i := by
  unfold Hy8002.irqCmd
  by_cases h1 : irqnum ≠ 0 ∧ irqnum ≠ 1
  · rw [if_pos h1]
    exact ⟨rfl, fun _ _ _ => rfl⟩
  rw [if_neg h1]
  by_cases h2 : slot > 3
  · rw [if_pos h2]
    exact ⟨rfl, fun _ _ _ => rfl⟩
  rw [if_neg h2]
  cases cmd <;>
    first
    | exact ⟨rfl, fun _ _ _ => rfl⟩
    | exact ⟨rfl, fun i h2 h4 => (inten_keeps_level_bits cp.csrcb i h2 h4).1⟩
    | exact ⟨rfl, fun i h2 h4 => (inten_keeps_level_bits cp.csrcb i h2 h4).2⟩

/-- A sequence of `irqCmd` calls of the eager driver keeps the stored level
and the bits 2..4 of `csrcb`. -/
theorem Hy8002.irqCmds_level (calls : List Hy8002.IrqCall) :
    ∀ cp : Hy8002.privinfo,
      (Hy8002.irqCmds calls cp).IPintlevel = cp.IPintlevel ∧
      ∀ i, 2 ≤ i → i ≤ 4 → (Hy8002.irqCmds calls cp).csrcb.testBit i = cp.csrcb.testBit i := by
  induction calls with
  | nil => intro cp; exact ⟨rfl, fun _ _ _ => rfl⟩
  | cons c cs ih =>
    intro cp
    obtain ⟨a, b⟩ := ih (Hy8002.irqCmd c.hw cp c.slot c.irqnum c.cmd).cp
    obtain ⟨a2, b2⟩ := Hy8002.irqCmd_level c.hw cp c.slot c.irqnum c.cmd
    simp only [Hy8002.irqCmds]
    exact ⟨a.trans a2, fun i h2 h4 => (b i h2 h4).trans (b2 i h2 h4)⟩

/-- One `irqCmd` of the Linux carrier keeps the stored level. -/
theorem HyLinux.irqCmd_keeps_level (r : Int) (cp : HyLinux.privinfo) (slot irqnum : Nat)
    (cmd : ipac_irqCmd_t) :
    (HyLinux.irqCmd r cp slot irqnum cmd).cp.carrierINTLevel = cp.carrierINTLevel := by
  unfold HyLinux.irqCmd
  by_cases h1 : irqnum ≠ 0 ∧ irqnum ≠ 1
  · rw [if_pos h1]
  rw [if_neg h1]
  by_cases h2 : slot > 5
  · rw [if_pos h2]
  rw [if_neg h2]
  cases cmd <;> rfl

/-- A sequence of `irqCmd` calls of the Linux carrier keeps the stored
level. -/
theorem HyLinux.irqCmds_keep_level (calls : List HyLinux.IrqCall) :
    ∀ cp : HyLinux.privinfo,
      (HyLinux.irqCmds calls cp).carrierINTLevel = cp.carrierINTLevel := by
  induction calls with
  | nil => intro cp; rfl
  | cons c cs ih =>
    intro cp
    simp only [HyLinux.irqCmds]
    exact (ih _).trans (HyLinux.irqCmd_keeps_level c.ioctlRet cp c.slot c.irqnum c.cmd)

/-- C15: no sequence of `irqCmd` calls, with any slots, lines and commands,
changes the carrier interrupt level.  For the eager Hy8002 driver the field
`IPintlevel` and the bits 2..4 of the mirror `csrcb` keep their value, and
`ipac_irqGetLevel` with a valid slot and line returns that level afterwards;
for the Linux carrier the field `carrierINTLevel` keeps its value and
`ipac_irqGetLevel` returns it.  In both drivers each of the commands
`ipac_irqLevel0` .. `ipac_irqLevel7` with a valid slot and line returns
`S_IPAC_notImplemented`, changes no state and reaches no hardware. -/
theorem irqCmd_never_changes_level (calls : List Hy8002.IrqCall) (cp : Hy8002.privinfo)
    (callsL : List HyLinux.IrqCall) (cpL : HyLinux.privinfo) :
    (Hy8002.irqCmds calls cp).IPintlevel = cp.IPintlevel ∧
    (∀ i, 2 ≤ i → i ≤ 4 →
      (Hy8002.irqCmds calls cp).csrcb.testBit i = cp.csrcb.testBit i) ∧
    (∀ hw slot irqnum, slot ≤ 3 → irqnum ≤ 1 →
      (Hy8002.irqCmd hw (Hy8002.irqCmds calls cp) slot irqnum
        ipac_irqCmd_t.ipac_irqGetLevel).retval = (cp.IPintlevel : Int)) ∧
    (∀ hw slot irqnum cmd, slot ≤ 3 → irqnum ≤ 1 → cmd.isLevel = true →
      Hy8002.irqCmd hw cp slot irqnum cmd = ⟨S_IPAC_notImplemented, cp, []⟩) ∧
    (HyLinux.irqCmds callsL cpL).carrierINTLevel = cpL.carrierINTLevel ∧
    (∀ r slot irqnum, slot ≤ 5 → irqnum ≤ 1 →
      (HyLinux.irqCmd r (HyLinux.irqCmds callsL cpL) slot irqnum
        ipac_irqCmd_t.ipac_irqGetLevel).retval = (cpL.carrierINTLevel : Int)) ∧
    (∀ r slot irqnum cmd, slot ≤ 5 → irqnum ≤ 1 → cmd.isLevel = true →
      (HyLinux.irqCmd r cpL slot irqnum cmd).retval = S_IPAC_notImplemented ∧
      (HyLinux.irqCmd r cpL slot irqnum cmd).cp = cpL ∧
      (HyLinux.irqCmd r cpL slot irqnum cmd).ioctls = []) := by
  refine ⟨(Hy8002.irqCmds_level calls cp).1, (Hy8002.irqCmds_level calls cp).2, ?_, ?_,
    HyLinux.irqCmds_keep_level callsL cpL, ?_, ?_⟩
  · intro hw slot irqnum hs hn
    have h1 : ¬ (irqnum ≠ 0 ∧ irqnum ≠ 1) := by omega
    have h2 : ¬ slot > 3 := by omega
    simp only [Hy8002.irqCmd, h1, h2, if_false, (Hy8002.irqCmds_level calls cp).1]
  · intro hw slot irqnum cmd hs hn hc
    have h1 : ¬ (irqnum ≠ 0 ∧ irqnum ≠ 1) := by omega
    have h2 : ¬ slot > 3 := by omega
    cases cmd <;> first
      | exact Bool.noConfusion hc
      | simp only [Hy8002.irqCmd, h1, h2, if_false]
  · intro r slot irqnum hs hn
    have h1 : ¬ (irqnum ≠ 0 ∧ irqnum ≠ 1) := by omega
    have h2 : ¬ slot > 5 := by omega
    simp only [HyLinux.irqCmd, h1, h2, if_false, HyLinux.irqCmds_keep_level callsL cpL]
  · intro r slot irqnum cmd hs hn hc
    have h1 : ¬ (irqnum ≠ 0 ∧ irqnum ≠ 1) := by omega
    have h2 : ¬ slot > 5 := by omega
    cases cmd <;> first
      | exact Bool.noConfusion hc
      | simp only [HyLinux.irqCmd, h1, h2, if_false, and_self]

/-- C16, the code at two concrete inputs: for slot 0, line 0, the commands
`ipac_statActive` and `ipac_statUnused`, which the Linux carrier does not
carry out, make `irqCmd` return `OK`; `ipintsel` is unchanged and no
request reaches the device. -/
theorem HyLinux.irqCmd_unlisted_command_returns_OK :
    (HyLinux.irqCmd 0 linuxCarrier 0 0 ipac_irqCmd_t.ipac_statActive).retval = OK ∧
    (HyLinux.irqCmd 0 linuxCarrier 0 0 ipac_irqCmd_t.ipac_statUnused).retval = OK ∧
    (HyLinux.irqCmd 0 linuxCarrier 0 0 ipac_irqCmd_t.ipac_statActive).cp.ipintsel
      = linuxCarrier.ipintsel ∧
    (HyLinux.irqCmd 0 linuxCarrier 0 0 ipac_irqCmd_t.ipac_statActive).ioctls = [] ∧
    OK ≠ S_IPAC_notImplemented := by
  decide

/-! ### Address tables and interrupt routing of the other carriers -/

namespace Xy9660

/-- The table that `initialise` builds holds, for every slot in 0..3, the
address `ioBase + 0x80 + 0x100 * slot` for the ID space and
`ioBase + 0x100 * slot` for the IO space (when these do not wrap), and the
cells for the spaces IO32 and Mem lie outside it. -/
theorem baseAddr_table (ioBase slot : Nat) (hs : slot ≤ 3)
    (hb : ioBase + 0x400 ≤ 4294967296) :
    (initialise_table ioBase).length = IO_SPACES * SLOTS ∧
    baseAddr (initialise_table ioBase) slot ipac_addr_t.ipac_addrID
      = some (ioBase + 0x80 + 0x100 * slot) ∧
    baseAddr (initialise_table ioBase) slot ipac_addr_t.ipac_addrIO
      = some (ioBase + 0x100 * slot) ∧
    baseAddr (initialise_table ioBase) slot ipac_addr_t.ipac_addrIO32 = none ∧
    baseAddr (initialise_table ioBase) slot ipac_addr_t.ipac_addrMem = none := by
  interval_cases slot <;>
    simp +decide [baseAddr, initialise_table, offset, IO_SPACES, SLOTS, ipac_addr_t.toNat,
      List.range, List.range.loop, List.flatMap, PROM_A, PROM_B, PROM_C, PROM_D, REGS_A, REGS_B,
      REGS_C, REGS_D] <;> omega

/-- C12, the code at a concrete input: for the board at `0x6000`, slot 0,
the lookups for the spaces `ipac_addrMem` and `ipac_addrIO32` read a cell
outside the `IO_SPACES * SLOTS` cells of the table that `initialise` built,
while the lookups for ID and IO return `0x6080` and `0x6000`. -/
theorem baseAddr_memory_space_outside_table :
    (initialise_table 0x6000).length = IO_SPACES * SLOTS ∧
    ipac_addr_t.ipac_addrMem.toNat * SLOTS + 0 ≥ IO_SPACES * SLOTS ∧
    baseAddr (initialise_table 0x6000) 0 ipac_addr_t.ipac_addrMem = none ∧
    baseAddr (initialise_table 0x6000) 0 ipac_addr_t.ipac_addrIO32 = none ∧
    baseAddr (initialise_table 0x6000) 0 ipac_addr_t.ipac_addrID = some 0x6080 ∧
    baseAddr (initialise_table 0x6000) 0 ipac_addr_t.ipac_addrIO = some 0x6000 := by
  decide

end Xy9660

namespace Apcie8650

/-- With a constant pending register, the loop over any list of slots below
8 makes the calls for the pending slots with a callback, in order. -/
theorem dispatch_eq (intPending : Nat → Nat) (ipr : Nat) (g : CARRIERISR)
    (hconst : ∀ s, intPending s = ipr) (hword : ipr < 65536) :
    ∀ l : List Nat, dispatch intPending g l =
      (l.filter fun s =>
          decide (ipr &&& (3 <<< (2 * s)) ≠ 0) && decide ((g.slots s).ISR ≠ 0)).map
        fun s => ⟨s, (g.slots s).ISR, (g.slots s).param⟩ := by
  intro l
  induction l with
  | nil => rfl
  | cons s rest ih =>
    simp only [dispatch, hconst, Nat.mod_eq_of_lt hword, ih, Nat.mul_comm s 2, List.filter_cons]
    by_cases h1 : ipr &&& (3 <<< (2 * s)) ≠ 0 <;> by_cases h2 : (g.slots s).ISR ≠ 0 <;>
      simp [h1, h2]

/-- C17: one pass of the dispatch loop of `ipApcie8650WaitForInts`, when
every read of the pending register in the pass delivers the same 16-bit
value `ipr`.  For every `ipr` and every callback table the pass makes
exactly the calls that the specification asks for: for each slot in 0..3
with a pending bit and a registered callback one call of that callback on
its registered argument, and no other call; in particular a slot with a
pending bit and no callback gets no call, and the pass still completes. -/
theorem dispatchPass_exact (intPending : Nat → Nat) (ipr : Nat) (g : CARRIERISR)
    (hconst : ∀ s, intPending s = ipr) (hword : ipr < 65536) :
    dispatchPass intPending g = pendingCallbacks ipr g ∧
    (∀ s, ((dispatchPass intPending g).map IsrCall.slot).count s =
      if s < 4 ∧ ipr &&& (3 <<< (2 * s)) ≠ 0 ∧ (g.slots s).ISR ≠ 0 then 1 else 0) ∧
    (∀ c ∈ dispatchPass intPending g,
      c.slot < 4 ∧ ipr &&& (3 <<< (2 * c.slot)) ≠ 0 ∧ c.ISR ≠ 0 ∧
      c.ISR = (g.slots c.slot).ISR ∧ c.param = (g.slots c.slot).param) := by
  have e : dispatchPass intPending g = pendingCallbacks ipr g :=
    dispatch_eq intPending ipr g hconst hword (List.range 4)
  refine ⟨e, ?_, ?_⟩
  · intro s
    rw [e]
    simp only [pendingCallbacks, List.map_map]
    have hm : (IsrCall.slot ∘ fun s => (⟨s, (g.slots s).ISR, (g.slots s).param⟩ : IsrCall))
        = id := rfl
    rw [hm, List.map_id]
    rw [List.count_eq_of_nodup ((List.nodup_range 4).filter _)]
    simp only [List.mem_filter, List.mem_range, Bool.and_eq_true, decide_eq_true_eq]
  · intro c hc
    rw [e] at hc
    simp only [pendingCallbacks, List.mem_map, List.mem_filter, List.mem_range,
      Bool.and_eq_true, decide_eq_true_eq] at hc
    obtain ⟨s, ⟨h1, h2, h3⟩, rfl⟩ := hc
    exact ⟨h1, h2, h3, rfl, rfl⟩

/-- C17 at the pending register `0x44` (bits for the slots 1 and 3) and a
table with callbacks for the slots 0 and 1 only: the pass calls the
callback of slot 1 once and nothing else. -/
theorem dispatchPass_exact_witness :
    dispatchPass (fun _ => 0x44) isr01 = [⟨1, 0x5100, 0x7100⟩] ∧
    ((dispatchPass (fun _ => 0x44) isr01).map IsrCall.slot).count 3 = 0 :=
  ⟨(dispatchPass_exact (fun _ => 0x44) 0x44 isr01 (fun _ => rfl) (by decide)).1.trans
      (by decide),
   ((dispatchPass_exact (fun _ => 0x44) 0x44 isr01 (fun _ => rfl) (by decide)).2.1 3).trans
      (by decide)⟩

/-- C19, the code at a concrete input: the carriers with the handles 1 and
2 and an empty table.  `intConnect` for slot 0 of carrier 1 changes the
entry that the dispatch thread of carrier 2 reads for slot 0. -/
theorem intConnect_changes_other_carrier :
    (1 : Nat) ≠ 2 ∧
    dispatchEntry noISR 2 0 = ⟨0, 0⟩ ∧
    ((intConnect 1 0 0xC0 0x5000 0x7000 noISR).map fun r => dispatchEntry r.2 2 0)
      = some ⟨0x5000, 0x7000⟩ := by
  decide

/-- C19 as the code has it: the routing entries are one table for all
carriers, indexed by the slot alone.  `intConnect(A, s, vec, f, p)` with `s`
in 0..3 returns 0 and makes `(f, p)` the entry that the dispatch thread of
every carrier `B` reads for slot `s`; the entries of the other slots stay
as they were. -/
theorem intConnect_shared_table (A B : Nat) (g : CARRIERISR) (s vec f p : Nat) (hs : s < 4) :
    ∃ g2, intConnect A s vec f p g = some (0, g2) ∧
      dispatchEntry g2 B s = ⟨f, p⟩ ∧
      ∀ s2, s2 ≠ s → dispatchEntry g2 B s2 = dispatchEntry g B s2 := by
  refine ⟨{ g with slots := fun s2 => if s2 = s then ⟨f, p⟩ else g.slots s2 }, ?_, ?_, ?_⟩
  · simp only [intConnect, Nat.not_le.mpr hs, if_false]
  · simp only [dispatchEntry, if_true]
  · intro s2 h2
    simp only [dispatchEntry, h2, if_false]

/-- C19 at the carriers 1 and 2, slot 3. -/
theorem intConnect_shared_table_witness :
    ∃ g2, intConnect 1 3 0xC0 0x5000 0x7000 noISR = some (0, g2) ∧
      dispatchEntry g2 2 3 = ⟨0x5000, 0x7000⟩ ∧
      ∀ s2, s2 ≠ 3 → dispatchEntry g2 2 s2 = dispatchEntry noISR 2 s2 :=
  intConnect_shared_table 1 2 noISR 3 0xC0 0x5000 0x7000 (by decide)

end Apcie8650

namespace HyLinux

/-- C18, the code at a concrete input: `intConnect` for vector 5 with the
callback `0x8000` and the argument 0 returns `OK`, and a read that delivers
vector 5 afterwards makes `interrupt_thread` call nothing. -/
theorem intConnect_zero_argument_never_called :
    ((intConnect true linuxCarrier 0 5 0x8000 0).map fun r => r.status) = some OK ∧
    ((intConnect true linuxCarrier 0 5 0x8000 0).bind fun r =>
      r.cp.irqdesc.bind fun d => interrupt_thread_step d 4 5) = some ThreadStep.idle := by
  decide

/-- C18 as the code has it: for a vector `v` in 0..254, after an
`intConnect(handle, slot, v, f, p)` that returns `OK`, a read that delivers
`v` makes `interrupt_thread` call `f(p)` once and nothing else when `f` is
not null and `p` is not 0, and call nothing when `p` is 0 or `f` is null.
A later `intConnect` for the same `v` with `(f2, p2)` replaces the entry:
an interrupt on `v` then calls only `f2(p2)`, under the same condition. -/
theorem intConnect_routing (mallocOK : Bool) (cp : privinfo) (slot v f p : Nat)
    (hv : v < 255) (hm : cp.irqdesc = none → mallocOK = true) :
    ∃ r d, intConnect mallocOK cp slot v f p = some r ∧ r.status = OK ∧
      r.cp.irqdesc = some d ∧
      (∀ err vec : Int, 0 ≤ err → vec % 256 = (v : Int) →
        interrupt_thread_step d err vec
          = some (if f ≠ 0 ∧ p ≠ 0 then ThreadStep.called f p else ThreadStep.idle)) ∧
      (∀ (m2 : Bool) (slot2 f2 p2 : Nat),
        ∃ r2 d2, intConnect m2 r.cp slot2 v f2 p2 = some r2 ∧ r2.status = OK ∧
          r2.cp.irqdesc = some d2 ∧
          ∀ err vec : Int, 0 ≤ err → vec % 256 = (v : Int) →
            interrupt_thread_step d2 err vec
              = some (if f2 ≠ 0 ∧ p2 ≠ 0 then ThreadStep.called f2 p2
                      else ThreadStep.idle)) := by
  have step : ∀ (d : irq_desc) (g q : Nat), d.handler v = g → d.driverp v = q →
      ∀ err vec : Int, 0 ≤ err → vec % 256 = (v : Int) →
        interrupt_thread_step d err vec
          = some (if g ≠ 0 ∧ q ≠ 0 then ThreadStep.called g q else ThreadStep.idle) := by
    intro d g q hg hq err vec he hvec
    have h1 : ¬ err < 0 := by omega
    have h2 : (vec % 256).toNat = v := by omega
    have h3 : ¬ 255 ≤ v := by omega
    unfold interrupt_thread_step
    rw [if_neg h1]
    simp only [h2, h3, if_false, hg, hq]
    split_ifs <;> rfl
  have conn : ∀ (m : Bool) (c : privinfo) (sl g q : Nat), (c.irqdesc = none → m = true) →
      ∃ r d, intConnect m c sl v g q = some r ∧ r.status = OK ∧ r.cp.irqdesc = some d ∧
        d.handler v = g ∧ d.driverp v = q := by
    intro m c sl g q hmc
    have h3 : ¬ 255 ≤ v := by omega
    cases hd : c.irqdesc with
    | none =>
      have := hmc hd
      subst this
      simp only [intConnect, hd, if_true, h3, if_false]
      exact ⟨_, _, rfl, rfl, rfl, by simp only [if_true], by simp only [if_true]⟩
    | some d0 =>
      simp only [intConnect, hd, h3, if_false]
      exact ⟨_, _, rfl, rfl, rfl, by simp only [if_true], by simp only [if_true]⟩
  obtain ⟨r, d, h1, h2, h3, h4, h5⟩ := conn mallocOK cp slot f p hm
  refine ⟨r, d, h1, h2, h3, step d f p h4 h5, ?_⟩
  intro m2 slot2 f2 p2
  obtain ⟨r2, d2, k1, k2, k3, k4, k5⟩ := conn m2 r.cp slot2 f2 p2
    (fun hn => by rw [h3] at hn; cases hn)
  exact ⟨r2, d2, k1, k2, k3, step d2 f2 p2 k4 k5⟩

/-- C18 at vector 5 with the callback `0x8000` and the argument `0x9000`. -/
theorem intConnect_routing_witness :
    ∃ r d, intConnect true linuxCarrier 0 5 0x8000 0x9000 = some r ∧ r.status = OK ∧
      r.cp.irqdesc = some d ∧
      interrupt_thread_step d 4 5 = some (ThreadStep.called 0x8000 0x9000) := by
  obtain ⟨r, d, h1, h2, h3, h4, _⟩ :=
    intConnect_routing true linuxCarrier 0 5 0x8000 0x9000 (by decide) (fun _ => rfl)
  exact ⟨r, d, h1, h2, h3, (h4 4 5 (by decide) (by decide)).trans (by decide)⟩

end HyLinux

namespace HyLinux

/-- The table that `regaddr` builds, row by row. -/
theorem regaddr_rows (pv : privinfo) (hfit : pv.memoryBaseAddr + mmapLength ≤ 4294967296) :
    (regaddr pv).2.ipadresses =
      [⟨pv.memoryBaseAddr + 0xE00080, pv.memoryBaseAddr + 0xE00000, 0, pv.memoryBaseAddr⟩,
       ⟨pv.memoryBaseAddr + 0xE00180, pv.memoryBaseAddr + 0xE00100, 0,
         pv.memoryBaseAddr + 0x200000⟩,
       ⟨pv.memoryBaseAddr + 0xE00280, pv.memoryBaseAddr + 0xE00200, 0,
         pv.memoryBaseAddr + 0x400000⟩,
       ⟨pv.memoryBaseAddr + 0xE00380, pv.memoryBaseAddr + 0xE00300, 0,
         pv.memoryBaseAddr + 0x600000⟩,
       ⟨pv.memoryBaseAddr + 0xE00480, pv.memoryBaseAddr + 0xE00400, 0,
         pv.memoryBaseAddr + 0x800000⟩,
       ⟨pv.memoryBaseAddr + 0xE00580, pv.memoryBaseAddr + 0xE00500, 0,
         pv.memoryBaseAddr + 0xA00000⟩] := by
  simp only [mmapLength] at hfit
  have e : (regaddr pv).2.ipadresses =
      [⟨((pv.memoryBaseAddr + 0xE00000 + 0 + (0x180 - 0x80) * 0) % 4294967296 + 0x80)
            % 4294967296,
        (pv.memoryBaseAddr + 0xE00000 + 0 + (0x180 - 0x80) * 0) % 4294967296, 0,
        (pv.memoryBaseAddr + (0x200000 - 0) * 0) % 4294967296⟩,
       ⟨((pv.memoryBaseAddr + 0xE00000 + 0 + (0x180 - 0x80) * 1) % 4294967296 + 0x80)
            % 4294967296,
        (pv.memoryBaseAddr + 0xE00000 + 0 + (0x180 - 0x80) * 1) % 4294967296, 0,
        (pv.memoryBaseAddr + (0x200000 - 0) * 1) % 4294967296⟩,
       ⟨((pv.memoryBaseAddr + 0xE00000 + 0 + (0x180 - 0x80) * 2) % 4294967296 + 0x80)
            % 4294967296,
        (pv.memoryBaseAddr + 0xE00000 + 0 + (0x180 - 0x80) * 2) % 4294967296, 0,
        (pv.memoryBaseAddr + (0x200000 - 0) * 2) % 4294967296⟩,
       ⟨((pv.memoryBaseAddr + 0xE00000 + 0 + (0x180 - 0x80) * 3) % 4294967296 + 0x80)
            % 4294967296,
        (pv.memoryBaseAddr + 0xE00000 + 0 + (0x180 - 0x80) * 3) % 4294967296, 0,
        (pv.memoryBaseAddr + (0x200000 - 0) * 3) % 4294967296⟩,
       ⟨((pv.memoryBaseAddr + 0xE00000 + 0 + (0x180 - 0x80) * 4) % 4294967296 + 0x80)
            % 4294967296,
        (pv.memoryBaseAddr + 0xE00000 + 0 + (0x180 - 0x80) * 4) % 4294967296, 0,
        (pv.memoryBaseAddr + (0x200000 - 0) * 4) % 4294967296⟩,
       ⟨((pv.memoryBaseAddr + 0xE00000 + 0 + (0x180 - 0x80) * 5) % 4294967296 + 0x80)
            % 4294967296,
        (pv.memoryBaseAddr + 0xE00000 + 0 + (0x180 - 0x80) * 5) % 4294967296, 0,
        (pv.memoryBaseAddr + (0x200000 - 0) * 5) % 4294967296⟩] := rfl
  rw [e]
  simp only [List.cons.injEq, Hy8002.SlotAddrs.mk.injEq, and_true, true_and]
  omega

/-- C20: the table that `regaddr` of the Linux carrier builds, when the
region of `0xE00E00` bytes mapped at `memoryBaseAddr` lies inside the 32-bit
address space.  For every slot `ip` in 0..5 it holds
`IO = memoryBaseAddr + 0xE00000 + 0x100 * ip`, `ID = IO + 0x80` and
`Mem = memoryBaseAddr + 0x200000 * ip`; the `0x80`-byte IO and ID windows and
the `0x200000`-byte memory windows of the six slots are pairwise disjoint,
and each lies inside the mapped region. -/
theorem regaddr_windows (pv : privinfo) (hfit : pv.memoryBaseAddr + mmapLength ≤ 4294967296) :
    (regaddr pv).1 = OK ∧
    (∀ ip, ip ≤ 5 →
      baseAddr (regaddr pv).2 ip ipac_addr_t.ipac_addrIO
        = some (pv.memoryBaseAddr + 0xE00000 + 0x100 * ip) ∧
      baseAddr (regaddr pv).2 ip ipac_addr_t.ipac_addrID
        = some (pv.memoryBaseAddr + 0xE00000 + 0x100 * ip + 0x80) ∧
      baseAddr (regaddr pv).2 ip ipac_addr_t.ipac_addrMem
        = some (pv.memoryBaseAddr + 0x200000 * ip)) ∧
    (windows (regaddr pv).2).length = 18 ∧
    (windows (regaddr pv).2).Pairwise (fun a b => a.1 + a.2 ≤ b.1 ∨ b.1 + b.2 ≤ a.1) ∧
    (∀ w ∈ windows (regaddr pv).2,
      pv.memoryBaseAddr ≤ w.1 ∧ w.1 + w.2 ≤ pv.memoryBaseAddr + mmapLength) := by
  have e := regaddr_rows pv hfit
  refine ⟨rfl, ?_, ?_, ?_, ?_⟩
  · intro ip hip
    simp only [baseAddr, e, List.get?_eq_getElem?]
    interval_cases ip <;> simp [Hy8002.SlotAddrs.get]
  · simp only [windows, e, List.flatMap_cons, List.flatMap_nil, List.cons_append,
      List.nil_append, List.append_nil, List.length_cons, List.length_nil]
  · simp only [windows, e, List.flatMap_cons, List.flatMap_nil, List.cons_append,
      List.nil_append, List.append_nil, List.pairwise_cons, List.mem_cons, List.mem_singleton,
      forall_eq_or_imp, forall_eq, List.not_mem_nil, List.Pairwise.nil, and_true,
      IsEmpty.forall_iff, implies_true]
    omega
  · simp only [windows, e, List.flatMap_cons, List.flatMap_nil, List.cons_append,
      List.nil_append, List.append_nil, List.mem_cons, List.mem_singleton,
      forall_eq_or_imp, forall_eq, List.not_mem_nil, IsEmpty.forall_iff, implies_true,
      and_true, mmapLength]
    omega

/-- C20 at the carrier mapped at `0x40000000`, slot 5. -/
theorem regaddr_windows_witness :
    baseAddr (regaddr linuxCarrier).2 5 ipac_addr_t.ipac_addrIO = some 0x40E00500 ∧
    baseAddr (regaddr linuxCarrier).2 5 ipac_addr_t.ipac_addrID = some 0x40E00580 ∧
    baseAddr (regaddr linuxCarrier).2 5 ipac_addr_t.ipac_addrMem = some 0x40A00000 :=
  ((regaddr_windows linuxCarrier (by decide)).2.1 5 (by decide))

end HyLinux

/-! ### The CAN driver for the TIP810 -/

namespace Tip810

/-- The copy loop over indices below 8 succeeds; afterwards the visited
entries hold the converted source and the others are as before. -/
theorem copyLoop_spec (conv : Nat → Nat) (src : Nat → Nat) :
    ∀ (l : List Nat) (dst : Nat → Nat), (∀ i ∈ l, i < CAN_DATA_SIZE) →
      ∃ d, copyLoop conv src l dst = some d ∧
        ∀ k, d k = if k ∈ l then conv (src k) else dst k := by
  intro l
  induction l with
  | nil => intro dst _; exact ⟨dst, rfl, fun k => by simp⟩
  | cons i rest ih =>
    intro dst h
    have hi : i < CAN_DATA_SIZE := h i (List.mem_cons_self _ _)
    obtain ⟨d, hd, hk⟩ := ih (fun k => if k = i then conv (src i) else dst k)
      (fun j hj => h j (List.mem_cons_of_mem _ hj))
    refine ⟨d, by simp only [copyLoop, hi, if_true, hd], ?_⟩
    intro k
    rw [hk k]
    by_cases h1 : k ∈ rest
    · simp [h1]
    · by_cases h2 : k = i
      · subst h2; simp [h1]
      · simp [h1, h2]

/-- C21: `canWrite` on any device record and message.  With a wrong magic
number it returns `S_t810_badDevice`.  With the right magic number and a
message whose identifier is at least 2048, or whose length exceeds 8, or
whose `rtr` is neither `SEND` nor `RTR`, it returns `S_can_badMessage`.  In
both cases `txSem` is not taken and nothing is written to the chip.  For
every other message it takes the semaphore once and returns `errno`, `OK` or
`S_t810_transmitterBusy`; so, `errno` not being the code `S_can_badMessage`,
the return value is `S_can_badMessage` exactly for the messages named. -/
theorem canWrite_argument_checks (semStatus errno : Int) (chipStatus : Nat)
    (txBuffer : msgBuffer_t) (pdevice : t810Dev_t) (pmessage : canMessage_t) :
    (pdevice.magicNumber ≠ T810_MAGIC_NUMBER →
      canWrite semStatus errno chipStatus txBuffer pdevice pmessage
        = some ⟨S_t810_badDevice, 0, 0, none⟩) ∧
    (pdevice.magicNumber = T810_MAGIC_NUMBER →
      (pmessage.identifier ≥ 2048 ∨ pmessage.length > 8 ∨
        (pmessage.rtr ≠ SEND ∧ pmessage.rtr ≠ RTR)) →
      canWrite semStatus errno chipStatus txBuffer pdevice pmessage
        = some ⟨S_can_badMessage, 0, 0, none⟩) ∧
    (pdevice.magicNumber = T810_MAGIC_NUMBER →
      ¬ (pmessage.identifier ≥ 2048 ∨ pmessage.length > 8 ∨
        (pmessage.rtr ≠ SEND ∧ pmessage.rtr ≠ RTR)) →
      ∃ r, canWrite semStatus errno chipStatus txBuffer pdevice pmessage = some r ∧
        r.semTakes = 1 ∧
        (r.retval = errno ∨ r.retval = OK ∨ r.retval = S_t810_transmitterBusy)) ∧
    (pdevice.magicNumber = T810_MAGIC_NUMBER → errno ≠ S_can_badMessage →
      ∀ r, canWrite semStatus errno chipStatus txBuffer pdevice pmessage = some r →
        (r.retval = S_can_badMessage ↔
          (pmessage.identifier ≥ 2048 ∨ pmessage.length > 8 ∨
            (pmessage.rtr ≠ SEND ∧ pmessage.rtr ≠ RTR)))) := by
  have good : pdevice.magicNumber = T810_MAGIC_NUMBER →
      ¬ (pmessage.identifier ≥ 2048 ∨ pmessage.length > 8 ∨
        (pmessage.rtr ≠ SEND ∧ pmessage.rtr ≠ RTR)) →
      ∃ r, canWrite semStatus errno chipStatus txBuffer pdevice pmessage = some r ∧
        r.semTakes = 1 ∧
        (r.retval = errno ∨ r.retval = OK ∨ r.retval = S_t810_transmitterBusy) := by
    intro hm hb
    have hm2 : ¬ pdevice.magicNumber ≠ T810_MAGIC_NUMBER := not_not.mpr hm
    have hb2 : ¬ (pmessage.identifier ≥ CAN_IDENTIFIERS ∨ pmessage.length > CAN_DATA_SIZE ∨
        (pmessage.rtr ≠ SEND ∧ pmessage.rtr ≠ RTR)) := hb
    unfold canWrite
    rw [if_neg hm2, if_neg hb2]
    by_cases hs : semStatus ≠ 0
    · rw [if_pos hs]; exact ⟨_, rfl, rfl, Or.inl rfl⟩
    rw [if_neg hs]
    by_cases hc : (chipStatus % 256) &&& PCA_SR_TBS ≠ 0
    · rw [if_pos hc]
      have hlen : pmessage.length ≤ 8 := by
        by_contra h; exact hb (Or.inr (Or.inl (by omega)))
      have hput : ∃ w, putTxMessage txBuffer pmessage = some w := by
        unfold putTxMessage
        by_cases hr : pmessage.rtr = SEND
        · rw [if_pos hr]
          obtain ⟨d, hd, _⟩ := copyLoop_spec (fun v => v % 65536) pmessage.data
            (List.range pmessage.length) txBuffer.data
            (fun i hi => by
              have := List.mem_range.mp hi
              simp only [CAN_DATA_SIZE]; omega)
          rw [hd]; exact ⟨_, rfl⟩
        · rw [if_neg hr]; exact ⟨_, rfl⟩
      obtain ⟨w, hw⟩ := hput
      rw [hw]; exact ⟨_, rfl, rfl, Or.inr (Or.inl rfl)⟩
    · rw [if_neg hc]; exact ⟨_, rfl, rfl, Or.inr (Or.inr rfl)⟩
  have bad : pdevice.magicNumber = T810_MAGIC_NUMBER →
      (pmessage.identifier ≥ 2048 ∨ pmessage.length > 8 ∨
        (pmessage.rtr ≠ SEND ∧ pmessage.rtr ≠ RTR)) →
      canWrite semStatus errno chipStatus txBuffer pdevice pmessage
        = some ⟨S_can_badMessage, 0, 0, none⟩ := by
    intro hm hb
    have hm2 : ¬ pdevice.magicNumber ≠ T810_MAGIC_NUMBER := not_not.mpr hm
    have hb2 : pmessage.identifier ≥ CAN_IDENTIFIERS ∨ pmessage.length > CAN_DATA_SIZE ∨
        (pmessage.rtr ≠ SEND ∧ pmessage.rtr ≠ RTR) := hb
    unfold canWrite
    rw [if_neg hm2, if_pos hb2]
  refine ⟨?_, bad, good, ?_⟩
  · intro hm
    unfold canWrite
    rw [if_pos hm]
  · intro hm he r hr
    constructor
    · intro hret
      by_contra hb
      obtain ⟨r2, h2, _, h3⟩ := good hm hb
      rw [hr] at h2
      have : r = r2 := Option.some.inj h2
      subst this
      rcases h3 with h3 | h3 | h3
      · exact he (h3.symm.trans hret)
      · rw [hret] at h3; exact absurd h3 (by decide)
      · rw [hret] at h3; exact absurd h3 (by decide)
    · intro hb
      rw [bad hm hb] at hr
      rw [← Option.some.inj hr]

end Tip810

namespace Tip810

/-- The walk to the last cell links the new cell at the end. -/
theorem appendCell_eq (c : callbackTable_t) (l : List callbackTable_t) :
    appendCell c l = l ++ [c] := by
  induction l with
  | nil => rfl
  | cons h t ih => simp only [appendCell, ih, List.cons_append]

/-- The test of the loop of `canMsgDelete` is equality of the cell with the
pair of the arguments. -/
theorem cell_match (h : callbackTable_t) (f p : Nat) :
    (h.pcallback = f ∧ h.pprivate = p) ↔ h = ⟨p, f⟩ := by
  cases h
  simp only [callbackTable_t.mk.injEq]
  exact And.comm

/-- The loop of `canMsgDelete` finds nothing in a list without the pair. -/
theorem deleteCell_none (f p : Nat) (l : List callbackTable_t)
    (h : (⟨p, f⟩ : callbackTable_t) ∉ l) : deleteCell f p l = none := by
  induction l with
  | nil => rfl
  | cons c t ih =>
    have h1 : ¬ (c.pcallback = f ∧ c.pprivate = p) := by
      rw [cell_match]; intro e; exact h (e ▸ List.mem_cons_self _ _)
    simp only [deleteCell, h1, if_false, ih (fun hm => h (List.mem_cons_of_mem _ hm))]

/-- The loop of `canMsgDelete` takes away the first cell equal to the
pair. -/
theorem deleteCell_some (f p : Nat) (l : List callbackTable_t)
    (h : (⟨p, f⟩ : callbackTable_t) ∈ l) :
    ∃ l1 l2, l = l1 ++ ⟨p, f⟩ :: l2 ∧ (⟨p, f⟩ : callbackTable_t) ∉ l1 ∧
      deleteCell f p l = some (l1 ++ l2) := by
  induction l with
  | nil => exact absurd h (List.not_mem_nil _)
  | cons c t ih =>
    by_cases h1 : c.pcallback = f ∧ c.pprivate = p
    · refine ⟨[], t, ?_, List.not_mem_nil _, ?_⟩
      · rw [(cell_match c f p).mp h1]; rfl
      · simp only [deleteCell, h1, and_self, if_true, List.nil_append]
    · have hc : c ≠ ⟨p, f⟩ := fun e => h1 ((cell_match c f p).mpr e)
      have ht : (⟨p, f⟩ : callbackTable_t) ∈ t := by
        rcases List.mem_cons.mp h with e | e
        · exact absurd e.symm hc
        · exact e
      obtain ⟨l1, l2, e1, e2, e3⟩ := ih ht
      refine ⟨c :: l1, l2, by rw [e1]; rfl, ?_, ?_⟩
      · intro hm
        rcases List.mem_cons.mp hm with e | e
        · exact hc e.symm
        · exact e2 e
      · simp only [deleteCell, h1, if_false, e3, List.cons_append]

/-- The loop of `canMsgDelete` is `List.erase` on a list that holds the
pair. -/
theorem deleteCell_erase (f p : Nat) (l : List callbackTable_t) :
    deleteCell f p l = if (⟨p, f⟩ : callbackTable_t) ∈ l then some (l.erase ⟨p, f⟩) else none := by
  induction l with
  | nil => rfl
  | cons c t ih =>
    by_cases h1 : c.pcallback = f ∧ c.pprivate = p
    · have e := (cell_match c f p).mp h1
      subst e
      simp [deleteCell]
    · have hc : c ≠ ⟨p, f⟩ := fun e => h1 ((cell_match c f p).mpr e)
      simp only [deleteCell, h1, if_false, ih, List.mem_cons]
      by_cases ht : (⟨p, f⟩ : callbackTable_t) ∈ t
      · simp [ht, List.erase_cons_tail, hc]
      · simp [ht, hc.symm]

/-- A list without the pair is the same after `List.erase`. -/
theorem erase_absent (c : callbackTable_t) (l : List callbackTable_t) (h : c ∉ l) :
    l.erase c = l := List.erase_of_not_mem h

/-- `canMessage` keeps the magic number and the counters of the device. -/
theorem canMessage_frame (m : Bool) (e : Int) (d : t810Dev_t) (i f p : Nat) :
    (canMessage m e d i f p).2.magicNumber = d.magicNumber ∧
    (canMessage m e d i f p).2.rxCount = d.rxCount ∧
    (canMessage m e d i f p).2.unusedCount = d.unusedCount ∧
    (canMessage m e d i f p).2.unusedId = d.unusedId := by
  unfold canMessage
  split_ifs <;> exact ⟨rfl, rfl, rfl, rfl⟩

/-- `canMsgDelete` keeps the magic number and the counters of the device. -/
theorem canMsgDelete_frame (d : t810Dev_t) (i f p : Nat) :
    (canMsgDelete d i f p).2.magicNumber = d.magicNumber ∧
    (canMsgDelete d i f p).2.rxCount = d.rxCount ∧
    (canMsgDelete d i f p).2.unusedCount = d.unusedCount ∧
    (canMsgDelete d i f p).2.unusedId = d.unusedId := by
  unfold canMsgDelete
  split_ifs
  · exact ⟨rfl, rfl, rfl, rfl⟩
  · exact ⟨rfl, rfl, rfl, rfl⟩
  · split <;> exact ⟨rfl, rfl, rfl, rfl⟩

/-- A sequence of `canMessage` and `canMsgDelete` calls keeps the magic
number and the counters of the device. -/
theorem handlerOps_frame (ops : List HandlerOp) :
    ∀ d : t810Dev_t,
      (handlerOps ops d).magicNumber = d.magicNumber ∧
      (handlerOps ops d).rxCount = d.rxCount ∧
      (handlerOps ops d).unusedCount = d.unusedCount ∧
      (handlerOps ops d).unusedId = d.unusedId := by
  induction ops with
  | nil => intro d; exact ⟨rfl, rfl, rfl, rfl⟩
  | cons op ops ih =>
    intro d
    cases op with
    | message m e i f p =>
      obtain ⟨a, b, c, e2⟩ := ih (canMessage m e d i f p).2
      simp only [handlerOps]
      have hf := canMessage_frame m e d i f p
      exact ⟨a.trans hf.1, b.trans hf.2.1, c.trans hf.2.2.1, e2.trans hf.2.2.2⟩
    | delete i f p =>
      obtain ⟨a, b, c, e2⟩ := ih (canMsgDelete d i f p).2
      simp only [handlerOps]
      have hf := canMsgDelete_frame d i f p
      exact ⟨a.trans hf.1, b.trans hf.2.1, c.trans hf.2.2.1, e2.trans hf.2.2.2⟩

/-- The handler list of an identifier after a sequence of `canMessage` and
`canMsgDelete` calls on a valid device is the list of the callbacks
registered and not deleted. -/
theorem handlerOps_registered (identifier : Nat) (hid : identifier < 2048)
    (ops : List HandlerOp) :
    ∀ d : t810Dev_t, d.magicNumber = T810_MAGIC_NUMBER →
      (handlerOps ops d).pmsgHandler identifier
        = registered identifier ops (d.pmsgHandler identifier) := by
  induction ops with
  | nil => intro d _; rfl
  | cons op ops ih =>
    intro d hm
    have hm2 : ¬ d.magicNumber ≠ T810_MAGIC_NUMBER := not_not.mpr hm
    cases op with
    | message m e i f p =>
      have hmag : (canMessage m e d i f p).2.magicNumber = T810_MAGIC_NUMBER :=
        (canMessage_frame m e d i f p).1.trans hm
      simp only [handlerOps, registered]
      rw [ih _ hmag]
      unfold canMessage
      rw [if_neg hm2]
      by_cases hb : i ≥ CAN_IDENTIFIERS ∨ f = 0
      · rw [if_pos hb]
        have : ¬ (i = identifier ∧ f ≠ 0 ∧ m = true) := by
          rintro ⟨h1, h2, -⟩
          rcases hb with hb | hb
          · simp only [CAN_IDENTIFIERS] at hb; omega
          · exact h2 hb
        rw [if_neg this]
      · rw [if_neg hb]
        by_cases hmal : m = false
        · rw [if_pos hmal]
          have : ¬ (i = identifier ∧ f ≠ 0 ∧ m = true) := by
            rintro ⟨-, -, h3⟩; rw [hmal] at h3; cases h3
          rw [if_neg this]
        · rw [if_neg hmal]
          have hmt : m = true := by cases m <;> simp_all
          have hf : f ≠ 0 := fun h => hb (Or.inr h)
          by_cases hi : i = identifier
          · have : i = identifier ∧ f ≠ 0 ∧ m = true := ⟨hi, hf, hmt⟩
            rw [if_pos this]
            simp only [setHandler, hi, if_true, appendCell_eq]
          · have : ¬ (i = identifier ∧ f ≠ 0 ∧ m = true) := fun h => hi h.1
            rw [if_neg this]
            simp only [setHandler, Ne.symm hi, if_false]
    | delete i f p =>
      have hmag : (canMsgDelete d i f p).2.magicNumber = T810_MAGIC_NUMBER :=
        (canMsgDelete_frame d i f p).1.trans hm
      simp only [handlerOps, registered]
      rw [ih _ hmag]
      unfold canMsgDelete
      rw [if_neg hm2]
      by_cases hb : i ≥ CAN_IDENTIFIERS ∨ f = 0
      · rw [if_pos hb]
        have : ¬ (i = identifier ∧ f ≠ 0) := by
          rintro ⟨h1, h2⟩
          rcases hb with hb | hb
          · simp only [CAN_IDENTIFIERS] at hb; omega
          · exact h2 hb
        rw [if_neg this]
      · rw [if_neg hb]
        have hf : f ≠ 0 := fun h => hb (Or.inr h)
        rw [deleteCell_erase]
        by_cases hi : i = identifier
        · have : i = identifier ∧ f ≠ 0 := ⟨hi, hf⟩
          rw [if_pos this]
          subst hi
          by_cases hmem : (⟨p, f⟩ : callbackTable_t) ∈ d.pmsgHandler i
          · simp only [hmem, if_true, setHandler]
          · simp only [hmem, if_false, erase_absent _ _ hmem]
        · have : ¬ (i = identifier ∧ f ≠ 0) := fun h => hi h.1
          rw [if_neg this]
          by_cases hmem : (⟨p, f⟩ : callbackTable_t) ∈ d.pmsgHandler i
          · simp only [hmem, if_true, setHandler, Ne.symm hi, if_false]
          · simp only [hmem, if_false]

/-- The function `doCallbacks` calls every cell of the list once, in
order. -/
theorem doCallbacks_eq (l : List callbackTable_t) : doCallbacks l = l := by
  induction l with
  | nil => rfl
  | cons h t ih => simp only [doCallbacks, ih]

/-- C22: one turn of the loop of `t810RecvTask` for a received message with
an identifier below 2048, on a valid device after any sequence of
`canMessage` and `canMsgDelete` calls.  The turn completes; `rxCount` goes up
by one (as an `unsigned int`).  If no callback is registered for the
identifier, `unusedCount` goes up by one, `unusedId` becomes the identifier
and no callback runs.  Otherwise the callbacks registered for the identifier
and not deleted are called, each once with its own `pprivate`, in the order
of registration, and `unusedCount` and `unusedId` stay as they were. -/
theorem recv_dispatch (ops : List HandlerOp) (dev0 : t810Dev_t) (message : canMessage_t)
    (hm : dev0.magicNumber = T810_MAGIC_NUMBER) (hid : message.identifier < 2048) :
    ∃ r, t810RecvTask_step (handlerOps ops dev0) message = some r ∧
      r.pdevice.rxCount = ((handlerOps ops dev0).rxCount + 1) % 4294967296 ∧
      ((handlerOps ops dev0).rxCount < 4294967295 →
        r.pdevice.rxCount = (handlerOps ops dev0).rxCount + 1) ∧
      (registered message.identifier ops (dev0.pmsgHandler message.identifier) = [] →
        r.calls = [] ∧
        r.pdevice.unusedCount = ((handlerOps ops dev0).unusedCount + 1) % 4294967296 ∧
        r.pdevice.unusedId = message.identifier) ∧
      (registered message.identifier ops (dev0.pmsgHandler message.identifier) ≠ [] →
        r.calls = registered message.identifier ops (dev0.pmsgHandler message.identifier) ∧
        r.pdevice.unusedCount = (handlerOps ops dev0).unusedCount ∧
        r.pdevice.unusedId = (handlerOps ops dev0).unusedId) := by
  have hreg := handlerOps_registered message.identifier hid ops dev0 hm
  have hnot : ¬ CAN_IDENTIFIERS ≤ message.identifier := by
    simp only [CAN_IDENTIFIERS]; omega
  have hmod : message.identifier % 65536 = message.identifier := by omega
  generalize handlerOps ops dev0 = d at hreg ⊢
  generalize registered message.identifier ops (dev0.pmsgHandler message.identifier) = l at hreg ⊢
  unfold t810RecvTask_step
  rw [if_neg hnot]
  simp only [hreg]
  cases l with
  | nil =>
    cases hb : d.preadBuffer with
    | none =>
      simp only [hb]
      exact ⟨_, rfl, rfl, fun h => by simp only; omega, fun _ => ⟨rfl, rfl, hmod⟩,
        fun h => absurd rfl h⟩
    | some buf =>
      simp only [hb]
      split_ifs
      · exact ⟨_, rfl, rfl, fun h => by simp only; omega, fun _ => ⟨rfl, rfl, hmod⟩,
          fun h => absurd rfl h⟩
      · exact ⟨_, rfl, rfl, fun h => by simp only; omega, fun _ => ⟨rfl, rfl, hmod⟩,
          fun h => absurd rfl h⟩
  | cons c t =>
    cases hb : d.preadBuffer with
    | none =>
      simp only [hb, doCallbacks_eq]
      exact ⟨_, rfl, rfl, fun h => by simp only; omega, (fun h => nomatch h),
        fun _ => ⟨rfl, rfl, rfl⟩⟩
    | some buf =>
      simp only [hb, doCallbacks_eq]
      split_ifs
      · exact ⟨_, rfl, rfl, fun h => by simp only; omega, (fun h => nomatch h),
          fun _ => ⟨rfl, rfl, rfl⟩⟩
      · exact ⟨_, rfl, rfl, fun h => by simp only; omega, (fun h => nomatch h),
          fun _ => ⟨rfl, rfl, rfl⟩⟩

/-- C22 on the device `CAN1`: after registering the callbacks `0x5000` and
`0x5100` for the identifier `0x123`, deleting the first and registering
`0x5200`, a message `0x123` calls `0x5100` and then `0x5200`; a message
`0x124` calls nothing and is counted as unused. -/
theorem recv_dispatch_witness :
    (∃ r, t810RecvTask_step
        (handlerOps [HandlerOp.message true 0 0x123 0x5000 1,
                     HandlerOp.message true 0 0x123 0x5100 2,
                     HandlerOp.delete 0x123 0x5000 1,
                     HandlerOp.message true 0 0x123 0x5200 3] can1) msg123 = some r ∧
      r.calls = [⟨2, 0x5100⟩, ⟨3, 0x5200⟩] ∧ r.pdevice.rxCount = 1 ∧
      r.pdevice.unusedCount = 0) ∧
    (∃ r, t810RecvTask_step
        (handlerOps [HandlerOp.message true 0 0x123 0x5000 1] can1)
        { msg123 with identifier := 0x124 } = some r ∧
      r.calls = [] ∧ r.pdevice.unusedCount = 1 ∧ r.pdevice.unusedId = 0x124) := by
  constructor
  · obtain ⟨r, h1, h2, _, _, h5⟩ := recv_dispatch
      [HandlerOp.message true 0 0x123 0x5000 1, HandlerOp.message true 0 0x123 0x5100 2,
       HandlerOp.delete 0x123 0x5000 1, HandlerOp.message true 0 0x123 0x5200 3]
      can1 msg123 rfl (by decide)
    have h6 := h5 (by decide)
    exact ⟨r, h1, h6.1.trans (by decide), h2.trans (by decide), h6.2.1.trans (by decide)⟩
  · obtain ⟨r, h1, _, _, h4, _⟩ := recv_dispatch
      [HandlerOp.message true 0 0x123 0x5000 1] can1 { msg123 with identifier := 0x124 }
      rfl (by decide)
    have h6 := h4 (by decide)
    exact ⟨r, h1, h6.1, h6.2.1.trans (by decide), h6.2.2⟩

/-- C23: `canMsgDelete` on a valid device with an identifier below 2048 and a
callback that is not null.  If the handler list of the identifier holds a
cell equal to the pair `(callback, pprivate)`, the call takes away the first
such cell, keeps all other cells in their order and returns `OK`; otherwise
it returns `S_can_noMessage` and leaves the device as it was.  A
`canMessage` for a pair that the list does not hold, followed by
`canMsgDelete` for the same pair, gives back the device as it was. -/
theorem canMsgDelete_first_match (pdevice : t810Dev_t) (identifier pcallback pprivate : Nat)
    (hm : pdevice.magicNumber = T810_MAGIC_NUMBER) (hid : identifier < 2048)
    (hc : pcallback ≠ 0) :
    ((⟨pprivate, pcallback⟩ : callbackTable_t) ∈ pdevice.pmsgHandler identifier →
      ∃ l1 l2, pdevice.pmsgHandler identifier = l1 ++ ⟨pprivate, pcallback⟩ :: l2 ∧
        (⟨pprivate, pcallback⟩ : callbackTable_t) ∉ l1 ∧
        canMsgDelete pdevice identifier pcallback pprivate
          = (OK, { pdevice with
                   pmsgHandler := setHandler pdevice.pmsgHandler identifier (l1 ++ l2) })) ∧
    ((⟨pprivate, pcallback⟩ : callbackTable_t) ∉ pdevice.pmsgHandler identifier →
      canMsgDelete pdevice identifier pcallback pprivate = (S_can_noMessage, pdevice)) ∧
    ((⟨pprivate, pcallback⟩ : callbackTable_t) ∉ pdevice.pmsgHandler identifier →
      ∀ errno, (canMessage true errno pdevice identifier pcallback pprivate).1 = OK ∧
        canMsgDelete (canMessage true errno pdevice identifier pcallback pprivate).2
          identifier pcallback pprivate = (OK, pdevice)) := by
  have hm2 : ¬ pdevice.magicNumber ≠ T810_MAGIC_NUMBER := not_not.mpr hm
  have hb : ¬ (identifier ≥ CAN_IDENTIFIERS ∨ pcallback = 0) := by
    simp only [CAN_IDENTIFIERS]; omega
  refine ⟨?_, ?_, ?_⟩
  · intro hmem
    obtain ⟨l1, l2, e1, e2, e3⟩ := deleteCell_some pcallback pprivate _ hmem
    refine ⟨l1, l2, e1, e2, ?_⟩
    unfold canMsgDelete
    rw [if_neg hm2, if_neg hb, e3]
  · intro hmem
    unfold canMsgDelete
    rw [if_neg hm2, if_neg hb, deleteCell_none pcallback pprivate _ hmem]
  · intro hmem errno
    have e : canMessage true errno pdevice identifier pcallback pprivate
        = (OK, { pdevice with
                 pmsgHandler := setHandler pdevice.pmsgHandler identifier
                   (pdevice.pmsgHandler identifier ++ [⟨pprivate, pcallback⟩]) }) := by
      unfold canMessage
      rw [if_neg hm2, if_neg hb, appendCell_eq]
      rfl
    rw [e]
    refine ⟨rfl, ?_⟩
    unfold canMsgDelete
    rw [if_neg hm2, if_neg hb]
    have hdel : deleteCell pcallback pprivate
        (setHandler pdevice.pmsgHandler identifier
          (pdevice.pmsgHandler identifier ++ [⟨pprivate, pcallback⟩]) identifier)
        = some (pdevice.pmsgHandler identifier) := by
      simp only [setHandler, if_true, deleteCell_erase, List.mem_append, List.mem_singleton,
        or_true]
      rw [List.erase_append_right _ hmem]
      simp
    simp only [hdel]
    have hfun : setHandler (setHandler pdevice.pmsgHandler identifier
          (pdevice.pmsgHandler identifier ++ [⟨pprivate, pcallback⟩])) identifier
          (pdevice.pmsgHandler identifier) = pdevice.pmsgHandler := by
      funext k
      simp only [setHandler]
      split_ifs with h
      · rw [h]
      · rfl
    simp only [hfun]

/-- C23 on the device `CAN1` with the callbacks `0x5000`, `0x5100`, `0x5000`
(all with `pprivate` 1) registered for the identifier `0x123`: deleting
`(0x5000, 1)` leaves `0x5100`, `0x5000`. -/
theorem canMsgDelete_first_match_witness :
    (canMsgDelete
      (handlerOps [HandlerOp.message true 0 0x123 0x5000 1,
                   HandlerOp.message true 0 0x123 0x5100 1,
                   HandlerOp.message true 0 0x123 0x5000 1] can1) 0x123 0x5000 1).1 = OK ∧
    (canMsgDelete
      (handlerOps [HandlerOp.message true 0 0x123 0x5000 1,
                   HandlerOp.message true 0 0x123 0x5100 1,
                   HandlerOp.message true 0 0x123 0x5000 1] can1) 0x123 0x5000 1).2.pmsgHandler
        0x123 = [⟨1, 0x5100⟩, ⟨1, 0x5000⟩] ∧
    canMsgDelete can1 0x123 0x5000 1 = (S_can_noMessage, can1) :=
  ⟨by decide, by decide,
    (canMsgDelete_first_match can1 0x123 0x5000 1 rfl (by decide) (by decide)).2.1
      (by decide)⟩

end Tip810

namespace Tip810

open CLib

/-- The `while` loop of `t810Create` leaves with `S_t810_duplicateDevice`
exactly when a device of the list has the same bus name or the same card
and slot. -/
theorem findDuplicate_iff (pbusName : List Char) (card slot : Nat) (l : List t810Dev_t) :
    findDuplicate pbusName card slot l = true ↔
      ∃ d ∈ l, cstr d.pbusName = cstr pbusName ∨ (d.card = card ∧ d.slot = slot) := by
  induction l with
  | nil => simp [findDuplicate]
  | cons h t ih =>
    by_cases hc : cstr h.pbusName = cstr pbusName ∨ (h.card = card ∧ h.slot = slot)
    · simp only [findDuplicate, hc, if_true, true_iff]
      exact ⟨h, List.mem_cons_self _ _, hc⟩
    · simp only [findDuplicate, hc, if_false, ih, List.mem_cons]
      constructor
      · rintro ⟨d, hd, h2⟩; exact ⟨d, Or.inr hd, h2⟩
      · rintro ⟨d, hd | hd, h2⟩
        · subst hd; exact absurd h2 hc
        · exact ⟨d, hd, h2⟩

/-- A call of `t810Create` leaves the device list as it was or adds at its
end a device with the name, card and slot of the call that no device of the
list shares. -/
theorem t810Create_list (env : CreateEnv) (l : List t810Dev_t) (pbusName : List Char)
    (card slot irqNum busRate : Nat) :
    (t810Create env l pbusName card slot irqNum busRate).pt810First = l ∨
    ∃ d, (t810Create env l pbusName card slot irqNum busRate).pt810First = l ++ [d] ∧
      (t810Create env l pbusName card slot irqNum busRate).status = OK ∧
      d.pbusName = pbusName ∧ d.card = card ∧ d.slot = slot ∧
      findDuplicate pbusName card slot l = false := by
  unfold t810Create
  by_cases h1 : env.ipmValidate card slot ≠ 0
  · rw [if_pos h1]; exact Or.inl rfl
  rw [if_neg h1]
  by_cases h2 : busRate = 0
  · rw [if_pos h2]; exact Or.inl rfl
  rw [if_neg h2]
  cases h3 : findRate busRate rateTable with
  | none => exact Or.inl rfl
  | some timing =>
    simp only
    by_cases h4 : findDuplicate pbusName card slot l = true
    · rw [if_pos h4]; exact Or.inl rfl
    rw [if_neg h4]
    by_cases h5 : env.mallocOK = false
    · rw [if_pos h5]; exact Or.inl rfl
    rw [if_neg h5]
    by_cases h6 : env.semOK = false
    · rw [if_pos h6]; exact Or.inl rfl
    rw [if_neg h6]
    exact Or.inr ⟨_, rfl, rfl, rfl, rfl, rfl, by simpa using h4⟩

/-- Every sequence of `t810Create` calls keeps the bus names and the card
and slot pairs of the device list pairwise distinct. -/
theorem t810Creates_distinct (calls : List CreateCall) :
    ∀ l : List t810Dev_t,
      l.Pairwise (fun a b => cstr a.pbusName ≠ cstr b.pbusName ∧
        ¬ (a.card = b.card ∧ a.slot = b.slot)) →
      (t810Creates calls l).Pairwise (fun a b => cstr a.pbusName ≠ cstr b.pbusName ∧
        ¬ (a.card = b.card ∧ a.slot = b.slot)) := by
  induction calls with
  | nil => intro l h; exact h
  | cons c cs ih =>
    intro l h
    simp only [t810Creates]
    apply ih
    rcases t810Create_list c.env l c.pbusName c.card c.slot c.irqNum c.busRate with e | e
    · rw [e]; exact h
    · obtain ⟨d, e1, _, e2, e3, e4, e5⟩ := e
      rw [e1, List.pairwise_append]
      refine ⟨h, List.pairwise_singleton _ _, ?_⟩
      intro a ha b hb
      rw [List.mem_singleton] at hb
      subst hb
      have hnd : ¬ ∃ x ∈ l, cstr x.pbusName = cstr c.pbusName ∨
          (x.card = c.card ∧ x.slot = c.slot) := by
        rw [← findDuplicate_iff, e5]; simp
      rw [e2, e3, e4]
      constructor
      · intro hn; exact hnd ⟨a, ha, Or.inl hn⟩
      · intro hn; exact hnd ⟨a, ha, Or.inr hn⟩

/-- C24: `t810Create` when `ipmValidate` succeeds, the bus rate is in the
rate table and the allocations succeed.  It returns
`S_t810_duplicateDevice`, leaving the device list as it was, exactly when a
device of the list has the same bus name or the same card and slot;
otherwise it returns `OK` and adds the new device at the end of the list.
Hence in every device list that a sequence of `t810Create` calls builds from
the empty list the bus names are pairwise distinct and the card and slot
pairs are pairwise distinct. -/
theorem t810Create_unique (env : CreateEnv) (l : List t810Dev_t) (pbusName : List Char)
    (card slot irqNum busRate : Nat)
    (hval : env.ipmValidate card slot = 0)
    (hrate : busRate ≠ 0 ∧ (findRate busRate rateTable).isSome = true)
    (hmal : env.mallocOK = true) (hsem : env.semOK = true) :
    ((t810Create env l pbusName card slot irqNum busRate).status = S_t810_duplicateDevice ↔
      ∃ d ∈ l, cstr d.pbusName = cstr pbusName ∨ (d.card = card ∧ d.slot = slot)) ∧
    ((∃ d ∈ l, cstr d.pbusName = cstr pbusName ∨ (d.card = card ∧ d.slot = slot)) →
      (t810Create env l pbusName card slot irqNum busRate).pt810First = l) ∧
    ((¬ ∃ d ∈ l, cstr d.pbusName = cstr pbusName ∨ (d.card = card ∧ d.slot = slot)) →
      (t810Create env l pbusName card slot irqNum busRate).status = OK ∧
      ∃ d, (t810Create env l pbusName card slot irqNum busRate).pt810First = l ++ [d] ∧
        d.pbusName = pbusName ∧ d.card = card ∧ d.slot = slot ∧
        d.magicNumber = T810_MAGIC_NUMBER) ∧
    (∀ calls : List CreateCall,
      (t810Creates calls []).Pairwise (fun a b => cstr a.pbusName ≠ cstr b.pbusName ∧
        ¬ (a.card = b.card ∧ a.slot = b.slot))) := by
  obtain ⟨hr0, hr1⟩ := hrate
  obtain ⟨timing, ht⟩ := Option.isSome_iff_exists.mp hr1
  have h1 : ¬ env.ipmValidate card slot ≠ 0 := not_not.mpr hval
  have h5 : ¬ env.mallocOK = false := by rw [hmal]; decide
  have h6 : ¬ env.semOK = false := by rw [hsem]; decide
  have hdup : (∃ d ∈ l, cstr d.pbusName = cstr pbusName ∨ (d.card = card ∧ d.slot = slot)) →
      t810Create env l pbusName card slot irqNum busRate
        = ⟨S_t810_duplicateDevice, l, [], []⟩ := by
    intro hd
    have h4 := (findDuplicate_iff pbusName card slot l).mpr hd
    unfold t810Create
    rw [if_neg h1, if_neg hr0, ht]
    simp only
    rw [if_pos h4]
  have hnew : (¬ ∃ d ∈ l, cstr d.pbusName = cstr pbusName ∨ (d.card = card ∧ d.slot = slot)) →
      (t810Create env l pbusName card slot irqNum busRate).status = OK ∧
      ∃ d, (t810Create env l pbusName card slot irqNum busRate).pt810First = l ++ [d] ∧
        d.pbusName = pbusName ∧ d.card = card ∧ d.slot = slot ∧
        d.magicNumber = T810_MAGIC_NUMBER := by
    intro hd
    have h4 : ¬ findDuplicate pbusName card slot l = true :=
      fun h => hd ((findDuplicate_iff pbusName card slot l).mp h)
    unfold t810Create
    rw [if_neg h1, if_neg hr0, ht]
    simp only
    rw [if_neg h4, if_neg h5, if_neg h6]
    exact ⟨rfl, _, rfl, rfl, rfl, rfl, rfl⟩
  refine ⟨?_, ?_, hnew, ?_⟩
  · constructor
    · intro hs
      by_contra hd
      rw [(hnew hd).1] at hs
      exact absurd hs (by decide)
    · intro hd
      rw [hdup hd]
  · intro hd
    rw [hdup hd]
  · intro calls
    exact t810Creates_distinct calls [] List.Pairwise.nil

/-- C24 on an empty device list and on the list with `CAN1` in slot 0 of
card 0: creating `CAN1` is accepted on the empty list, and `CAN2` for the
same card and slot is refused as a duplicate. -/
theorem t810Create_unique_witness :
    (t810Create canEnv [] "CAN1".toList 0 0 0x60 500).status = OK ∧
    (t810Create canEnv [can1] "CAN2".toList 0 0 0x61 500).status = S_t810_duplicateDevice :=
  ⟨((t810Create_unique canEnv [] "CAN1".toList 0 0 0x60 500 rfl ⟨by decide, by decide⟩
      rfl rfl).2.2.1 (by simp)).1,
   (t810Create_unique canEnv [can1] "CAN2".toList 0 0 0x61 500 rfl ⟨by decide, by decide⟩
      rfl rfl).1.mpr ⟨can1, List.mem_singleton.mpr rfl, Or.inr ⟨rfl, rfl⟩⟩⟩

end Tip810

/-- A number whose five low bits are clear keeps its low byte under the mask
`0xe0`. -/
theorem and_e0_of_mul32 (x : Nat) (h : x % 32 = 0) : x &&& 0xe0 = x % 256 := by
  have h0 : (0xff : Nat) = 0xe0 ||| 0x1f := by decide
  have h1 : x &&& 0xff = (x &&& 0xe0) ||| (x &&& 0x1f) := by
    rw [h0, Nat.and_or_distrib_left]
  have h2 : x &&& 0x1f = 0 := by
    have := Nat.and_pow_two_sub_one_eq_mod x 5
    simpa [h] using this
  have h3 : x &&& 0xff = x % 256 := by
    have := Nat.and_pow_two_sub_one_eq_mod x 8
    simpa using this
  rw [h2, Nat.or_zero] at h1
  rw [← h1, h3]

/-- The second descriptor byte gives back the three low identifier bits, the
length and the RTR flag. -/
theorem descriptor1_fields : ∀ b, b < 8 → ∀ len, len < 9 → ∀ r, r < 2 →
    (((((b * 32) ||| (len &&& 0x0f)) % 256 ||| (r * 0x10)) % 256) &&& 0xe0) >>> 5 = b ∧
    ((((b * 32) ||| (len &&& 0x0f)) % 256 ||| (r * 0x10)) % 256) &&& 0x0f = len ∧
    ((((b * 32) ||| (len &&& 0x0f)) % 256 ||| (r * 0x10)) % 256) &&& 0x10 = r * 0x10 := by
  decide

namespace Tip810

/-- The two descriptor bytes that `putTxMessage` writes, read back the way
`getRxMessage` does. -/
theorem descriptor_roundtrip (id len r d0 d1 : Nat) (hid : id < 2048) (hlen : len ≤ 8)
    (hr : r < 2) (h0 : d0 = (id >>> 3) % 256)
    (h1 : d1 = ((((id <<< 5) &&& 0xe0) % 256 ||| (len &&& 0x0f)) % 256 ||| (r * 0x10)) % 256) :
    (((d0 % 256) <<< 3) ||| (((d1 % 256) &&& 0xe0) >>> 5)) % 65536 = id ∧
    ((d1 % 256) &&& 0x0f) % 256 = len ∧
    (d1 % 256) &&& 0x10 = r * 0x10 := by
  have e1 : ((id <<< 5) &&& 0xe0) % 256 = (id % 8) * 32 := by
    rw [and_e0_of_mul32 _ (by rw [Nat.shiftLeft_eq]; omega), Nat.shiftLeft_eq]
    omega
  obtain ⟨f1, f2, f3⟩ := descriptor1_fields (id % 8) (by omega) len (by omega) r hr
  rw [e1] at h1
  have e2 : d0 % 256 = id / 8 := by
    rw [h0, Nat.shiftRight_eq_div_pow]; omega
  have e3 : d1 % 256 = d1 := by rw [h1, Nat.mod_mod]
  rw [e2, e3, h1, f1, f2, f3]
  refine ⟨?_, by omega, rfl⟩
  rw [Nat.shiftLeft_eq, Nat.mul_comm,
    ← Nat.mul_add_lt_is_or (show id % 8 < 2 ^ 3 by omega) (id / 8)]
  omega

/-- Every identifier that `getRxMessage` delivers is below 2048. -/
theorem getRxMessage_identifier (rx : msgBuffer_t) (old m : canMessage_t) (c : Nat)
    (h : getRxMessage rx old = some (m, c)) : m.identifier < 2048 := by
  have hb : (((rx.descriptor0 % 256) <<< PCA_MSG_ID0_RSHIFT) |||
      ((rx.descriptor1 % 256 &&& PCA_MSG_ID1_MASK) >>> PCA_MSG_ID1_LSHIFT)) % 65536 < 2048 := by
    have h1 : (rx.descriptor0 % 256) <<< PCA_MSG_ID0_RSHIFT < 2 ^ 11 := by
      simp only [PCA_MSG_ID0_RSHIFT, Nat.shiftLeft_eq]; omega
    have h2 : (rx.descriptor1 % 256 &&& PCA_MSG_ID1_MASK) >>> PCA_MSG_ID1_LSHIFT < 2 ^ 11 := by
      have := @Nat.and_le_right (rx.descriptor1 % 256) PCA_MSG_ID1_MASK
      simp only [PCA_MSG_ID1_MASK, PCA_MSG_ID1_LSHIFT, Nat.shiftRight_eq_div_pow] at this ⊢
      omega
    have := Nat.or_lt_two_pow h1 h2
    omega
  unfold getRxMessage at h
  simp only at h
  split_ifs at h
  · have e := (Prod.mk.inj (Option.some.inj h)).1
    rw [← e]; exact hb
  · split at h
    · cases h
    · have e := (Prod.mk.inj (Option.some.inj h)).1
      rw [← e]; exact hb

/-- C28: the framing of a CAN message.  For every message with an
identifier below 2048, a length of at most 8, `rtr` equal to `SEND` or `RTR`
and bytes as data, `putTxMessage` writes the two descriptor bytes and the
data to the transmit buffer, and `getRxMessage` on a buffer with that
content delivers the same identifier, length and `rtr` and, for a `SEND`
message, the same first `length` data bytes.  Every identifier that
`getRxMessage` delivers is below 2048. -/
theorem framing_roundtrip (m : canMessage_t) (txBuffer : msgBuffer_t) (old : canMessage_t)
    (hid : m.identifier < 2048) (hlen : m.length ≤ 8)
    (hrtr : m.rtr = SEND ∨ m.rtr = RTR)
    (hbyte : ∀ i, i < m.length → m.data i < 256) :
    (∃ buf cmd m2 cmd2, putTxMessage txBuffer m = some (buf, cmd) ∧
      getRxMessage buf old = some (m2, cmd2) ∧
      m2.identifier = m.identifier ∧ m2.length = m.length ∧ m2.rtr = m.rtr ∧
      (m.rtr = SEND → ∀ i, i < m.length → m2.data i = m.data i)) ∧
    (∀ rx old2 m3 c, getRxMessage rx old2 = some (m3, c) → m3.identifier < 2048) := by
  refine ⟨?_, fun rx old2 m3 c h => getRxMessage_identifier rx old2 m3 c h⟩
  rcases hrtr with hr | hr
  · -- a data frame
    obtain ⟨g1, g2, g3⟩ := descriptor_roundtrip m.identifier m.length 0
      ((m.identifier >>> 3) % 256)
      ((((m.identifier <<< 5) &&& 0xe0) % 256 ||| (m.length &&& 0x0f)) % 256)
      hid hlen (by decide) rfl (by simp only [Nat.zero_mul, Nat.or_zero, Nat.mod_mod])
    obtain ⟨d, hd, hk⟩ := copyLoop_spec (fun v => v % 65536) m.data (List.range m.length)
      txBuffer.data (fun i hi => by
        have := List.mem_range.mp hi
        simp only [CAN_DATA_SIZE]; omega)
    obtain ⟨d2, hd2, hk2⟩ := copyLoop_spec (fun v => v % 256) d (List.range m.length)
      old.data (fun i hi => by
        have := List.mem_range.mp hi
        simp only [CAN_DATA_SIZE]; omega)
    have hput : putTxMessage txBuffer m
        = some (⟨(m.identifier >>> 3) % 256,
            (((m.identifier <<< 5) &&& 0xe0) % 256 ||| (m.length &&& 0x0f)) % 256, d⟩,
            PCA_CMR_TR) := by
      unfold putTxMessage
      simp only [hr, if_true, PCA_MSG_ID0_RSHIFT, PCA_MSG_ID1_LSHIFT, PCA_MSG_ID1_MASK,
        PCA_MSG_DLC_MASK, hd]
    have hflag : ¬ ((((m.identifier <<< 5) &&& 0xe0) % 256 ||| (m.length &&& 0x0f)) % 256)
        % 256 &&& 0x10 ≠ 0 := by
      rw [g3]; decide
    have hget : getRxMessage ⟨(m.identifier >>> 3) % 256,
        (((m.identifier <<< 5) &&& 0xe0) % 256 ||| (m.length &&& 0x0f)) % 256, d⟩ old
        = some (⟨m.identifier, SEND, m.length, d2⟩, PCA_CMR_RRB) := by
      unfold getRxMessage
      simp only [PCA_MSG_ID0_RSHIFT, PCA_MSG_ID1_LSHIFT, PCA_MSG_ID1_MASK, PCA_MSG_DLC_MASK,
        PCA_MSG_RTR, g1, g2, hflag, if_false, hd2]
    refine ⟨_, _, _, _, hput, hget, rfl, rfl, hr.symm, ?_⟩
    intro _ i hi
    have hmem : i ∈ List.range m.length := List.mem_range.mpr hi
    have hb := hbyte i hi
    simp only [hk2 i, hk i, hmem, if_true]
    omega
  · -- a remote frame
    obtain ⟨g1, g2, g3⟩ := descriptor_roundtrip m.identifier m.length 1
      ((m.identifier >>> 3) % 256)
      (((((m.identifier <<< 5) &&& 0xe0) % 256 ||| (m.length &&& 0x0f)) % 256 ||| 0x10) % 256)
      hid hlen (by decide) rfl rfl
    have hne : ¬ m.rtr = SEND := by rw [hr]; decide
    have hput : putTxMessage txBuffer m
        = some (⟨(m.identifier >>> 3) % 256,
            ((((m.identifier <<< 5) &&& 0xe0) % 256 ||| (m.length &&& 0x0f)) % 256 ||| 0x10)
              % 256, txBuffer.data⟩, PCA_CMR_TR) := by
      unfold putTxMessage
      simp only [hne, if_false, PCA_MSG_ID0_RSHIFT, PCA_MSG_ID1_LSHIFT, PCA_MSG_ID1_MASK,
        PCA_MSG_DLC_MASK, PCA_MSG_RTR]
    have hflag : (((((m.identifier <<< 5) &&& 0xe0) % 256 ||| (m.length &&& 0x0f)) % 256
        ||| 0x10) % 256) % 256 &&& 0x10 ≠ 0 := by
      rw [g3]; decide
    have hget : getRxMessage ⟨(m.identifier >>> 3) % 256,
        ((((m.identifier <<< 5) &&& 0xe0) % 256 ||| (m.length &&& 0x0f)) % 256 ||| 0x10)
          % 256, txBuffer.data⟩ old
        = some (⟨m.identifier, RTR, m.length, old.data⟩, PCA_CMR_RRB) := by
      unfold getRxMessage
      simp only [PCA_MSG_ID0_RSHIFT, PCA_MSG_ID1_LSHIFT, PCA_MSG_ID1_MASK, PCA_MSG_DLC_MASK,
        PCA_MSG_RTR, g1, g2, hflag, ne_eq, not_false_eq_true, if_true]
    refine ⟨_, _, _, _, hput, hget, rfl, rfl, hr.symm, ?_⟩
    intro h
    exact absurd h hne

/-- C28 on the message `0x123` with the data bytes 1, 2, 3. -/
theorem framing_roundtrip_witness :
    ∃ buf cmd m2 cmd2, putTxMessage emptyBuffer msg123 = some (buf, cmd) ∧
      getRxMessage buf msg123 = some (m2, cmd2) ∧
      m2.identifier = 0x123 ∧ m2.length = 3 ∧ m2.rtr = SEND ∧ m2.data 2 = 3 := by
  obtain ⟨buf, cmd, m2, cmd2, h1, h2, h3, h4, h5, h6⟩ :=
    (framing_roundtrip msg123 emptyBuffer msg123 (by decide) (by decide) (Or.inl rfl)
      (fun i hi => by simp only [msg123]; split_ifs <;> omega)).1
  exact ⟨buf, cmd, m2, cmd2, h1, h2, h3, h4, h5, (h6 rfl 2 (by decide)).trans (by decide)⟩

end Tip810

/-! ### Interrupt enable register of the XYCOM 9660, buffer and table bounds -/

namespace Xy9660

/-- C25, the code at a concrete input: with all interrupts enabled,
`ipac_irqDisable` for slot 1 clears bit 2 of the interrupt enable register;
the following `ipac_irqDisable` for slot 0 clears bit 0 and sets bit 2
again. -/
theorem irqCmd_disable_enables_other_slots :
    (irqCmd xyBoard 1 0 ipac_irqCmd_t.ipac_irqDisable).board.en_reg = 0xFB ∧
    Nat.testBit (irqCmd xyBoard 1 0 ipac_irqCmd_t.ipac_irqDisable).board.en_reg (2 * 1)
      = false ∧
    (irqCmd (irqCmd xyBoard 1 0 ipac_irqCmd_t.ipac_irqDisable).board 0 0
      ipac_irqCmd_t.ipac_irqDisable).retval = OK ∧
    (irqCmd (irqCmd xyBoard 1 0 ipac_irqCmd_t.ipac_irqDisable).board 0 0
      ipac_irqCmd_t.ipac_irqDisable).board.en_reg = 0xFE ∧
    Nat.testBit (irqCmd (irqCmd xyBoard 1 0 ipac_irqCmd_t.ipac_irqDisable).board 0 0
      ipac_irqCmd_t.ipac_irqDisable).board.en_reg (2 * 1) = true := by
  decide

/-- C25 as the code has it: `ipac_irqDisable` for a slot in 0..3 returns
`OK` and writes a constant to the interrupt enable register: afterwards bit
`2 * slot` is clear and each of the other seven bits is set, whatever the
register held before; nothing else changes. -/
theorem irqCmd_disable_writes_mask (b : Board) (slot irqNumber : Nat) (hs : slot ≤ 3) :
    (irqCmd b slot irqNumber ipac_irqCmd_t.ipac_irqDisable).retval = OK ∧
    (irqCmd b slot irqNumber ipac_irqCmd_t.ipac_irqDisable).board.en_reg
      = 0xFF - 2 ^ (2 * slot) ∧
    Nat.testBit (irqCmd b slot irqNumber ipac_irqCmd_t.ipac_irqDisable).board.en_reg
      (2 * slot) = false ∧
    (∀ i, i < 8 → i ≠ 2 * slot →
      Nat.testBit (irqCmd b slot irqNumber ipac_irqCmd_t.ipac_irqDisable).board.en_reg i
        = true) ∧
    (irqCmd b slot irqNumber ipac_irqCmd_t.ipac_irqDisable).board
      = { b with en_reg := 0xFF - 2 ^ (2 * slot) } ∧
    (irqCmd b slot irqNumber ipac_irqCmd_t.ipac_irqDisable).intLevels = [] := by
  have e : irqCmd b slot irqNumber ipac_irqCmd_t.ipac_irqDisable
      = ⟨OK, { b with en_reg := 0xFF - 2 ^ (2 * slot) }, []⟩ := by
    interval_cases slot <;> rfl
  rw [e]
  refine ⟨rfl, rfl, ?_, ?_, rfl, rfl⟩
  · show Nat.testBit (0xFF - 2 ^ (2 * slot)) (2 * slot) = false
    interval_cases slot <;> decide
  · intro i hi hne
    show Nat.testBit (0xFF - 2 ^ (2 * slot)) i = true
    interval_cases slot <;> interval_cases i <;> first | exact absurd rfl hne | decide

/-- C25 at slot 2 on a board with only slot 0 enabled. -/
theorem irqCmd_disable_writes_mask_witness :
    (irqCmd { xyBoard with en_reg := 0x03 } 2 0 ipac_irqCmd_t.ipac_irqDisable).board.en_reg
      = 0xEF :=
  (irqCmd_disable_writes_mask { xyBoard with en_reg := 0x03 } 2 0 (by decide)).2.1

end Xy9660

namespace Hy8002Legacy

/-- C29, the code at the string `3`: after the first integer `i` is
`len + 1`, the test `i == len` does not fire and `cp[ila] = 0` stores at
index `len + 1` of the copy of `len + 1` bytes, so the call leaves its
buffer.  The string `3 ` with a trailing space is rejected with the return
value 0, and `3 2 1` is accepted. -/
theorem scanparm_short_string_leaves_buffer :
    scanparm true (some "3".toList) junkLocalsLegacy = none ∧
    (scanparm true (some "3 ".toList) junkLocalsLegacy).map (fun r => r.1) = some 0 ∧
    (scanparm true (some "3 2 1".toList) junkLocalsLegacy).map (fun r => r.1) = some 1 := by
  decide

end Hy8002Legacy

namespace HyLinux

/-- C30, the code at the vector 255: `intConnect` with `vecNum = 255` stores
at index 255 of the arrays of 255 entries, and a read that delivers a vector
whose low byte is 255 makes `interrupt_thread` load from index 255; both
leave the arrays.  The vector 254 is inside. -/
theorem vector_255_leaves_arrays :
    (intConnect true linuxCarrier 0 255 0x8000 0x9000).isNone = true ∧
    ((intConnect true linuxCarrier 0 254 0x8000 0x9000).bind fun r =>
      r.cp.irqdesc.bind fun d => interrupt_thread_step d 4 255) = none ∧
    ((intConnect true linuxCarrier 0 254 0x8000 0x9000).bind fun r =>
      r.cp.irqdesc.bind fun d => interrupt_thread_step d 4 (-1)) = none ∧
    ((intConnect true linuxCarrier 0 254 0x8000 0x9000).bind fun r =>
      r.cp.irqdesc.bind fun d => interrupt_thread_step d 4 254)
      = some (ThreadStep.called 0x8000 0x9000) := by
  decide

end HyLinux

/-! ### Zero bases and register-offset addressing of the Hy8002 drivers -/

/-- A 32-bit word with a bit of `b` set: or-ing `b` in gives a word that is
not zero. -/
theorem or_mod_ne_zero (a b : Nat) (hb0 : b ≠ 0) (hb : b < 2 ^ 32) :
    (a ||| b) % 4294967296 ≠ 0 := by
  obtain ⟨i, hi⟩ := Nat.ne_zero_implies_bit_true hb0
  have hi32 : i < 32 := by
    by_contra h
    have h2 : b < 2 ^ i := lt_of_lt_of_le hb (Nat.pow_le_pow_right (by decide) (by omega))
    rw [Nat.testBit_lt_two_pow h2] at hi
    cases hi
  intro hz
  have e : (4294967296 : Nat) = 2 ^ 32 := by norm_num
  have := congrArg (fun n => Nat.testBit n i) hz
  simp only [e, Nat.testBit_mod_two_pow, Nat.testBit_or, hi, hi32, Nat.zero_testBit,
    Bool.or_true, decide_True, Bool.and_self] at this
  cases this

namespace Hy8002

open CLib

/-- For a memory size and addressing mode that `initialise` lets through,
the base that `regaddr` computes does not depend on the value `basetmp` held
before. -/
theorem regaddr_basetmp_prev (pv : privinfo) (ip prev : Nat)
    (hmode : pv.ipmemmode = 1 ∨ pv.ipmemmode = 2 ∨ pv.ipmemmode = 4 ∨ pv.ipmemmode = 8)
    (hgeo : pv.isgeomem ≠ 0 → (pv.ipmemmode = 1 ∨ pv.ipmemmode = 2)) :
    regaddr_basetmp pv ip prev = regaddr_basetmp pv ip 0 := by
  unfold regaddr_basetmp
  by_cases hg : pv.isgeomem ≠ 0
  · rcases hgeo hg with h | h <;> simp [hg, h]
  · rcases hmode with h | h | h | h <;> simp [hg, h]

/-- The bases of the IP slots 1..3 are never zero. -/
theorem regaddr_basetmp_upper (pv : privinfo) (ip prev : Nat) (h1 : 1 ≤ ip) (h3 : ip ≤ 3)
    (hmode : pv.ipmemmode = 1 ∨ pv.ipmemmode = 2 ∨ pv.ipmemmode = 4 ∨ pv.ipmemmode = 8)
    (hgeo : pv.isgeomem ≠ 0 → (pv.ipmemmode = 1 ∨ pv.ipmemmode = 2)) :
    regaddr_basetmp pv ip prev ≠ 0 := by
  have key : ∀ a k, 20 ≤ k → k ≤ 23 → ((a ||| (ip <<< k)) % 4294967296 ≠ 0) := by
    intro a k hk1 hk2
    apply or_mod_ne_zero
    · interval_cases ip <;> interval_cases k <;> decide
    · interval_cases ip <;> interval_cases k <;> decide
  unfold regaddr_basetmp
  by_cases hg : pv.isgeomem ≠ 0
  · rw [if_pos hg]
    rcases hgeo hg with h | h <;> rw [h]
    · exact key _ 20 (by decide) (by decide)
    · exact key _ 21 (by decide) (by decide)
  · rw [if_neg hg]
    rcases hmode with h | h | h | h <;> rw [h]
    · exact key _ 20 (by decide) (by decide)
    · exact key _ 21 (by decide) (by decide)
    · exact key _ 22 (by decide) (by decide)
    · exact key _ 23 (by decide) (by decide)

/-- When the registrations of the A16 windows succeed and the base of IP
slot 0 is zero, `regaddr` returns `S_IPAC_badAddress`. -/
theorem regaddr_zero_base (env : Env) (pv : privinfo) (regCalls : List RegCall)
    (hreg : ∀ earlier call, (env.devRegisterAddress earlier call).1 = OK)
    (hmode : pv.ipmemmode = 1 ∨ pv.ipmemmode = 2 ∨ pv.ipmemmode = 4 ∨ pv.ipmemmode = 8)
    (hgeo : pv.isgeomem ≠ 0 → (pv.ipmemmode = 1 ∨ pv.ipmemmode = 2))
    (h0 : regaddr_basetmp pv 0 0 = 0) :
    (regaddr env pv regCalls).1 = S_IPAC_badAddress := by
  obtain ⟨hio, a, b, c, d⟩ := regaddr_io_ok env hreg (List.range NUMIPSLOTS)
    { pv := { pv with ipadresses := List.replicate NUMIPSLOTS ⟨0, 0, 0, 0⟩ },
      regCalls := regCalls, retval := 0, basetmp := 0 }
  have hr : List.range NUMIPSLOTS = [0, 1, 2, 3] := rfl
  simp only [regaddr, hio, ne_eq, not_true_eq_false, if_false]
  rw [hr] at a b c d ⊢
  have hz : ∀ prev, regaddr_basetmp (regaddr_io env [0, 1, 2, 3]
      { pv := { pv with ipadresses := List.replicate NUMIPSLOTS ⟨0, 0, 0, 0⟩ },
        regCalls := regCalls, retval := 0, basetmp := 0 }).2.pv 0 prev = 0 := by
    intro prev
    rw [regaddr_basetmp_congr _ pv 0 prev a b c d, regaddr_basetmp_prev pv 0 prev hmode hgeo]
    exact h0
  simp only [regaddr_mem, hz, if_true]

/-- C26, the code at four accepted configurations: with every platform call
succeeding, `initialise` returns `S_IPAC_badAddress` for the strings `0,2`
(VME slot 0, geographic addressing), `3,2,MEMOFFS=32` (offset below 64),
`3,2,MEMOFFS=65536` (offset that is 0 as a 16-bit field) and
`3,2,IPMEM=2,MEMOFFS=32768` (base that is 0 in 32 bits), all of which
`scanparm` accepts; for `3,2,MEMOFFS=64` it returns `OK`. -/
theorem initialise_zero_base_rejected :
    (scanparm (some "0,2".toList) junkLocals).1 = OK ∧
    (initialise goodEnv junkLocals (some "0,2".toList) 0 emptyWorld).status
      = S_IPAC_badAddress ∧
    (scanparm (some "3,2,MEMOFFS=32".toList) junkLocals).1 = OK ∧
    (initialise goodEnv junkLocals (some "3,2,MEMOFFS=32".toList) 0 emptyWorld).status
      = S_IPAC_badAddress ∧
    (scanparm (some "3,2,MEMOFFS=65536".toList) junkLocals).1 = OK ∧
    (initialise goodEnv junkLocals (some "3,2,MEMOFFS=65536".toList) 0 emptyWorld).status
      = S_IPAC_badAddress ∧
    (scanparm (some "3,2,IPMEM=2,MEMOFFS=32768".toList) junkLocals).1 = OK ∧
    (initialise goodEnv junkLocals
      (some "3,2,IPMEM=2,MEMOFFS=32768".toList) 0 emptyWorld).status = S_IPAC_badAddress ∧
    (initialise goodEnv junkLocals (some "3,2,MEMOFFS=64".toList) 0 emptyWorld).status = OK ∧
    (∀ earlier call, (goodEnv.devRegisterAddress earlier call).1 = OK) :=
  ⟨by decide, by decide, by decide, by decide, by decide, by decide, by decide, by decide,
    by decide, fun _ _ => rfl⟩

/-- C26 as the code has it: for a memory size in {1, 2, 4, 8} MB, with
geographic addressing only for 1 and 2 MB (the checks of `initialise`), and
every `devRegisterAddress` call succeeding, `regaddr` returns `OK` exactly
when the A32 base it computes for IP slot 0 is not zero, and
`S_IPAC_badAddress` otherwise; the bases of the slots 1..3 are never zero.
The base of slot 0 is zero with geographic addressing exactly for VME slot
0, and with the offset register exactly when `memoffs >> 6`, shifted to its
place, is 0 in 32 bits. -/
theorem regaddr_ok_iff_base (env : Env) (pv : privinfo) (regCalls : List RegCall)
    (hreg : ∀ earlier call, (env.devRegisterAddress earlier call).1 = OK)
    (hmode : pv.ipmemmode = 1 ∨ pv.ipmemmode = 2 ∨ pv.ipmemmode = 4 ∨ pv.ipmemmode = 8)
    (hgeo : pv.isgeomem ≠ 0 → (pv.ipmemmode = 1 ∨ pv.ipmemmode = 2)) :
    ((regaddr env pv regCalls).1 = OK ↔ regaddr_basetmp pv 0 0 ≠ 0) ∧
    (regaddr_basetmp pv 0 0 = 0 → (regaddr env pv regCalls).1 = S_IPAC_badAddress) ∧
    (∀ ip, 1 ≤ ip → ip ≤ 3 → ∀ prev, regaddr_basetmp pv ip prev ≠ 0) ∧
    (pv.isgeomem ≠ 0 → pv.vmeslotnum ≤ 21 →
      (regaddr_basetmp pv 0 0 = 0 ↔ pv.vmeslotnum = 0)) ∧
    (pv.isgeomem = 0 →
      (regaddr_basetmp pv 0 0 = 0 ↔ (pv.memoffs / 64) % (1024 / pv.ipmemmode) = 0)) := by
  have hup : ∀ ip, 1 ≤ ip → ip ≤ 3 → ∀ prev, regaddr_basetmp pv ip prev ≠ 0 :=
    fun ip h1 h3 prev => regaddr_basetmp_upper pv ip prev h1 h3 hmode hgeo
  refine ⟨⟨?_, ?_⟩, regaddr_zero_base env pv regCalls hreg hmode hgeo, hup, ?_, ?_⟩
  · intro hok h0
    rw [regaddr_zero_base env pv regCalls hreg hmode hgeo h0] at hok
    exact absurd hok (by decide)
  · intro h0
    apply regaddr_ok env pv regCalls hreg
    intro ip hip prev
    simp only [NUMIPSLOTS] at hip
    by_cases hz : ip = 0
    · subst hz
      rw [regaddr_basetmp_prev pv 0 prev hmode hgeo]
      exact h0
    · exact hup ip (by omega) (by omega) prev
  · intro hg hs
    unfold regaddr_basetmp
    rw [if_pos hg]
    rcases hgeo hg with h | h <;> rw [h] <;>
      simp only [if_true, OfNat.ofNat_ne_one, if_false, Nat.zero_shiftLeft, Nat.or_zero,
        Nat.shiftLeft_eq, Nat.zero_mul] <;> omega
  · intro hg
    unfold regaddr_basetmp
    rw [if_neg (not_not.mpr hg)]
    rcases hmode with h | h | h | h <;> rw [h] <;>
      simp +decide only [if_true, if_false, Nat.zero_shiftLeft, Nat.or_zero,
        Nat.shiftLeft_eq, Nat.shiftRight_eq_div_pow, Nat.zero_mul] <;> omega

/-- C26 at the carrier in VME slot 3, 1 MB, geographic addressing. -/
theorem regaddr_ok_iff_base_witness : (regaddr goodEnv eagerSlot3 []).1 = OK :=
  (regaddr_ok_iff_base goodEnv eagerSlot3 [] (fun _ _ => rfl) (Or.inl rfl)
    (fun _ => Or.inl rfl)).1.mpr (by decide)

end Hy8002

/-- A multiple of `2 ^ k` and a number below `2 ^ k` share no bit. -/
theorem and_mul_pow_lt (k r B : Nat) (hB : B < 2 ^ k) : (2 ^ k * r) &&& B = 0 := by
  apply Nat.eq_of_testBit_eq
  intro i
  simp only [Nat.testBit_and, Nat.testBit_mul_pow_two, Nat.zero_testBit]
  by_cases hi : k ≤ i
  · have : B < 2 ^ i := lt_of_lt_of_le hB (Nat.pow_le_pow_right (by decide) hi)
    simp [Nat.testBit_lt_two_pow this]
  · simp [hi]

/-- A multiple of `2 ^ k`, for `k` in 22..25, taken as a 32-bit word, and a
number below `2 ^ k`: no bit is shared, or-ing is adding, and nothing wraps. -/
theorem or_base_slot (k q B : Nat) (hk1 : 22 ≤ k) (hk2 : k ≤ 25) (hB : B < 2 ^ k) :
    ((q * 2 ^ k) % 4294967296) &&& B = 0 ∧
    (((q * 2 ^ k) % 4294967296) ||| B) % 4294967296 = (q * 2 ^ k) % 4294967296 + B ∧
    ((q * 2 ^ k) ||| B) % 4294967296 = (q * 2 ^ k) % 4294967296 + B := by
  have e1 : (q * 2 ^ k) % 4294967296 = 2 ^ k * (q % 2 ^ (32 - k)) := by
    interval_cases k <;> simp only [Nat.reducePow, Nat.reduceSub] <;> omega
  have e2 : (q * 2 ^ k ||| B) = q * 2 ^ k + B := by
    rw [Nat.mul_comm q, Nat.mul_add_lt_is_or hB]
  have e3 : 2 ^ k * (q % 2 ^ (32 - k)) ||| B = 2 ^ k * (q % 2 ^ (32 - k)) + B :=
    (Nat.mul_add_lt_is_or hB _).symm
  have hlt : 2 ^ k * (q % 2 ^ (32 - k)) + B < 4294967296 := by
    have h1 : q % 2 ^ (32 - k) < 2 ^ (32 - k) := Nat.mod_lt _ (by positivity)
    interval_cases k <;> simp only [Nat.reducePow, Nat.reduceSub] at h1 hB ⊢ <;> omega
  refine ⟨?_, ?_, ?_⟩
  · rw [e1]; exact and_mul_pow_lt k _ B hB
  · rw [e1, e3, Nat.mod_eq_of_lt hlt]
  · rw [e2, e1]
    interval_cases k <;> simp only [Nat.reducePow, Nat.reduceSub] at hB ⊢ <;> omega

/-- C27: register-offset addressing in the two Hy8002 drivers.  For a
memory size `2 ^ j` MB with `j` in 0..3, an IP slot `I` in 0..3 and a MEMOFFS
value `m` with `((m & ~63) << j) < 65536`: the base that the legacy
`baseAddr` computes from `membase = (m & ~63) << j`, that is
`(membase << 16) | (I << (20 + j))`, equals the base
`((m >> 6) << (22 + j)) | (I << (20 + j))` that the eager `regaddr` computes,
modulo `2 ^ 32`; the slot term shares no bit with the base term, and the
base of slot `I` is the base of slot 0 plus `I * 2 ^ j` MB in both drivers.
The value of `membase` is the one that the legacy `initialise` stores for
the parameters `memoffs = m` and `ipmem = 2 ^ j`. -/
theorem register_offset_bases_agree (pvE : Hy8002.privinfo) (pvL : Hy8002Legacy.PrivateInfo)
    (m j I prev : Nat) (hj : j ≤ 3) (hI : I ≤ 3)
    (hm : (m / 64 * 64) <<< j < 65536)
    (hE : pvE.isgeomem = 0 ∧ pvE.ipmemmode = 2 ^ j ∧ pvE.memoffs = m)
    (hL : pvL.isgeomem = 0 ∧ pvL.ipmemmode = 2 ^ j ∧ pvL.membase = (m / 64 * 64) <<< j) :
    Hy8002Legacy.baseAddr_basetmp pvL I = Hy8002.regaddr_basetmp pvE I prev ∧
    Hy8002Legacy.baseAddr_basetmp pvL I
      = (((pvL.membase <<< 16) % 4294967296) ||| (I <<< (20 + j))) % 4294967296 ∧
    Hy8002.regaddr_basetmp pvE I prev
      = (((m >>> 6) <<< (22 + j)) ||| (I <<< (20 + j))) % 4294967296 ∧
    ((pvL.membase <<< 16) % 4294967296) &&& (I <<< (20 + j)) = 0 ∧
    (((m >>> 6) <<< (22 + j)) % 4294967296) &&& (I <<< (20 + j)) = 0 ∧
    Hy8002Legacy.baseAddr_basetmp pvL I
      = Hy8002Legacy.baseAddr_basetmp pvL 0 + I * (2 ^ j * 1048576) ∧
    Hy8002.regaddr_basetmp pvE I prev
      = Hy8002.regaddr_basetmp pvE 0 prev + I * (2 ^ j * 1048576) ∧
    (∀ o : Hy8002Legacy.ScanOut, o.memoffs = (m : Int) → o.ipmem = ((2 ^ j : Nat) : Int) →
      (Hy8002Legacy.initialise_csr o).map Prod.snd = some pvL.membase) := by
  obtain ⟨hE1, hE2, hE3⟩ := hE
  obtain ⟨hL1, hL2, hL3⟩ := hL
  have hB : I <<< (20 + j) < 2 ^ (22 + j) := by
    interval_cases j <;> interval_cases I <;> decide
  have hB0 : 0 <<< (20 + j) < 2 ^ (22 + j) := by
    rw [Nat.zero_shiftLeft]; positivity
  have hA : pvL.membase <<< 16 = (m / 64) * 2 ^ (22 + j) := by
    rw [hL3, Nat.shiftLeft_eq, Nat.shiftLeft_eq, show 22 + j = 6 + j + 16 by omega,
      Nat.pow_add, Nat.pow_add]
    ring
  have hA2 : (m >>> 6) <<< (22 + j) = (m / 64) * 2 ^ (22 + j) := by
    rw [Nat.shiftLeft_eq, Nat.shiftRight_eq_div_pow]
  obtain ⟨k1, k2, k3⟩ := or_base_slot (22 + j) (m / 64) (I <<< (20 + j)) (by omega) (by omega) hB
  obtain ⟨z1, z2, z3⟩ := or_base_slot (22 + j) (m / 64) (0 <<< (20 + j)) (by omega) (by omega)
    hB0
  have hslot : I <<< (20 + j) = I * (2 ^ j * 1048576) := by
    rw [Nat.shiftLeft_eq, Nat.add_comm, Nat.pow_add]
  have eL : ∀ s, Hy8002Legacy.baseAddr_basetmp pvL s
      = (((pvL.membase <<< 16) % 4294967296) ||| (s <<< (20 + j))) % 4294967296 := by
    intro s
    unfold Hy8002Legacy.baseAddr_basetmp
    rw [if_neg (not_not.mpr hL1), hL2]
    interval_cases j <;> rfl
  have eE : ∀ s, Hy8002.regaddr_basetmp pvE s prev
      = (((m >>> 6) <<< (22 + j)) ||| (s <<< (20 + j))) % 4294967296 := by
    intro s
    unfold Hy8002.regaddr_basetmp
    rw [if_neg (not_not.mpr hE1), hE2, hE3]
    interval_cases j <;> rfl
  refine ⟨?_, eL I, eE I, ?_, ?_, ?_, ?_, ?_⟩
  · rw [eL, eE, hA, hA2, k2, k3]
  · rw [hA]; exact k1
  · rw [hA2]; exact k1
  · rw [eL I, eL 0, hA, k2, z2, Nat.zero_shiftLeft, hslot]; omega
  · rw [eE I, eE 0, hA2, k3, z3, Nat.zero_shiftLeft, hslot]; omega
  · intro o ho1 ho2
    have hmw : m < 65536 := by
      rw [Nat.shiftLeft_eq] at hm
      have : 1 ≤ 2 ^ j := Nat.one_le_two_pow
      have h3 : m / 64 * 64 ≤ m / 64 * 64 * 2 ^ j := Nat.le_mul_of_pos_right _ (by omega)
      omega
    have hw : CLib.toWord o.memoffs = m := by
      rw [ho1]; simp only [CLib.toWord]; omega
    unfold Hy8002Legacy.initialise_csr
    rw [hL3, Nat.shiftLeft_eq] at *
    interval_cases j <;> simp +decide [ho2, hw] <;> omega

/-- C27 at MEMOFFS `0x80`, 2 MB, IP slot 3: both drivers compute
`0x01600000`. -/
theorem register_offset_bases_agree_witness :
    Hy8002Legacy.baseAddr_basetmp
      { legacyFresh3 with isgeomem := 0, ipmemmode := 2, membase := 0x100 } 3 = 0x01600000 ∧
    Hy8002.regaddr_basetmp
      { eagerSlot3 with isgeomem := 0, ipmemmode := 2, memoffs := 0x80 } 3 0 = 0x01600000 := by
  have h := register_offset_bases_agree
    { eagerSlot3 with isgeomem := 0, ipmemmode := 2, memoffs := 0x80 }
    { legacyFresh3 with isgeomem := 0, ipmemmode := 2, membase := 0x100 }
    0x80 1 3 0 (by decide) (by decide) (by decide) ⟨rfl, rfl, rfl⟩ ⟨rfl, rfl, by decide⟩
  exact ⟨h.2.1.trans (by decide), h.2.2.1.trans (by decide)⟩
